import Mathlib

/-!
UniPro TX DMA egress engine (`arch/arm/src/tsb/tsb_unipro_tx_dma.c`).

A shallow embedding of the transfer engine: the per-CPort queue of transfer
descriptors, the round-robin picker, the DMA submission routine, the DMA
completion handler and the reset flush.

Conventions of the embedding

* A `struct cport *` is represented by the CPort id it was looked up with
  (`cport_handle(cportid)`), so `cport->cportid` reads that id back.
* A `struct unipro_xfer_descriptor *` is an address into `State.heap`.
  `zalloc` returns the next fresh address; `free` records the release in the
  trace and leaves the memory contents in place.
* The intrusive list `cport->tx_fifo` is the list of the addresses linked into
  it, front first.
* A `struct dma_channel *` is an index into `unipro_dma.dma_channels`.
* Nullable pointers that the code tests are `Option`s; opaque pointers
  (`data`, `priv`, `tx_buf`) are plain numbers.
* Calls into collaborators that return a value the code looks at (allocators,
  the DMA and ATABL drivers, the free-space register) take that value as an
  argument; calls made for their effect are appended to `State.trace`.
-/

namespace Unipro

/-! ## Constants -/

/-- Value of `OK`. -/
def OK : Int := 0
/-- Value of `ENOMEM` in errno.h. -/
def ENOMEM : Int := 12
/-- Value of `ENODEV` in errno.h. -/
def ENODEV : Int := 19
/-- Value of `EINVAL` in errno.h. -/
def EINVAL : Int := 22
/-- Value of `ENOSPC` in errno.h. -/
def ENOSPC : Int := 28
/-- Value of `EPIPE` in errno.h. -/
def EPIPE : Int := 32
/-- Value of `ECONNRESET` in errno.h. -/
def ECONNRESET : Int := 104

/-- One more than the largest `size_t` of the 32-bit target. -/
def SIZE_MOD : Nat := 2 ^ 32

/-- The sentinel stored in `dma_channel.cportid` while the ATABL request is unmapped. -/
def UNBOUND : Nat := 0xFFFF

/-- Chip revisions told apart by `tsb_get_rev_id() == tsb_rev_es2`. -/
inductive tsb_rev where
  | tsb_rev_es2
  | tsb_rev_es3
  deriving DecidableEq, Repr

/-! ## Data model -/

/-- The `struct dma_channel` record. -/
structure dma_channel where
  chan : Nat
  req : Nat
  cportid : Nat
  deriving DecidableEq, Repr

/-- The `struct unipro_xfer_descriptor` record, without its list link. -/
structure unipro_xfer_descriptor where
  cport : Nat
  data : Nat
  len : Nat
  priv : Nat
  callback : Option Nat
  data_offset : Nat
  channel : Option Nat
  deriving DecidableEq, Repr

/-- The fields of `struct cport` that the engine reads or writes. -/
structure cport where
  tx_fifo : List Nat
  pending_reset : Bool
  reset_completion_cb : Option Nat
  reset_completion_cb_priv : Nat
  tx_buf : Nat
  deriving DecidableEq, Repr

/-- The event mask handed to the DMA callback, reduced to the two bits the handler tests. -/
structure dma_event where
  start : Bool
  complete : Bool
  deriving DecidableEq, Repr

/-- One scatter-gather entry of a DMA op. -/
structure device_dma_op_sg where
  src_addr : Nat
  dst_addr : Nat
  len : Nat
  deriving DecidableEq, Repr

/-- The fields of `struct device_dma_op` that `unipro_dma_xfer` fills in
(`callback` is always `unipro_dma_tx_callback`). -/
structure device_dma_op where
  callback_arg : Nat
  callback_events : dma_event
  sg_count : Nat
  sg : List device_dma_op_sg
  deriving DecidableEq, Repr

/-- An op held by the DMA driver: the channel it was enqueued on and whether
its START event has been delivered. -/
structure dma_pending where
  channel : Nat
  op : device_dma_op
  started : Bool
  deriving DecidableEq, Repr

/-- Values the ATABL driver returns to the START branch of the DMA callback. -/
structure atabl_results where
  req_is_activated : Int
  connect_cport_to_req : Int
  activate_req : Int
  deriving DecidableEq, Repr

/-- Calls made for their effect, in program order. -/
inductive Event where
  | callback (desc : Nat) (fn : Nat) (status : Int) (data : Nat) (priv : Nat)
  | free (desc : Nat)
  | reset_cport (cportid : Nat)
  | reset_completion (fn : Nat) (cportid : Nat) (priv : Nat)
  | eom (cport : Nat)
  | dma_op_free (op : device_dma_op)
  | dma_enqueue (channel : Nat) (op : device_dma_op)
  | atabl_req_is_activated (req : Nat)
  | atabl_deactivate_req (req : Nat)
  | atabl_disconnect_cport_from_req (req : Nat)
  | atabl_connect_cport_to_req (cportid : Nat) (req : Nat)
  | atabl_activate_req (req : Nat)
  | atabl_transfer_completed (req : Nat)
  | device_open (dev : Nat)
  | device_close (dev : Nat)
  | unipro_write (cport : Nat) (value : Nat)
  | atabl_req_alloc (req : Nat)
  | atabl_req_free (req : Nat)
  | dma_chan_alloc (chan : Nat)
  | dma_chan_free (channel : Nat)
  deriving DecidableEq, Repr

/-- The engine state: the statics of the file together with the CPort directory,
the descriptor memory and the hardware it talks to. -/
structure State where
  /-- Result of `tsb_get_rev_id()`. -/
  rev_id : tsb_rev
  /-- Result of `unipro_cport_count()`. -/
  cport_count : Nat
  /-- The CPort directory behind `cport_handle()`; `none` is an id without a handle. -/
  cporttable : List (Option cport)
  /-- Descriptor memory, indexed by address. -/
  heap : List unipro_xfer_descriptor
  /-- The array `unipro_dma.dma_channels`. -/
  dma_channels : List dma_channel
  /-- The counter `unipro_dma.max_channel`. -/
  max_channel : Nat
  /-- Count of the semaphore `worker.tx_fifo_lock`. -/
  tx_fifo_lock : Nat
  /-- Ops accepted by `device_dma_enqueue` and not yet completed or aborted. -/
  dma_queue : List dma_pending
  /-- Effects so far, oldest first. -/
  trace : List Event
  /-- The handle `unipro_dma.dev`; `none` is `NULL`. -/
  dev : Option Nat := none
  /-- The handle `unipro_dma.atabl_dev`; `none` is `NULL`. -/
  atabl_dev : Option Nat := none
  deriving DecidableEq, Repr

/-- Contents of freshly `zalloc`ed descriptor memory. -/
def zero_desc : unipro_xfer_descriptor :=
  { cport := 0, data := 0, len := 0, priv := 0, callback := none,
    data_offset := 0, channel := none }

/-- Lookup `cport_handle(cportid)` in the CPort directory, which is not among the
sources and is taken as part of the state: the CPort, or `none` for `NULL`. -/
def cport_handle (s : State) (cportid : Nat) : Option cport :=
  match s.cporttable[cportid]? with
  | some (some c) => some c
  | _ => none

/-- Store through a `struct cport *`. -/
def set_cport (s : State) (cportid : Nat) (c : cport) : State :=
  { s with cporttable := s.cporttable.set cportid (some c) }

/-- Read through a descriptor pointer. -/
def deref (s : State) (desc : Nat) : unipro_xfer_descriptor :=
  s.heap.getD desc zero_desc

/-- Store through a descriptor pointer. -/
def set_desc (s : State) (desc : Nat) (d : unipro_xfer_descriptor) : State :=
  { s with heap := s.heap.set desc d }

/-- Append one effect to the trace. -/
def emit (s : State) (e : Event) : State :=
  { s with trace := s.trace ++ [e] }

/-- Effect of `sem_post(&worker.tx_fifo_lock)`. -/
def sem_post (s : State) : State :=
  { s with tx_fifo_lock := s.tx_fifo_lock + 1 }

/-- Modelled from the spec: `list_add` of `nuttx/list.h`, which is not among the
sources; the spec has it append the node to the list (the new descriptor
becomes the last element of `cport.tx_fifo`). -/
def list_add (s : State) (cportid : Nat) (c : cport) (desc : Nat) : State :=
  set_cport s cportid { c with tx_fifo := c.tx_fifo ++ [desc] }

/-- Function `unipro_send_async`. The argument `zalloc_ok` is whether `zalloc`
returns memory. -/
def unipro_send_async (s : State) (cportid buf len : Nat) (callback : Option Nat)
    (priv : Nat) (zalloc_ok : Bool) : Int × State :=
  match cport_handle s cportid with
  | none => (-EINVAL, s)
  | some c =>
    if c.pending_reset then (-EPIPE, s)
    else if !zalloc_ok then (-ENOMEM, s)
    else
      let desc := s.heap.length
      let d : unipro_xfer_descriptor :=
        { zero_desc with data := buf, len := len, data_offset := 0,
                         callback := callback, priv := priv, cport := cportid }
      let s1 : State := { s with heap := s.heap ++ [d] }
      let s2 := list_add s1 cportid c desc
      (0, sem_post s2)

/-- The `struct cport` behind a pointer obtained from `cport_handle`. -/
def cport_at (s : State) (cportid : Nat) : cport :=
  (cport_handle s cportid).getD
    { tx_fifo := [], pending_reset := false, reset_completion_cb := none,
      reset_completion_cb_priv := 0, tx_buf := 0 }

/-- Modelled from the spec: `list_del` of `nuttx/list.h`, which is not among the
sources; the spec has it remove the descriptor from its CPort queue. The node
leaves the list it is linked into, and a node that is in no list is left
alone. -/
def list_del (s : State) (desc : Nat) : State :=
  { s with cporttable :=
      s.cporttable.map (Option.map fun c => { c with tx_fifo := c.tx_fifo.erase desc }) }

/-- Function `pick_dma_channel`; `none` is the division by zero of an empty pool. -/
def pick_dma_channel (s : State) (cport : Nat) : Option Nat :=
  if s.max_channel = 0 then none else some (cport % s.max_channel)

/-- Function `unipro_dequeue_tx_desc`. -/
def unipro_dequeue_tx_desc (s : State) (desc : Nat) (status : Int) : State :=
  let s1 := list_del s desc
  let d := deref s1 desc
  let s2 := match d.callback with
    | some fn => emit s1 (Event.callback desc fn status d.data d.priv)
    | none => s1
  emit s2 (Event.free desc)

/-- The `while (!list_is_empty(&cport->tx_fifo))` loop of `unipro_flush_cport`,
bounded by a number of iterations. -/
def flush_loop : Nat → State → Nat → State
  | 0, s, _ => s
  | fuel + 1, s, cportid =>
    match (cport_at s cportid).tx_fifo with
    | [] => s
    | desc :: _ => flush_loop fuel (unipro_dequeue_tx_desc s desc (-ECONNRESET)) cportid

/-- Function `unipro_flush_cport`. The loop gets one iteration per queued
descriptor, which is all it can use (`flush_loop_spec`). -/
def unipro_flush_cport (s : State) (cportid : Nat) : State :=
  let s1 := flush_loop (cport_at s cportid).tx_fifo.length s cportid
  let s2 := emit s1 (Event.reset_cport cportid)
  let s3 := set_cport s2 cportid { cport_at s2 cportid with pending_reset := false }
  let c := cport_at s3 cportid
  let s4 := match c.reset_completion_cb with
    | some fn => emit s3 (Event.reset_completion fn cportid c.reset_completion_cb_priv)
    | none => s3
  set_cport s4 cportid
    { cport_at s4 cportid with reset_completion_cb := none, reset_completion_cb_priv := 0 }

/-- What `pick_tx_descriptor` hands back. -/
inductive pick_result where
  /-- A descriptor pointer. -/
  | found (desc : Nat)
  /-- The `NULL` after a scan that found nothing. -/
  | null
  /-- The scan took `containerof(cport->tx_fifo.next, ...)` of an empty list: the
  pointer is not a descriptor and the reads through it are undefined. -/
  | stray (cportid : Nat)
  deriving DecidableEq, Repr

/-- The `for` loop of `pick_tx_descriptor` with `n` iterations left; `free` is
the reading `unipro_get_tx_free_buffer_space` gives for each CPort. -/
def pick_loop (free : Nat → Nat) (cport_count : Nat) : Nat → State → Nat → pick_result × State
  | 0, s, _ => (pick_result.null, s)
  | n + 1, s, cportid =>
    let cportid := cportid % cport_count
    match cport_handle s cportid with
    | none => pick_loop free cport_count n s (cportid + 1)
    | some c =>
      match c.tx_fifo with
      | [] =>
        let s1 := if c.pending_reset then unipro_flush_cport s cportid else s
        pick_loop free cport_count n s1 (cportid + 1)
      | _ :: _ =>
        let s1 := if c.pending_reset then unipro_flush_cport s cportid else s
        match (cport_at s1 cportid).tx_fifo with
        | [] => (pick_result.stray cportid, s1)
        | desc :: _ =>
          if (deref s1 desc).channel.isSome then
            pick_loop free cport_count n s1 (cportid + 1)
          else if free (deref s1 desc).cport = 0 then
            pick_loop free cport_count n s1 (cportid + 1)
          else (pick_result.found desc, s1)

/-- Function `pick_tx_descriptor`. -/
def pick_tx_descriptor (free : Nat → Nat) (s : State) (cportid : Nat) : pick_result × State :=
  pick_loop free s.cport_count s.cport_count s cportid

/-- Function `unipro_dma_tx_set_eom_flag`. -/
def unipro_dma_tx_set_eom_flag (s : State) (cport : Nat) : State :=
  emit s (Event.eom cport)

/-- Function `unipro_xfer_dequeue_descriptor`. -/
def unipro_xfer_dequeue_descriptor (s : State) (desc : Nat) : State :=
  emit (list_del s desc) (Event.free desc)

/-- Store to `desc_chan->cportid`. -/
def set_channel_cportid (s : State) (channel : Nat) (cportid : Nat) : State :=
  { s with dma_channels :=
      s.dma_channels.modify (fun dc => { dc with cportid := cportid }) channel }

/-- The START branch of `unipro_dma_tx_callback` on a chip that is not ES2.
`none` is a read through a `desc->channel` that is `NULL` or outside the
array; otherwise the value is `retval` together with whether the branch
returned from the function. -/
def dma_tx_callback_start (s : State) (desc : Nat) (r : atabl_results) :
    Option (Int × Bool × State) :=
  let d := deref s desc
  match d.channel with
  | none => none
  | some ch =>
    match s.dma_channels[ch]? with
    | none => none
    | some desc_chan =>
      let req_activated : Int :=
        if desc_chan.cportid ≠ 0xFFFF then r.req_is_activated else 0
      let s1 := if desc_chan.cportid ≠ 0xFFFF
        then emit s (Event.atabl_req_is_activated desc_chan.req) else s
      let s2 := if req_activated ≠ 0
        then emit s1 (Event.atabl_deactivate_req desc_chan.req) else s1
      let s4 :=
        if desc_chan.cportid ≠ d.cport then
          let s3 := if desc_chan.cportid ≠ 0xFFFF
            then set_channel_cportid
              (emit s2 (Event.atabl_disconnect_cport_from_req desc_chan.req)) ch 0xffff
            else s2
          emit s3 (Event.atabl_connect_cport_to_req d.cport desc_chan.req)
        else s2
      let retval := r.activate_req
      let s5 := emit s4 (Event.atabl_activate_req desc_chan.req)
      if retval ≠ 0 then some (retval, true, s5)
      else some (retval, false, set_channel_cportid s5 ch d.cport)

/-- The COMPLETE branch of `unipro_dma_tx_callback`; `none` is a read through a
`desc->channel` that is `NULL` or outside the array. -/
def dma_tx_callback_complete (s : State) (op : device_dma_op) (desc : Nat) : Option State :=
  let d := deref s desc
  if d.data_offset ≥ d.len then
    let s1 := unipro_dma_tx_set_eom_flag s d.cport
    let s2 := list_del s1 desc
    let s3 := emit s2 (Event.dma_op_free op)
    let s4 := match d.callback with
      | some fn => emit s3 (Event.callback desc fn 0 d.data d.priv)
      | none => s3
    if s.rev_id ≠ tsb_rev.tsb_rev_es2 then
      match d.channel with
      | none => none
      | some ch =>
        match s.dma_channels[ch]? with
        | none => none
        | some desc_chan =>
          some (unipro_xfer_dequeue_descriptor
            (emit s4 (Event.atabl_transfer_completed desc_chan.req)) desc)
    else some (unipro_xfer_dequeue_descriptor s4 desc)
  else
    some (sem_post (set_desc s desc { d with channel := none }))

/-- Function `unipro_dma_tx_callback`: the value returned and the state it
leaves, or `none` when it reads through an invalid channel pointer. -/
def unipro_dma_tx_callback (s : State) (op : device_dma_op) (event : dma_event)
    (arg : Nat) (r : atabl_results) : Option (Int × State) :=
  let desc := arg
  let afterStart : Option (Int × Bool × State) :=
    if event.start ∧ s.rev_id ≠ tsb_rev.tsb_rev_es2 then dma_tx_callback_start s desc r
    else some (OK, false, s)
  match afterStart with
  | none => none
  | some (retval, true, s1) => some (retval, s1)
  | some (retval, false, s1) =>
    if event.complete then
      match dma_tx_callback_complete s1 op desc with
      | none => none
      | some s2 => some (retval, s2)
    else some (retval, s1)

/-- The transfer length `unipro_dma_xfer` computes once the ES2 free-space test
has passed; `size_t` subtraction wraps. -/
def dma_xfer_len (s : State) (desc free_space : Nat) : Nat :=
  let d := deref s desc
  if s.rev_id = tsb_rev.tsb_rev_es2 then
    min ((d.len + SIZE_MOD - d.data_offset) % SIZE_MOD) free_space
  else d.len

/-- The DMA op `unipro_dma_xfer` fills in. -/
def dma_xfer_op (s : State) (desc free_space : Nat) : device_dma_op :=
  let d := deref s desc
  let cport_buf := (cport_at s d.cport).tx_buf
  let xfer_buf := d.data
  { callback_arg := desc,
    callback_events :=
      { complete := true, start := decide (s.rev_id ≠ tsb_rev.tsb_rev_es2) },
    sg_count := 1,
    sg := [{ len := dma_xfer_len s desc free_space,
             src_addr := if d.data_offset ≠ 0 then xfer_buf + d.data_offset else xfer_buf,
             dst_addr := if d.data_offset ≠ 0 then cport_buf + 8 else cport_buf }] }

/-- The condition of the `DEBUGASSERT` at the head of the non-ES2 branch of
`unipro_dma_xfer`. -/
def dma_xfer_assert (s : State) (desc : Nat) : Bool :=
  decide (s.rev_id = tsb_rev.tsb_rev_es2) || decide ((deref s desc).data_offset = 0)

/-- Function `unipro_dma_xfer`. The arguments after `channel` are the reading of
`unipro_get_tx_free_buffer_space` (looked at on ES2 only) and the values
returned by `device_dma_op_alloc` and `device_dma_enqueue`. -/
def unipro_dma_xfer (s : State) (desc channel free_space : Nat)
    (op_alloc_ret enqueue_ret : Int) : Int × State :=
  let d := deref s desc
  if s.rev_id = tsb_rev.tsb_rev_es2 ∧ free_space = 0 then (-ENOSPC, s)
  else
    let xfer_len := dma_xfer_len s desc free_space
    let s1 := set_desc s desc { d with channel := some channel }
    if op_alloc_ret ≠ OK then (op_alloc_ret, s1)
    else
      let dma_op := dma_xfer_op s desc free_space
      let s2 := set_desc s1 desc
        { d with channel := some channel,
                 data_offset := (d.data_offset + xfer_len) % SIZE_MOD }
      if enqueue_ret ≠ 0 then (enqueue_ret, s2)
      else
        (0, { emit s2 (Event.dma_enqueue channel dma_op) with
                dma_queue := s2.dma_queue ++
                  [{ channel := channel, op := dma_op, started := false }] })

/-- Function `unipro_reset_notify`. -/
def unipro_reset_notify (s : State) (_cportid : Nat) : State :=
  sem_post s

/-- Modelled from the spec: the CPort layer's reset request, which is not among
the sources. It sets `pending_reset` and the completion hook of the CPort and
then calls `unipro_reset_notify`. -/
def cport_reset_request (s : State) (cportid : Nat) (cb : Option Nat) (priv : Nat) : State :=
  match cport_handle s cportid with
  | none => s
  | some c =>
    unipro_reset_notify
      (set_cport s cportid
        { c with pending_reset := true, reset_completion_cb := cb,
                 reset_completion_cb_priv := priv })
      cportid

/-! ## The engine as a transition system -/

/-- Where the worker thread `unipro_tx_worker` stands. -/
inductive worker_pc where
  /-- Blocked in `sem_wait(&worker.tx_fifo_lock)`. -/
  | waiting
  /-- Inside the inner `while`, about to call `pick_tx_descriptor(next_cport)`. -/
  | draining (next_cport : Nat)
  deriving DecidableEq, Repr

/-- The engine state together with the worker's local state. -/
structure System where
  st : State
  worker : worker_pc
  deriving DecidableEq, Repr

/-- Modelled from the spec: the DMA driver, which is not among the sources,
drops an op once it has delivered its COMPLETE event or has aborted it. -/
def dma_retire (s : State) (p : dma_pending) : State :=
  { s with dma_queue := s.dma_queue.erase p }

/-- Modelled from the spec: the DMA driver, which is not among the sources,
delivers the START event of an op once, before its COMPLETE event. -/
def dma_mark_started (s : State) (p : dma_pending) : State :=
  { s with dma_queue := (s.dma_queue.erase p) ++ [{ p with started := true }] }

/-- The START-only event mask. -/
def EVENT_START : dma_event := { start := true, complete := false }

/-- The COMPLETE-only event mask. -/
def EVENT_COMPLETE : dma_event := { start := false, complete := true }

/-- One atomic step of the engine: a producer's `unipro_send_async` (whose `len`
is a `size_t`), the worker
waking up, one iteration of the worker's inner loop, the worker going back
to sleep, or the DMA driver delivering START or COMPLETE for an op it holds
(a START that returns non-zero aborts the op). -/
inductive Step : System → System → Prop where
  | send_async (sys : System) (cportid buf len : Nat) (callback : Option Nat)
      (priv : Nat) (zalloc_ok : Bool) :
      len < SIZE_MOD →
      Step sys { sys with
        st := (unipro_send_async sys.st cportid buf len callback priv zalloc_ok).2 }
  | worker_wake (sys : System) :
      sys.worker = worker_pc.waiting → 0 < sys.st.tx_fifo_lock →
      Step sys { st := { sys.st with tx_fifo_lock := sys.st.tx_fifo_lock - 1 },
                 worker := worker_pc.draining 0 }
  | worker_xfer (sys : System) (next_cport : Nat) (free : Nat → Nat)
      (desc channel : Nat) (s1 : State) (free_space : Nat)
      (op_alloc_ret enqueue_ret : Int) :
      sys.worker = worker_pc.draining next_cport →
      pick_tx_descriptor free sys.st next_cport = (pick_result.found desc, s1) →
      pick_dma_channel s1 (deref s1 desc).cport = some channel →
      Step sys
        { st := (unipro_dma_xfer s1 desc channel free_space op_alloc_ret enqueue_ret).2,
          worker := worker_pc.draining ((deref s1 desc).cport + 1) }
  | worker_sleep (sys : System) (next_cport : Nat) (free : Nat → Nat) (s1 : State) :
      sys.worker = worker_pc.draining next_cport →
      pick_tx_descriptor free sys.st next_cport = (pick_result.null, s1) →
      Step sys { st := s1, worker := worker_pc.waiting }
  | dma_start (sys : System) (p : dma_pending) (r : atabl_results)
      (retval : Int) (s1 : State) :
      p ∈ sys.st.dma_queue → p.op.callback_events.start = true → p.started = false →
      unipro_dma_tx_callback sys.st p.op EVENT_START p.op.callback_arg r
        = some (retval, s1) →
      Step sys { sys with
        st := if retval = 0 then dma_mark_started s1 p else dma_retire s1 p }
  | dma_complete (sys : System) (p : dma_pending) (r : atabl_results)
      (retval : Int) (s1 : State) :
      p ∈ sys.st.dma_queue →
      (p.op.callback_events.start = true → p.started = true) →
      unipro_dma_tx_callback sys.st p.op EVENT_COMPLETE p.op.callback_arg r
        = some (retval, s1) →
      Step sys { sys with st := dma_retire s1 p }

/-! ## States used to instantiate the theorems -/

/-- A CPort with nothing queued and no reset pending. -/
def idle_cport : cport :=
  { tx_fifo := [], pending_reset := false, reset_completion_cb := none,
    reset_completion_cb_priv := 0, tx_buf := 4096 }

/-- A non-ES2 engine after initialisation: four CPort ids, of which id 1 has no
handle and id 2 has a reset pending, and two DMA channels. -/
def boot_state : State :=
  { rev_id := tsb_rev.tsb_rev_es3, cport_count := 4,
    cporttable := [some idle_cport, none,
                   some { idle_cport with pending_reset := true }, some idle_cport],
    heap := [], max_channel := 2,
    dma_channels := [{ chan := 1, req := 1, cportid := 0xFFFF },
                     { chan := 2, req := 2, cportid := 0xFFFF }],
    tx_fifo_lock := 0, dma_queue := [], trace := [] }

/-! ## The picker as a search -/

/-- The CPort ids in the order in which a scan over `n` ids visits them when it
starts at `start`: `start mod n`, `(start + 1) mod n`, and so on. -/
def scan_order (n start : Nat) : List Nat :=
  (List.range n).map (fun k => (start + k) % n)

/-- What the spec lets the picker take from a CPort: the front of its queue,
provided the CPort has a handle, its queue is not empty, the front descriptor
has no channel and the CPort has free TX buffer space. -/
def ready_desc (free : Nat → Nat) (s : State) (cportid : Nat) : Option Nat :=
  match cport_handle s cportid with
  | none => none
  | some c =>
    match c.tx_fifo with
    | [] => none
    | desc :: _ =>
      if (deref s desc).channel = none ∧ free cportid ≠ 0 then some desc else none

/-- The spec's picker: the first CPort in scan order that is ready. -/
def pick_first_match (free : Nat → Nat) (s : State) (start : Nat) : pick_result :=
  match (scan_order s.cport_count start).findSome? (ready_desc free s) with
  | some desc => pick_result.found desc
  | none => pick_result.null

/-- The data-model invariant that a queued descriptor's `cport` field points
at the CPort whose `tx_fifo` holds it. -/
def owned (s : State) : Prop :=
  ∀ id c, cport_handle s id = some c → ∀ a ∈ c.tx_fifo, (deref s a).cport = id

/-- No CPort has a reset pending. -/
def no_pending_reset (s : State) : Prop :=
  ∀ id c, cport_handle s id = some c → c.pending_reset = false
/-- A state with work queued: CPort 0 holds descriptor 0, which is bound to a
channel, and CPort 3 holds descriptors 1 and 2, which are not. -/
def busy_state : State :=
  { boot_state with
    cporttable := [some { idle_cport with tx_fifo := [0] }, none,
                   some idle_cport, some { idle_cport with tx_fifo := [1, 2] }],
    heap := [{ zero_desc with cport := 0, len := 8, channel := some 0 },
             { zero_desc with cport := 3, len := 16, callback := some 7 },
             { zero_desc with cport := 3, len := 4 }] }

/-- The effects of releasing a descriptor with a status: its callback, when it
has one, called with the status and the descriptor's `data` and `priv`, and
then its `free`. -/
def release_events (s : State) (status : Int) (desc : Nat) : List Event :=
  (match (deref s desc).callback with
    | some fn => [Event.callback desc fn status (deref s desc).data (deref s desc).priv]
    | none => []) ++ [Event.free desc]

/-- A decision procedure for `owned`. -/
def owned_check (s : State) : Bool :=
  (List.range s.cporttable.length).all fun id =>
    match cport_handle s id with
    | none => true
    | some c => c.tx_fifo.all fun a => decide ((deref s a).cport = id)

/-- The state `busy_state` with a reset requested on CPort 3, whose completion
hook is function 11 with argument 77. -/
def reset_state : State :=
  { busy_state with
    cporttable := [some { idle_cport with tx_fifo := [0] }, none, some idle_cport,
                   some { idle_cport with tx_fifo := [1, 2], pending_reset := true,
                                          reset_completion_cb := some 11,
                                          reset_completion_cb_priv := 77 }] }

/-- An ES2 engine with one channel and one CPort, whose queue holds descriptor 0
of 1024 bytes with callback 7. -/
def es2_state : State :=
  { rev_id := tsb_rev.tsb_rev_es2, cport_count := 1,
    cporttable := [some { idle_cport with tx_fifo := [0] }],
    heap := [{ zero_desc with cport := 0, data := 8192, len := 1024, callback := some 7,
                              priv := 5 }],
    max_channel := 1, dma_channels := [{ chan := 1, req := 0, cportid := 0xFFFF }],
    tx_fifo_lock := 1, dma_queue := [], trace := [] }

/-! ## The ES2 resume cycle -/

/-- One round of the ES2 resume cycle for a descriptor the worker has picked:
`unipro_dma_xfer` with free-space reading `f`, the driver accepting the op,
then the driver's COMPLETE event for that op, after which the driver retires
it. The flag tells whether COMPLETE saw `data_offset >= len`. -/
def es2_round (s : State) (desc channel f : Nat) : Option (Bool × State) :=
  let s1 := (unipro_dma_xfer s desc channel f OK 0).2
  let p : dma_pending :=
    { channel := channel, op := dma_xfer_op s desc f, started := false }
  match unipro_dma_tx_callback s1 p.op EVENT_COMPLETE desc
      { req_is_activated := 0, connect_cport_to_req := 0, activate_req := 0 } with
  | none => none
  | some (_, s2) =>
    some (decide ((deref s1 desc).data_offset ≥ (deref s1 desc).len), dma_retire s2 p)

/-- Rounds of the ES2 resume cycle, one per free-space reading, until a
COMPLETE releases the descriptor: the length of each op submitted and the
state after its COMPLETE. -/
def es2_transfer : List Nat → State → Nat → Nat → List (Nat × State)
  | [], _, _, _ => []
  | f :: fs, s, desc, channel =>
    match es2_round s desc channel f with
    | none => []
    | some (true, s') => [(dma_xfer_len s desc f, s')]
    | some (false, s') => (dma_xfer_len s desc f, s') :: es2_transfer fs s' desc channel

/-- The events a peer of the engine sees: EOM strobes and user callbacks. -/
def is_eom_or_callback : Event → Bool
  | Event.eom _ => true
  | Event.callback _ _ _ _ _ => true
  | _ => false

/-- The non-ES2 state `boot_state` after `unipro_send_async(3, buf, 3, cb, priv)`
(scenario S1) has queued descriptor 0 on CPort 3 and the worker has submitted
it on channel `3 mod 2 = 1`. -/
def submitted_state : State :=
  (unipro_dma_xfer (unipro_send_async boot_state 3 8192 3 (some 9) 5 true).2 0 1 0 OK 0).2

/-- An ES2 engine after initialisation: one CPort, nothing queued, one channel. -/
def es2_boot_state : State :=
  { rev_id := tsb_rev.tsb_rev_es2, cport_count := 1,
    cporttable := [some idle_cport], heap := [],
    max_channel := 1, dma_channels := [{ chan := 1, req := 0, cportid := 0xFFFF }],
    tx_fifo_lock := 0, dma_queue := [], trace := [] }

/-- An execution that resets a CPort while its descriptor is in flight, on ES2:
`unipro_send_async(0, buf, 1024, cb = 7, priv = 5)` is accepted; the worker
picks the descriptor, submits all of it with `unipro_dma_xfer` (free space
2048), finds nothing more to pick and goes back to sleep; the CPort layer
requests a reset of CPort 0, which wakes the worker; the worker's
`pick_tx_descriptor(0)` flushes the CPort. The value is the state in which
that `pick_tx_descriptor` stops. -/
def reset_in_flight_state : State :=
  let s1 := (unipro_send_async es2_boot_state 0 8192 1024 (some 7) 5 true).2
  let s2 := (unipro_dma_xfer s1 0 0 2048 OK 0).2
  let s3 := (pick_tx_descriptor (fun _ => 2048) s2 1).2
  let s4 := cport_reset_request s3 0 none 0
  (pick_tx_descriptor (fun _ => 2048) s4 0).2

/-! ## Reachable states and channel ownership -/

/-- What a successful `unipro_tx_init` leaves when no transfer has been requested
yet: `tx_fifo_lock` is 0 (`sem_init`), at least one channel is in the pool
(`max_channel > 0`), each channel of the pool is unbound (`cportid = 0xFFFF`),
the DMA driver holds no op, the worker has been created and every CPort has
an empty queue and no reset pending. -/
def Init (sys : System) : Prop :=
  sys.worker = worker_pc.waiting ∧ sys.st.tx_fifo_lock = 0 ∧
  1 ≤ sys.st.max_channel ∧ sys.st.max_channel ≤ sys.st.dma_channels.length ∧
  (∀ i dc, i < sys.st.max_channel → sys.st.dma_channels[i]? = some dc →
    dc.cportid = UNBOUND) ∧
  sys.st.dma_queue = [] ∧
  (∀ id c, cport_handle sys.st id = some c → c.tx_fifo = [] ∧ c.pending_reset = false)

/-- States the engine can be in after initialisation. -/
def Reachable (sys : System) : Prop :=
  ∃ sys0, Init sys0 ∧ Relation.ReflTransGen Step sys0 sys

/-- Channel mutual exclusion as the spec words it: no channel is the `channel`
of two queued descriptors. -/
def channel_exclusive (s : State) : Prop :=
  ∀ id1 c1 a1 id2 c2 a2 ch,
    cport_handle s id1 = some c1 → a1 ∈ c1.tx_fifo →
    cport_handle s id2 = some c2 → a2 ∈ c2.tx_fifo →
    (deref s a1).channel = some ch → (deref s a2).channel = some ch → a1 = a2

/-- Channel exclusion within one CPort: no channel is the `channel` of two
descriptors queued on the same CPort. -/
def channel_exclusive_per_cport (s : State) : Prop :=
  ∀ id c a1 a2 ch,
    cport_handle s id = some c → a1 ∈ c.tx_fifo → a2 ∈ c.tx_fifo →
    (deref s a1).channel = some ch → (deref s a2).channel = some ch → a1 = a2

/-- Only the front descriptor of a queue can have a channel. -/
def heads_only (s : State) : Prop :=
  ∀ id c, cport_handle s id = some c → ∀ a, a ∈ c.tx_fifo.tail → (deref s a).channel = none

/-- Every queued descriptor pointer is allocated memory. -/
def queues_valid (s : State) : Prop :=
  ∀ id c, cport_handle s id = some c → ∀ a, a ∈ c.tx_fifo → a < s.heap.length

/-- No descriptor is linked twice into a queue. -/
def queues_nodup (s : State) : Prop :=
  ∀ id c, cport_handle s id = some c → c.tx_fifo.Nodup

/-- The invariant of the engine while no reset is requested. -/
structure Inv (s : State) : Prop where
  npr : no_pending_reset s
  own : owned s
  valid : queues_valid s
  nodup : queues_nodup s
  heads : heads_only s

/-! ### Scenario S5: one channel, a message on each of CPorts 7 and 8 -/

/-- A non-ES2 engine after initialisation with nine CPorts, none resetting, and
one DMA channel. -/
def one_channel_state : State :=
  { rev_id := tsb_rev.tsb_rev_es3, cport_count := 9,
    cporttable := List.replicate 9 (some idle_cport),
    heap := [], max_channel := 1,
    dma_channels := [{ chan := 1, req := 1, cportid := 0xFFFF }],
    tx_fifo_lock := 0, dma_queue := [], trace := [] }

/-- The engine of `one_channel_state` with the worker asleep. -/
def s5_boot : System :=
  { st := one_channel_state, worker := worker_pc.waiting }

/-- After `unipro_send_async(7, ...)`. -/
def s5_sent7 : System :=
  { s5_boot with st := (unipro_send_async s5_boot.st 7 8192 16 (some 9) 5 true).2 }

/-- After `unipro_send_async(8, ...)` as well. -/
def s5_sent8 : System :=
  { s5_sent7 with st := (unipro_send_async s5_sent7.st 8 12288 16 (some 9) 6 true).2 }

/-- After the worker has returned from `sem_wait`. -/
def s5_awake : System :=
  { st := { s5_sent8.st with tx_fifo_lock := s5_sent8.st.tx_fifo_lock - 1 },
    worker := worker_pc.draining 0 }

/-- After the first iteration of the worker's inner loop, which submits
descriptor 0 (CPort 7) on channel `7 mod 1 = 0`. -/
def s5_xfer7 : System :=
  { st := (unipro_dma_xfer s5_awake.st 0 0 64 OK 0).2,
    worker := worker_pc.draining ((deref s5_awake.st 0).cport + 1) }

/-- After the second iteration, which submits descriptor 1 (CPort 8) on
channel `8 mod 1 = 0`. -/
def s5_xfer8 : System :=
  { st := (unipro_dma_xfer s5_xfer7.st 1 0 64 OK 0).2,
    worker := worker_pc.draining ((deref s5_xfer7.st 1).cport + 1) }

/-! ### Scenario S4: reset of a CPort with three descriptors queued -/

/-- Three accepted `unipro_send_async(5, ...)` calls on `one_channel_state`. -/
def s4_queued : State :=
  let s1 := (unipro_send_async one_channel_state 5 8192 16 (some 9) 1 true).2
  let s2 := (unipro_send_async s1 5 8192 16 (some 9) 2 true).2
  (unipro_send_async s2 5 8192 16 (some 9) 3 true).2

/-- The CPort layer requests a reset of CPort 5 with completion hook 11. -/
def s4_resetting : State :=
  cport_reset_request s4_queued 5 (some 11) 77

/-- The state in which the worker's `pick_tx_descriptor(0)` stops after it has
flushed CPort 5. -/
def s4_flushed : State :=
  (pick_tx_descriptor (fun _ => 64) s4_resetting 0).2

/-- Every ATABL call succeeds and the request is reported as activated. -/
def atabl_ok_activated : atabl_results :=
  { req_is_activated := 1, connect_cport_to_req := 0, activate_req := 0 }

/-- The state a callback run leaves, or the given state when the run faulted. -/
def after_callback (s : State) (r : Option (Int × State)) : State :=
  match r with
  | some (_, s') => s'
  | none => s

/-- Scenario S5 continued: the DMA driver has delivered START for the op of
descriptor 0 (CPort 7), which binds channel 0 to CPort 7. -/
def s5_started7 : State :=
  after_callback s5_xfer8.st
    (unipro_dma_tx_callback s5_xfer8.st (dma_xfer_op s5_awake.st 0 64) EVENT_START 0
      atabl_ok_activated)

/-- Scenario S5 continued: the driver has delivered COMPLETE for that op. -/
def s5_done7 : State :=
  after_callback s5_started7
    (unipro_dma_tx_callback s5_started7 (dma_xfer_op s5_awake.st 0 64) EVENT_COMPLETE 0
      atabl_ok_activated)

/-- A decision procedure for `queues_nodup`. -/
def queues_nodup_check (s : State) : Bool :=
  (List.range s.cporttable.length).all fun id =>
    match cport_handle s id with
    | none => true
    | some c => decide c.tx_fifo.Nodup

/-- An execution that resets a CPort with two descriptors queued, the first of
them in flight, on ES2: two `unipro_send_async(0, ...)` calls are accepted
(descriptors 0 and 1); the worker picks descriptor 0, submits all of it with
`unipro_dma_xfer` and goes back to sleep; the CPort layer requests a reset of
CPort 0, which wakes the worker; the worker's `pick_tx_descriptor(0)` flushes
the CPort; the DMA driver then delivers COMPLETE for the op of descriptor 0.
The value is the state after that COMPLETE. -/
def fifo_reset_in_flight_state : State :=
  let s1 := (unipro_send_async es2_boot_state 0 8192 1024 (some 7) 1 true).2
  let s2 := (unipro_send_async s1 0 12288 1024 (some 7) 2 true).2
  let s3 := (unipro_dma_xfer s2 0 0 2048 OK 0).2
  let s4 := (pick_tx_descriptor (fun _ => 2048) s3 1).2
  let s5 := cport_reset_request s4 0 none 0
  let s6 := (pick_tx_descriptor (fun _ => 2048) s5 0).2
  after_callback s6
    (unipro_dma_tx_callback s6 (dma_xfer_op s2 0 2048) EVENT_COMPLETE 0
      { req_is_activated := 0, connect_cport_to_req := 0, activate_req := 0 })

/-! ## Initialisation -/

/-- What `unipro_tx_init` gets back from its collaborators and from the build
configuration. -/
structure tx_init_env where
  /-- Whether `CONFIG_ARCH_UNIPROTX_DMA_WMB` is defined. -/
  wmb : Bool
  /-- Result of `device_open(DEVICE_TYPE_DMA_HW, 0)`; `none` is `NULL`. -/
  dma_open : Option Nat
  /-- Result of `device_open(DEVICE_TYPE_ATABL_HW, 0)`; `none` is `NULL`. -/
  atabl_open : Option Nat
  /-- Value `unipro_read(REG_TX_BUFFER_SPACE_OFFSET_REG(i))` returns. -/
  reg_read : Nat → Nat
  /-- Result of `device_dma_chan_free_count` as stored in `int avail_chan`; it
  can be negative. -/
  dma_chan_free_count : Int
  /-- Result of `device_atabl_req_free_count`, which the code compares with the
  `int avail_chan`; it can be negative. -/
  atabl_req_free_count : Int
  /-- For channel `i`, the value `device_atabl_req_alloc` returns and the request
  it stores. -/
  atabl_req_alloc : Nat → Int × Nat
  /-- For channel `i`, the handle `device_dma_chan_alloc` stores; 0 is `NULL`. -/
  dma_chan_alloc : Nat → Nat
  /-- Value `pthread_create` returns. -/
  pthread_create : Int

/-- Store to `unipro_dma.dma_channels[i]`. -/
def modify_channel (s : State) (i : Nat) (f : dma_channel → dma_channel) : State :=
  { s with dma_channels := s.dma_channels.modify f i }

/-- The loop of `unipro_tx_init` that sets the hardware handshake threshold of
each CPort, from CPort `i` on, with `n` iterations left. -/
def tx_init_thresholds (env : tx_init_env) : Nat → Nat → State → State
  | 0, _, s => s
  | n + 1, i, s =>
    let offset_value := env.reg_read i
    let s1 := if env.wmb
      then emit s (Event.unipro_write i (offset_value ||| (0x10 <<< 8)))
      else emit s (Event.unipro_write i (offset_value ||| (0x20 <<< 8)))
    tx_init_thresholds env n (i + 1) s1

/-- The channel allocation loop of `unipro_tx_init`, from channel `i` on, with
`n` iterations left. -/
def tx_init_channels (env : tx_init_env) : Nat → Nat → State → State
  | 0, _, s => s
  | n + 1, i, s =>
    if s.rev_id ≠ tsb_rev.tsb_rev_es2 ∧ (env.atabl_req_alloc i).1 ≠ 0 then s
    else
      let s1 := if s.rev_id ≠ tsb_rev.tsb_rev_es2
        then emit (modify_channel s i fun dc => { dc with req := (env.atabl_req_alloc i).2 })
          (Event.atabl_req_alloc (env.atabl_req_alloc i).2)
        else s
      let s2 := modify_channel s1 i fun dc => { dc with chan := env.dma_chan_alloc i }
      if env.dma_chan_alloc i = 0 then s2
      else
        let s3 := emit s2 (Event.dma_chan_alloc (env.dma_chan_alloc i))
        let s4 := modify_channel s3 i fun dc => { dc with cportid := 0xFFFF }
        tx_init_channels env n (i + 1) { s4 with max_channel := s4.max_channel + 1 }

/-- The loop under `error_worker_create` in `unipro_tx_init`, from channel `i`
on, with `n` iterations left. -/
def tx_init_free_channels : Nat → Nat → State → State
  | 0, _, s => s
  | n + 1, i, s =>
    let s1 := if s.rev_id ≠ tsb_rev.tsb_rev_es2
      then emit s (Event.atabl_req_free ((s.dma_channels.getD i ⟨0, 0, 0⟩).req))
      else s
    tx_init_free_channels n (i + 1) (emit s1 (Event.dma_chan_free i))

/-- The code from `error_no_channel` to the end of `unipro_tx_init`. -/
def tx_init_error_no_channel (s : State) (dev atabl_dev : Nat) (retval : Int) : Int × State :=
  let s1 := if s.rev_id ≠ tsb_rev.tsb_rev_es2
    then { emit s (Event.device_close atabl_dev) with atabl_dev := none }
    else s
  (retval, { emit s1 (Event.device_close dev) with dev := none })

/-- The values of an `int` (32 bits wide). -/
def is_int (x : Int) : Prop := -2147483648 ≤ x ∧ x < 2147483648

instance (x : Int) : Decidable (is_int x) := by
  unfold is_int
  infer_instance

/-- The conversion of an `int` to `unsigned int`: the value modulo `2^32`. -/
def to_unsigned (x : Int) : Nat := (x % 4294967296).toNat

/-- The conversion of an `unsigned int` to `int`. -/
def to_int (n : Nat) : Int :=
  if n % 4294967296 < 2147483648 then ((n % 4294967296 : Nat) : Int)
  else ((n % 4294967296 : Nat) : Int) - 4294967296

/-- The clamp of `avail_chan` in `unipro_tx_init`:
`if (avail_chan > ARRAY_SIZE(unipro_dma.dma_channels)) avail_chan = ARRAY_SIZE(...)`.
`avail_chan` is an `int` and `ARRAY_SIZE` a `size_t`, so the comparison is made
after converting `avail_chan` to unsigned: a negative `avail_chan` compares as
a large number and is replaced by the array size. -/
def tx_init_avail_chan (avail_chan : Int) (array_size : Nat) : Int :=
  if to_unsigned avail_chan > array_size then to_int array_size else avail_chan

/-- The part of `unipro_tx_init` after the devices are open; `atabl_dev` is only
used on a chip that is not ES2. The comparison of the ATABL free count with
`avail_chan` and the loop test `i < avail_chan` are between `int`s. -/
def tx_init_pool (env : tx_init_env) (s : State) (dev atabl_dev : Nat) : Int × State :=
  let s1 := { s with max_channel := 0 }
  let avail_chan := env.dma_chan_free_count
  let avail_chan := tx_init_avail_chan avail_chan s.dma_channels.length
  if s.rev_id ≠ tsb_rev.tsb_rev_es2 ∧ env.atabl_req_free_count < avail_chan then
    (-ENODEV, emit (emit s1 (Event.device_close dev)) (Event.device_close atabl_dev))
  else
    let s2 := tx_init_channels env avail_chan.toNat 0 s1
    if s2.max_channel ≤ 0 then tx_init_error_no_channel s2 dev atabl_dev (-ENODEV)
    else
      let retval := env.pthread_create
      if retval ≠ 0 then
        let s3 := tx_init_free_channels s2.max_channel 0 s2
        tx_init_error_no_channel { s3 with max_channel := 0 } dev atabl_dev retval
      else (0, s2)

/-- Function `unipro_tx_init`. -/
def unipro_tx_init (env : tx_init_env) (s : State) : Int × State :=
  let s0 := { s with tx_fifo_lock := 0 }
  match env.dma_open with
  | none => (-ENODEV, { s0 with dev := none })
  | some dev =>
    let s1 := { emit s0 (Event.device_open dev) with dev := some dev }
    if s.rev_id ≠ tsb_rev.tsb_rev_es2 then
      let s2 := tx_init_thresholds env s.cport_count 0 s1
      match env.atabl_open with
      | none => (-ENODEV, emit { s2 with atabl_dev := none } (Event.device_close dev))
      | some atabl_dev =>
        tx_init_pool env { emit s2 (Event.device_open atabl_dev) with atabl_dev := some atabl_dev }
          dev atabl_dev
    else tx_init_pool env s1 dev 0

/-- The effect of one trace entry on the list of open devices. -/
def device_step (acc : List Nat) (e : Event) : List Nat :=
  match e with
  | Event.device_open d => d :: acc
  | Event.device_close d => acc.erase d
  | _ => acc

/-- The devices a trace has opened and not closed again. -/
def devices_left_open (tr : List Event) : List Nat :=
  tr.foldl device_step []

/-- The pool entry `i` holds the DMA channel allocated for it and is unbound. -/
def channel_ready (env : tx_init_env) (s : State) (i : Nat) : Prop :=
  ∃ dc, s.dma_channels[i]? = some dc ∧ dc.chan = env.dma_chan_alloc i ∧ dc.chan ≠ 0 ∧
    dc.cportid = 0xFFFF

/-- A non-ES2 engine before initialisation, with an array of two channels. -/
def preinit_state : State :=
  { rev_id := tsb_rev.tsb_rev_es3, cport_count := 4,
    cporttable := List.replicate 4 (some idle_cport),
    heap := [], max_channel := 0,
    dma_channels := [{ chan := 0, req := 0, cportid := 0 }, { chan := 0, req := 0, cportid := 0 }],
    tx_fifo_lock := 0, dma_queue := [], trace := [] }

/-- Collaborators that all succeed, except that `pthread_create` returns the
given value. -/
def env_with_pthread_create (retval : Int) : tx_init_env :=
  { wmb := false, dma_open := some 100, atabl_open := some 200,
    reg_read := fun _ => 0, dma_chan_free_count := 8, atabl_req_free_count := 8,
    atabl_req_alloc := fun i => (0, 10 + i), dma_chan_alloc := fun i => 20 + i,
    pthread_create := retval }

/-- Collaborators that all succeed, with `device_dma_chan_free_count` returning
the given value. -/
def env_with_free_count (count : Int) : tx_init_env :=
  { env_with_pthread_create 0 with dma_chan_free_count := count }

/-- The ES2 state `es2_state` after one round of the resume cycle with a
free-space reading of 256: the descriptor has `data_offset = 256` and no
channel. -/
def es2_resumed_state : State :=
  match es2_round es2_state 0 0 256 with
  | some (_, s) => s
  | none => es2_state

/-! ## Descriptors and the ops in flight -/

/-- Descriptor `a` is linked into the `tx_fifo` of some CPort. -/
def queued (s : State) (a : Nat) : Prop :=
  ∃ id c, cport_handle s id = some c ∧ a ∈ c.tx_fifo

/-- Invariant of the engine about the ops the DMA driver holds: the length of
every queued descriptor is a `size_t`, the callback argument of every op is a
queued descriptor with a channel set, and no two ops have the same callback
argument. -/
structure Flight (s : State) : Prop where
  lens : ∀ a, queued s a → (deref s a).len < SIZE_MOD
  ops_queued : ∀ p, p ∈ s.dma_queue → queued s p.op.callback_arg
  ops_channel : ∀ p, p ∈ s.dma_queue → (deref s p.op.callback_arg).channel ≠ none
  ops_nodup : (s.dma_queue.map fun p => p.op.callback_arg).Nodup

/-- Invariant of the engine on a chip that is not ES2: a queued descriptor
without a channel has nothing submitted, and the descriptor of an op in flight
has all of its bytes submitted. -/
structure Whole (s : State) : Prop where
  idle_zero : ∀ a, queued s a → (deref s a).channel = none →
    (deref s a).data_offset = 0
  ops_done : ∀ p, p ∈ s.dma_queue →
    (deref s p.op.callback_arg).len ≤ (deref s p.op.callback_arg).data_offset

/-! ## Parked descriptors -/

/-- Descriptor `desc` is parked on CPort `id`: it is the head of the CPort's
`tx_fifo`, its `channel` is `ch`, and no op the DMA driver holds has it as its
callback argument. -/
def parked (s : State) (id desc ch : Nat) : Prop :=
  (∃ c rest, cport_handle s id = some c ∧ c.tx_fifo = desc :: rest) ∧
  (deref s desc).channel = some ch ∧
  ∀ p, p ∈ s.dma_queue → p.op.callback_arg ≠ desc

/-- The effects that release descriptor `desc`: a call of its callback and its
`free`. -/
def releases (desc : Nat) : Event → Bool
  | Event.callback d _ _ _ _ => decide (d = desc)
  | Event.free d => decide (d = desc)
  | _ => false

/-- Scenario S5 with `device_dma_op_alloc` failing with `-ENOMEM` in the first
iteration of the worker's inner loop: descriptor 0 (CPort 7) has its channel
set and no op. -/
def s5_alloc_failed : System :=
  { st := (unipro_dma_xfer s5_awake.st 0 0 64 (-ENOMEM) 0).2,
    worker := worker_pc.draining ((deref s5_awake.st 0).cport + 1) }

/-! ## One pass of the worker's inner loop -/

theorem cport_handle_lt {s : State} {id : Nat} {c : cport}
    (h : cport_handle s id = some c) : id < s.cporttable.length := by
  unfold cport_handle at h
  by_contra hlt
  rw [List.getElem?_eq_none (by omega)] at h
  simp at h

theorem cport_handle_set_cport (s : State) (id id' : Nat) (c : cport)
    (hid : id < s.cporttable.length) :
    cport_handle (set_cport s id c) id' = if id' = id then some c else cport_handle s id' := by
  unfold cport_handle set_cport
  by_cases h : id' = id
  · subst h
    simp [List.getElem?_set, hid]
  · simp [List.getElem?_set, h, Ne.symm h]

/-! ### C1, C2: `unipro_send_async` -/

/-- C1. `unipro_send_async` rejects in a fixed order and without side effects:
it returns `-EINVAL` when `cport_handle(cportid)` is `NULL`; otherwise `-EPIPE`
when the CPort has `pending_reset` set; otherwise `-ENOMEM` when `zalloc`
fails. In each case the state it leaves is the state it was called in, so no
`tx_fifo` changes, `tx_fifo_lock` keeps its count and the trace gains no
callback. -/
theorem C1_send_async_rejects (s : State) (cportid buf len : Nat)
    (callback : Option Nat) (priv : Nat) (zalloc_ok : Bool) :
    (cport_handle s cportid = none →
      unipro_send_async s cportid buf len callback priv zalloc_ok = (-EINVAL, s)) ∧
    (∀ c, cport_handle s cportid = some c → c.pending_reset = true →
      unipro_send_async s cportid buf len callback priv zalloc_ok = (-EPIPE, s)) ∧
    (∀ c, cport_handle s cportid = some c → c.pending_reset = false →
      zalloc_ok = false →
      unipro_send_async s cportid buf len callback priv zalloc_ok = (-ENOMEM, s)) := by
  refine ⟨?_, ?_, ?_⟩
  · intro h
    simp [unipro_send_async, h]
  · intro c h hr
    simp [unipro_send_async, h, hr]
  · intro c h hr hz
    simp [unipro_send_async, h, hr, hz]

/-- Witness of C1 on `boot_state`: id 1 has no handle, id 2 is resetting, and
on id 0 the allocation fails. -/
theorem C1_send_async_rejects_witness :
    unipro_send_async boot_state 1 100 3 (some 9) 5 true = (-EINVAL, boot_state) ∧
    unipro_send_async boot_state 2 100 3 (some 9) 5 true = (-EPIPE, boot_state) ∧
    unipro_send_async boot_state 0 100 3 (some 9) 5 false = (-ENOMEM, boot_state) :=
  ⟨(C1_send_async_rejects boot_state 1 100 3 (some 9) 5 true).1 (by decide),
   (C1_send_async_rejects boot_state 2 100 3 (some 9) 5 true).2.1
      { idle_cport with pending_reset := true } (by decide) (by decide),
   (C1_send_async_rejects boot_state 0 100 3 (some 9) 5 false).2.2
      idle_cport (by decide) (by decide) rfl⟩

/-- C2. On the accepting path (`cport_handle` gives a CPort, `pending_reset`
is clear, `zalloc` succeeds) `unipro_send_async` returns 0, the CPort's
`tx_fifo` is the old queue followed by the one new descriptor, that descriptor
has `data = buf`, `len = len`, `callback`, `priv`, `cport` = the CPort looked
up, `data_offset = 0` and `channel = NULL`, every descriptor that existed
before keeps its contents, every other CPort is as it was, `tx_fifo_lock` is
posted once, and nothing else (channels, DMA queue, trace) changes. -/
theorem C2_send_async_accepts (s : State) (cportid buf len : Nat)
    (callback : Option Nat) (priv : Nat) (c : cport)
    (h : cport_handle s cportid = some c) (hr : c.pending_reset = false) :
    (unipro_send_async s cportid buf len callback priv true).1 = 0 ∧
    cport_handle (unipro_send_async s cportid buf len callback priv true).2 cportid
      = some { c with tx_fifo := c.tx_fifo ++ [s.heap.length] } ∧
    deref (unipro_send_async s cportid buf len callback priv true).2 s.heap.length
      = { cport := cportid, data := buf, len := len, priv := priv,
          callback := callback, data_offset := 0, channel := none } ∧
    (∀ a, a < s.heap.length →
      deref (unipro_send_async s cportid buf len callback priv true).2 a = deref s a) ∧
    (∀ id, id ≠ cportid →
      cport_handle (unipro_send_async s cportid buf len callback priv true).2 id
        = cport_handle s id) ∧
    (unipro_send_async s cportid buf len callback priv true).2.tx_fifo_lock
      = s.tx_fifo_lock + 1 ∧
    (unipro_send_async s cportid buf len callback priv true).2.trace = s.trace ∧
    (unipro_send_async s cportid buf len callback priv true).2.dma_queue = s.dma_queue ∧
    (unipro_send_async s cportid buf len callback priv true).2.dma_channels
      = s.dma_channels := by
  have hlt := cport_handle_lt h
  have hs : unipro_send_async s cportid buf len callback priv true
      = (0, sem_post (list_add { s with heap := s.heap ++
          [{ zero_desc with data := buf, len := len, data_offset := 0,
                            callback := callback, priv := priv, cport := cportid }] }
          cportid c s.heap.length)) := by
    simp [unipro_send_async, h, hr]
  rw [hs]
  refine ⟨rfl, ?_, ?_, ?_, ?_, rfl, rfl, rfl, rfl⟩
  · have := cport_handle_set_cport
      { s with heap := s.heap ++
          [{ zero_desc with data := buf, len := len, data_offset := 0,
                            callback := callback, priv := priv, cport := cportid }] }
      cportid cportid { c with tx_fifo := c.tx_fifo ++ [s.heap.length] } hlt
    simpa [sem_post, list_add, cport_handle] using this
  · simp [deref, sem_post, list_add, set_cport, List.getD_eq_getElem?_getD, zero_desc]
  · intro a ha
    simp [deref, sem_post, list_add, set_cport, List.getD_eq_getElem?_getD,
      List.getElem?_append_left ha]
  · intro id hid
    have := cport_handle_set_cport
      { s with heap := s.heap ++
          [{ zero_desc with data := buf, len := len, data_offset := 0,
                            callback := callback, priv := priv, cport := cportid }] }
      cportid id { c with tx_fifo := c.tx_fifo ++ [s.heap.length] } hlt
    simpa [sem_post, list_add, cport_handle, hid] using this

/-- Witness of C2: a send on CPort 0 of `boot_state`. -/
theorem C2_send_async_accepts_witness :
    (unipro_send_async boot_state 0 100 3 (some 9) 5 true).1 = 0 ∧
    cport_handle (unipro_send_async boot_state 0 100 3 (some 9) 5 true).2 0
      = some { idle_cport with tx_fifo := [0] } :=
  ⟨(C2_send_async_accepts boot_state 0 100 3 (some 9) 5 idle_cport
      (by decide) (by decide)).1,
   (C2_send_async_accepts boot_state 0 100 3 (some 9) 5 idle_cport
      (by decide) (by decide)).2.1⟩

/-! ### C3: `pick_tx_descriptor` -/

theorem scan_order_eq_rotate (n start : Nat) :
    scan_order n start = (List.range n).rotate (start % n) := by
  apply List.ext_getElem
  · simp [scan_order]
  · intro i h1 h2
    simp only [scan_order, List.length_map, List.length_range] at h1
    simp [scan_order, List.getElem_rotate, Nat.add_comm]

theorem scan_order_mem (n start id : Nat) : id ∈ scan_order n start ↔ id < n := by
  rw [scan_order_eq_rotate, List.mem_rotate, List.mem_range]

theorem scan_order_count (n start id : Nat) (h : id < n) :
    (scan_order n start).count id = 1 := by
  rw [scan_order_eq_rotate, (List.rotate_perm _ _).count_eq]
  exact List.count_eq_one_of_mem (List.nodup_range n) (List.mem_range.mpr h)

theorem pick_loop_search (free : Nat → Nat) (s : State) (n : Nat)
    (hr : no_pending_reset s) (ho : owned s) :
    ∀ k x, pick_loop free n k s x
      = (match ((List.range k).map (fun j => (x + j) % n)).findSome? (ready_desc free s) with
          | some desc => pick_result.found desc
          | none => pick_result.null, s) := by
  intro k
  induction k with
  | zero => intro x; simp [pick_loop]
  | succ k ih =>
    intro x
    have hlist : (List.range (k + 1)).map (fun j => (x + j) % n)
        = (x % n) :: (List.range k).map (fun j => (x % n + 1 + j) % n) := by
      rw [List.range_succ_eq_map]
      simp only [List.map_cons, List.map_map, Nat.add_zero]
      congr 1
      apply List.map_congr_left
      intro j _
      simp only [Function.comp, Nat.succ_eq_add_one]
      rw [Nat.add_assoc (x % n), Nat.mod_add_mod, Nat.add_comm 1 j]
    rw [hlist, List.findSome?_cons]
    unfold pick_loop
    simp only []
    cases hh : cport_handle s (x % n) with
    | none => simp [ready_desc, hh, ih]
    | some c =>
      have hpr := hr _ _ hh
      cases hq : c.tx_fifo with
      | nil => simp [ready_desc, hh, hq, hpr, ih]
      | cons a rest =>
        have hown : (deref s a).cport = x % n := ho _ _ hh a (by simp [hq])
        have hat : (cport_at s (x % n)).tx_fifo = a :: rest := by
          simp [cport_at, hh, hq]
        simp only [hpr, Bool.false_eq_true, if_false, hat, hown, ready_desc, hh, hq]
        cases hc : (deref s a).channel with
        | some ch => simp [ih]
        | none =>
          by_cases hf : free (x % n) = 0
          · simp [hf, ih]
          · simp [hf]

/-- C3. In a state where no CPort has `pending_reset` set (and every queued
descriptor points back at its CPort), `pick_tx_descriptor` started at any id
`start` returns the front descriptor of the first CPort, in the order
`start mod n, (start+1) mod n, ..., (start+n-1) mod n` with
`n = unipro_cport_count()`, whose handle exists, whose `tx_fifo` is not empty,
whose front descriptor has `channel = NULL` and whose free TX buffer space is
not zero. That order holds every id below `n` exactly once and nothing else.
The result is `NULL` exactly when no id below `n` qualifies, in particular
when `n = 0`, and the state is left unchanged. -/
theorem C3_pick_tx_descriptor_round_robin (free : Nat → Nat) (s : State) (start : Nat)
    (hr : no_pending_reset s) (ho : owned s) :
    pick_tx_descriptor free s start = (pick_first_match free s start, s) ∧
    (∀ id, id < s.cport_count → (scan_order s.cport_count start).count id = 1) ∧
    (∀ id, id ∈ scan_order s.cport_count start → id < s.cport_count) ∧
    ((pick_tx_descriptor free s start).1 = pick_result.null ↔
      ∀ id, id < s.cport_count → ready_desc free s id = none) ∧
    (s.cport_count = 0 → (pick_tx_descriptor free s start).1 = pick_result.null) := by
  have hmain : pick_tx_descriptor free s start = (pick_first_match free s start, s) := by
    unfold pick_tx_descriptor pick_first_match scan_order
    exact pick_loop_search free s s.cport_count hr ho s.cport_count start
  have hnull : (pick_tx_descriptor free s start).1 = pick_result.null ↔
      ∀ id, id < s.cport_count → ready_desc free s id = none := by
    rw [hmain]
    simp only [pick_first_match]
    cases hf : (scan_order s.cport_count start).findSome? (ready_desc free s) with
    | none =>
      simp only [true_iff]
      intro id hid
      exact (List.findSome?_eq_none_iff.mp hf) id ((scan_order_mem _ _ _).mpr hid)
    | some d =>
      simp only [false_iff, reduceCtorEq]
      intro hall
      have : (scan_order s.cport_count start).findSome? (ready_desc free s) = none :=
        List.findSome?_eq_none_iff.mpr
          (fun id hid => hall id ((scan_order_mem _ _ _).mp hid))
      rw [this] at hf
      cases hf
  refine ⟨hmain, fun id hid => scan_order_count _ _ _ hid,
    fun id hid => (scan_order_mem _ _ _).mp hid, hnull, ?_⟩
  intro h0
  rw [hnull]
  intro id hid
  omega
theorem busy_state_no_pending_reset : no_pending_reset busy_state := by
  intro id c h
  have hlt := cport_handle_lt h
  have : id = 0 ∨ id = 1 ∨ id = 2 ∨ id = 3 := by
    simp [busy_state, boot_state] at hlt; omega
  rcases this with rfl | rfl | rfl | rfl <;>
    simp [cport_handle, busy_state, boot_state, idle_cport] at h <;> subst h <;> rfl

theorem busy_state_owned : owned busy_state := by
  intro id c h a ha
  have hlt := cport_handle_lt h
  have : id = 0 ∨ id = 1 ∨ id = 2 ∨ id = 3 := by
    simp [busy_state, boot_state] at hlt; omega
  rcases this with rfl | rfl | rfl | rfl <;>
    simp [cport_handle, busy_state, boot_state, idle_cport] at h <;> subst h <;>
    simp at ha
  · subst ha; rfl
  · rcases ha with rfl | rfl <;> rfl

/-- Witness of C3: a scan of `busy_state` from id 6 (that is, from 2) with free
space everywhere passes CPort 2 (empty) and returns descriptor 1 of CPort 3;
with no free space anywhere it returns `NULL`. -/
theorem C3_pick_tx_descriptor_round_robin_witness :
    pick_tx_descriptor (fun _ => 64) busy_state 6 = (pick_result.found 1, busy_state) ∧
    (pick_tx_descriptor (fun _ => 0) busy_state 6).1 = pick_result.null :=
  ⟨(C3_pick_tx_descriptor_round_robin (fun _ => 64) busy_state 6
      busy_state_no_pending_reset busy_state_owned).1.trans (by decide),
   (C3_pick_tx_descriptor_round_robin (fun _ => 0) busy_state 6
      busy_state_no_pending_reset busy_state_owned).2.2.2.1.mpr (by decide)⟩

/-! ### C4: `unipro_flush_cport` -/

theorem cport_handle_eq_some {s : State} {id : Nat} {c : cport} :
    cport_handle s id = some c ↔ s.cporttable[id]? = some (some c) := by
  unfold cport_handle
  constructor
  · intro h
    split at h
    · next c' heq => cases h; exact heq
    · cases h
  · intro h
    simp [h]

theorem set_cport_self {s : State} {id : Nat} {c : cport}
    (h : cport_handle s id = some c) : set_cport s id c = s := by
  have h' := cport_handle_eq_some.mp h
  have hlt := cport_handle_lt h
  unfold set_cport
  have : s.cporttable.set id (some c) = s.cporttable := by
    apply List.ext_getElem?
    intro i
    rw [List.getElem?_set]
    by_cases hi : id = i
    · subst hi; simp [hlt, h']
    · simp [hi]
  rw [this]

theorem list_del_front {s : State} {cportid : Nat} {c : cport} {a : Nat} {rest : List Nat}
    (h : cport_handle s cportid = some c) (hq : c.tx_fifo = a :: rest)
    (hd : ∀ id c', id ≠ cportid → cport_handle s id = some c' → a ∉ c'.tx_fifo) :
    list_del s a = set_cport s cportid { c with tx_fifo := rest } := by
  have h' := cport_handle_eq_some.mp h
  have hlt := cport_handle_lt h
  unfold list_del set_cport
  congr 1
  apply List.ext_getElem?
  intro i
  rw [List.getElem?_map, List.getElem?_set]
  by_cases hi : cportid = i
  · subst hi
    simp [hlt, h', hq]
  · simp only [hi, if_false]
    cases hx : s.cporttable[i]? with
    | none => rfl
    | some oc =>
      cases oc with
      | none => rfl
      | some c' =>
        have hn := hd i c' (Ne.symm hi) (cport_handle_eq_some.mpr hx)
        simp [List.erase_of_not_mem hn]

theorem dequeue_front {s : State} {cportid : Nat} {c : cport} {a : Nat} {rest : List Nat}
    (status : Int)
    (h : cport_handle s cportid = some c) (hq : c.tx_fifo = a :: rest)
    (hd : ∀ id c', id ≠ cportid → cport_handle s id = some c' → a ∉ c'.tx_fifo) :
    unipro_dequeue_tx_desc s a status
      = { set_cport s cportid { c with tx_fifo := rest } with
          trace := s.trace ++ release_events s status a } := by
  unfold unipro_dequeue_tx_desc
  rw [list_del_front h hq hd]
  simp only [release_events, deref, set_cport, emit]
  cases (s.heap.getD a zero_desc).callback <;> simp

theorem flush_loop_spec (cportid : Nat) :
    ∀ (q : List Nat) (fuel : Nat) (s : State) (c : cport),
      cport_handle s cportid = some c → c.tx_fifo = q → q.length ≤ fuel →
      (∀ a, a ∈ q → ∀ id c', id ≠ cportid → cport_handle s id = some c' → a ∉ c'.tx_fifo) →
      flush_loop fuel s cportid
        = { set_cport s cportid { c with tx_fifo := [] } with
            trace := s.trace ++ q.flatMap (release_events s (-ECONNRESET)) } := by
  intro q
  induction q with
  | nil =>
    intro fuel s c h hq _ _
    have hc : ({ c with tx_fifo := [] } : cport) = c := by
      cases c; simp_all
    have hat : (cport_at s cportid).tx_fifo = [] := by simp [cport_at, h, hq]
    rw [hc, set_cport_self h]
    cases fuel with
    | zero => simp [flush_loop]
    | succ f => simp [flush_loop, hat]
  | cons a rest ih =>
    intro fuel s c h hq hlen hd
    cases fuel with
    | zero => simp at hlen
    | succ f =>
      have hat : (cport_at s cportid).tx_fifo = a :: rest := by simp [cport_at, h, hq]
      have hlt := cport_handle_lt h
      have hstep := dequeue_front (-ECONNRESET) h hq
        (fun id c' hid hc' => hd a (by simp) id c' hid hc')
      simp only [flush_loop, hat]
      rw [hstep]
      have h1 : cport_handle
          { set_cport s cportid { c with tx_fifo := rest } with
            trace := s.trace ++ release_events s (-ECONNRESET) a } cportid
          = some { c with tx_fifo := rest } := by
        have := cport_handle_set_cport s cportid cportid { c with tx_fifo := rest } hlt
        simpa [cport_handle, set_cport] using this
      have hd1 : ∀ b, b ∈ rest → ∀ id c', id ≠ cportid →
          cport_handle
            { set_cport s cportid { c with tx_fifo := rest } with
              trace := s.trace ++ release_events s (-ECONNRESET) a } id = some c' →
          b ∉ c'.tx_fifo := by
        intro b hb id c' hid hc'
        have := cport_handle_set_cport s cportid id { c with tx_fifo := rest } hlt
        have hc'' : cport_handle s id = some c' := by
          simp only [hid, if_false] at this
          rw [← this]
          simpa [cport_handle, set_cport] using hc'
        exact hd b (by simp [hb]) id c' hid hc''
      rw [ih f _ _ h1 rfl (by simpa using hlen) hd1]
      have hre : release_events
          { set_cport s cportid { c with tx_fifo := rest } with
            trace := s.trace ++ release_events s (-ECONNRESET) a } (-ECONNRESET)
          = release_events s (-ECONNRESET) := rfl
      rw [hre]
      simp [set_cport, List.flatMap_cons]

/-- The state `unipro_flush_cport` leaves, in closed form. -/
theorem flush_cport_spec {s : State} {cportid : Nat} {c : cport}
    (h : cport_handle s cportid = some c)
    (hd : ∀ a, a ∈ c.tx_fifo → ∀ id c', id ≠ cportid →
      cport_handle s id = some c' → a ∉ c'.tx_fifo) :
    unipro_flush_cport s cportid
      = { set_cport s cportid
            { c with tx_fifo := [], pending_reset := false, reset_completion_cb := none,
                     reset_completion_cb_priv := 0 } with
          trace := s.trace ++ c.tx_fifo.flatMap (release_events s (-ECONNRESET))
            ++ [Event.reset_cport cportid]
            ++ (match c.reset_completion_cb with
                | some fn => [Event.reset_completion fn cportid c.reset_completion_cb_priv]
                | none => []) } := by
  have hlt := cport_handle_lt h
  have hat : (cport_at s cportid).tx_fifo = c.tx_fifo := by simp [cport_at, h]
  unfold unipro_flush_cport
  simp only [hat]
  rw [flush_loop_spec cportid c.tx_fifo _ s c h rfl (Nat.le_refl _) hd]
  have hget : ∀ (c' : cport) (tr : List Event),
      cport_at { set_cport s cportid c' with trace := tr } cportid = c' := by
    intro c' tr
    have := cport_handle_set_cport s cportid cportid c' hlt
    simp only [if_true] at this
    simp only [cport_at]
    have h2 : cport_handle { set_cport s cportid c' with trace := tr } cportid
        = cport_handle (set_cport s cportid c') cportid := rfl
    rw [h2, this]
    rfl
  cases hcb : c.reset_completion_cb with
  | none =>
    simp [emit, set_cport, hget, cport_at, cport_handle, hlt, hcb]
  | some fn =>
    simp [emit, set_cport, hget, cport_at, cport_handle, hlt, hcb]

theorem owned_of_check {s : State} (h : owned_check s = true) : owned s := by
  intro id c hc a ha
  have hlt := cport_handle_lt hc
  unfold owned_check at h
  rw [List.all_eq_true] at h
  have := h id (List.mem_range.mpr hlt)
  simp only [hc, List.all_eq_true, decide_eq_true_eq] at this
  exact this a ha

theorem owned_disjoint {s : State} (ho : owned s) {cportid : Nat} {c : cport}
    (h : cport_handle s cportid = some c) :
    ∀ a, a ∈ c.tx_fifo → ∀ id c', id ≠ cportid →
      cport_handle s id = some c' → a ∉ c'.tx_fifo := by
  intro a ha id c' hid hc' ha'
  have h1 := ho _ _ h a ha
  have h2 := ho _ _ hc' a ha'
  exact hid (h2.symm.trans h1)

/-- C4. For a CPort whose `tx_fifo` is `[D1, ..., Dk]` (in a state where every
queued descriptor points back at its CPort) `unipro_flush_cport` produces
exactly these effects, in this order: for each `Di` in queue order, its
callback (when it has one) called once with `-ECONNRESET` and `Di`'s `data`
and `priv`, followed by its `free`; then the CPort reset primitive, once, with
the CPort id; then `reset_completion_cb(cportid, reset_completion_cb_priv)`,
once, when it is set. It leaves the CPort with an empty `tx_fifo`,
`pending_reset` clear and the completion hook and its argument cleared, and
leaves every other CPort, the descriptor memory and `tx_fifo_lock` as they
were. -/
theorem C4_flush_cport_drains_and_resets (s : State) (cportid : Nat) (c : cport)
    (h : cport_handle s cportid = some c) (ho : owned s) :
    (unipro_flush_cport s cportid).trace
      = s.trace ++ c.tx_fifo.flatMap (release_events s (-ECONNRESET))
          ++ [Event.reset_cport cportid]
          ++ (match c.reset_completion_cb with
              | some fn => [Event.reset_completion fn cportid c.reset_completion_cb_priv]
              | none => []) ∧
    cport_handle (unipro_flush_cport s cportid) cportid
      = some { c with tx_fifo := [], pending_reset := false, reset_completion_cb := none,
                      reset_completion_cb_priv := 0 } ∧
    (∀ id, id ≠ cportid →
      cport_handle (unipro_flush_cport s cportid) id = cport_handle s id) ∧
    (unipro_flush_cport s cportid).heap = s.heap ∧
    (unipro_flush_cport s cportid).tx_fifo_lock = s.tx_fifo_lock := by
  have hlt := cport_handle_lt h
  rw [flush_cport_spec h (owned_disjoint ho h)]
  refine ⟨rfl, ?_, ?_, rfl, rfl⟩
  · have := cport_handle_set_cport s cportid cportid
      { c with tx_fifo := [], pending_reset := false, reset_completion_cb := none,
               reset_completion_cb_priv := 0 } hlt
    simpa [cport_handle, set_cport] using this
  · intro id hid
    have := cport_handle_set_cport s cportid id
      { c with tx_fifo := [], pending_reset := false, reset_completion_cb := none,
               reset_completion_cb_priv := 0 } hlt
    simpa [cport_handle, set_cport, hid] using this

/-- Witness of C4: flushing CPort 3 of `reset_state`, which queues descriptor 1
(callback 7) and descriptor 2 (no callback). -/
theorem C4_flush_cport_drains_and_resets_witness :
    (unipro_flush_cport reset_state 3).trace
      = [Event.callback 1 7 (-104) 0 0, Event.free 1, Event.free 2,
         Event.reset_cport 3, Event.reset_completion 11 3 77] ∧
    cport_handle (unipro_flush_cport reset_state 3) 3
      = some { idle_cport with tx_fifo := [] } :=
  ⟨(C4_flush_cport_drains_and_resets reset_state 3
      { idle_cport with tx_fifo := [1, 2], pending_reset := true,
                        reset_completion_cb := some 11, reset_completion_cb_priv := 77 }
      (by decide) (owned_of_check (by decide))).1.trans (by decide),
   (C4_flush_cport_drains_and_resets reset_state 3
      { idle_cport with tx_fifo := [1, 2], pending_reset := true,
                        reset_completion_cb := some 11, reset_completion_cb_priv := 77 }
      (by decide) (owned_of_check (by decide))).2.1.trans (by decide)⟩

/-! ### C6: the ES2 chunk size of `unipro_dma_xfer` -/

theorem deref_set_desc (s : State) (desc a : Nat) (d : unipro_xfer_descriptor)
    (h : desc < s.heap.length) :
    deref (set_desc s desc d) a = if a = desc then d else deref s a := by
  unfold deref set_desc
  simp only [List.getD_eq_getElem?_getD, List.getElem?_set]
  by_cases ha : a = desc
  · subst ha; simp [h]
  · simp [ha, Ne.symm ha]

theorem es2_xfer_len (s : State) (desc f : Nat)
    (hes2 : s.rev_id = tsb_rev.tsb_rev_es2)
    (hoff : (deref s desc).data_offset ≤ (deref s desc).len)
    (hlen : (deref s desc).len < SIZE_MOD) :
    dma_xfer_len s desc f = min ((deref s desc).len - (deref s desc).data_offset) f := by
  unfold dma_xfer_len
  simp only [hes2, if_true]
  have : ((deref s desc).len + SIZE_MOD - (deref s desc).data_offset) % SIZE_MOD
      = (deref s desc).len - (deref s desc).data_offset := by
    have h1 : (deref s desc).len + SIZE_MOD - (deref s desc).data_offset
        = ((deref s desc).len - (deref s desc).data_offset) + SIZE_MOD := by omega
    rw [h1, Nat.add_mod_right, Nat.mod_eq_of_lt (by omega)]
  rw [this]

/-- C6. On ES2, for a descriptor with `data_offset <= len` and a free-space
reading `f`: when `f = 0` `unipro_dma_xfer` returns `-ENOSPC` and leaves the
state, hence the descriptor's `channel` and `data_offset`, unchanged; when
`f > 0` the op it builds has one scatter-gather entry, of length
`xfer_len = min(len - data_offset, f)`, and after a successful submission
(`device_dma_op_alloc` and `device_dma_enqueue` both succeed) it returns 0,
that op is the one enqueued, the descriptor's channel is the given one and
`data_offset` has grown by exactly `xfer_len`, where `xfer_len <= f` and the new
`data_offset` is still at most `len`. -/
theorem C6_es2_chunk_size (s : State) (desc channel f : Nat)
    (hes2 : s.rev_id = tsb_rev.tsb_rev_es2) (hvalid : desc < s.heap.length)
    (hoff : (deref s desc).data_offset ≤ (deref s desc).len)
    (hlen : (deref s desc).len < SIZE_MOD) :
    (∀ op_alloc_ret enqueue_ret, f = 0 →
      unipro_dma_xfer s desc channel f op_alloc_ret enqueue_ret = (-ENOSPC, s)) ∧
    (f ≠ 0 →
      (dma_xfer_op s desc f).sg_count = 1 ∧
      (dma_xfer_op s desc f).sg.map (fun e => e.len)
        = [min ((deref s desc).len - (deref s desc).data_offset) f] ∧
      (unipro_dma_xfer s desc channel f OK 0).1 = 0 ∧
      (unipro_dma_xfer s desc channel f OK 0).2.dma_queue
        = s.dma_queue ++
            [{ channel := channel, op := dma_xfer_op s desc f, started := false }] ∧
      (deref (unipro_dma_xfer s desc channel f OK 0).2 desc).channel = some channel ∧
      (deref (unipro_dma_xfer s desc channel f OK 0).2 desc).data_offset
        = (deref s desc).data_offset
            + min ((deref s desc).len - (deref s desc).data_offset) f ∧
      min ((deref s desc).len - (deref s desc).data_offset) f ≤ f ∧
      (deref (unipro_dma_xfer s desc channel f OK 0).2 desc).data_offset
        ≤ (deref s desc).len ∧
      (deref (unipro_dma_xfer s desc channel f OK 0).2 desc).len = (deref s desc).len) := by
  have hx := es2_xfer_len s desc f hes2 hoff hlen
  constructor
  · intro a e hf
    simp [unipro_dma_xfer, hes2, hf]
  · intro hf
    have hrun : unipro_dma_xfer s desc channel f OK 0
        = (0, { emit (set_desc (set_desc s desc { deref s desc with channel := some channel })
                  desc { deref s desc with
                          channel := some channel,
                          data_offset := ((deref s desc).data_offset
                            + dma_xfer_len s desc f) % SIZE_MOD })
                  (Event.dma_enqueue channel (dma_xfer_op s desc f)) with
                dma_queue := s.dma_queue ++
                  [{ channel := channel, op := dma_xfer_op s desc f, started := false }] }) := by
      simp [unipro_dma_xfer, hes2, hf, set_desc, emit]
    have hd : deref (unipro_dma_xfer s desc channel f OK 0).2 desc
        = { deref s desc with
              channel := some channel,
              data_offset := ((deref s desc).data_offset
                + dma_xfer_len s desc f) % SIZE_MOD } := by
      rw [hrun]
      have h1 : desc < (set_desc s desc { deref s desc with channel := some channel }).heap.length := by
        simp [set_desc, hvalid]
      have := deref_set_desc (set_desc s desc { deref s desc with channel := some channel })
        desc desc { deref s desc with
              channel := some channel,
              data_offset := ((deref s desc).data_offset
                + dma_xfer_len s desc f) % SIZE_MOD } h1
      simpa [deref, emit] using this
    have hsum : ((deref s desc).data_offset + dma_xfer_len s desc f) % SIZE_MOD
        = (deref s desc).data_offset
            + min ((deref s desc).len - (deref s desc).data_offset) f := by
      rw [hx, Nat.mod_eq_of_lt]
      have := Nat.min_le_left ((deref s desc).len - (deref s desc).data_offset) f
      omega
    refine ⟨rfl, ?_, ?_, ?_, ?_, ?_, Nat.min_le_right _ _, ?_, ?_⟩
    · simp [dma_xfer_op, hx]
    · rw [hrun]
    · rw [hrun]
    · rw [hd]
    · rw [hd]; exact hsum
    · rw [hd]
      simp only [hsum]
      have := Nat.min_le_left ((deref s desc).len - (deref s desc).data_offset) f
      omega
    · rw [hd]

/-- Witness of C6: on `es2_state` a reading of 0 is refused and a reading of
256 moves `data_offset` of the 1024-byte descriptor from 0 to 256. -/
theorem C6_es2_chunk_size_witness :
    unipro_dma_xfer es2_state 0 0 0 OK 0 = (-ENOSPC, es2_state) ∧
    (deref (unipro_dma_xfer es2_state 0 0 256 OK 0).2 0).data_offset = 0 + min (1024 - 0) 256 :=
  ⟨(C6_es2_chunk_size es2_state 0 0 0 rfl (by decide) (by decide) (by decide)).1
      OK 0 rfl,
   ((C6_es2_chunk_size es2_state 0 0 256 rfl (by decide) (by decide) (by decide)).2
      (by decide)).2.2.2.2.2.1⟩

/-! ### C7: chunking on ES2 -/

theorem es2_xfer_state (s : State) (desc channel f : Nat)
    (hes2 : s.rev_id = tsb_rev.tsb_rev_es2) (hf : f ≠ 0) :
    (unipro_dma_xfer s desc channel f OK 0).2
      = { s with
          heap := s.heap.set desc
            { deref s desc with
                channel := some channel,
                data_offset := ((deref s desc).data_offset + dma_xfer_len s desc f) % SIZE_MOD },
          trace := s.trace ++ [Event.dma_enqueue channel (dma_xfer_op s desc f)],
          dma_queue := s.dma_queue ++
            [{ channel := channel, op := dma_xfer_op s desc f, started := false }] } := by
  simp [unipro_dma_xfer, hes2, hf, set_desc, emit, List.set_set]

theorem deref_heap_set (s : State) (desc : Nat) (d : unipro_xfer_descriptor)
    (h : desc < s.heap.length) (heap' : List unipro_xfer_descriptor)
    (hh : heap' = s.heap.set desc d) (s' : State) (hs : s'.heap = heap') :
    deref s' desc = d := by
  unfold deref
  rw [hs, hh]
  simp [List.getD_eq_getElem?_getD, h]

/-- A round that does not reach the end of the buffer. -/
theorem es2_round_resume (s : State) (desc channel f : Nat)
    (hes2 : s.rev_id = tsb_rev.tsb_rev_es2) (hvalid : desc < s.heap.length)
    (hlen : (deref s desc).len < SIZE_MOD) (hf : f ≠ 0)
    (hmore : (deref s desc).data_offset + f < (deref s desc).len) :
    ∃ s', es2_round s desc channel f = some (false, s') ∧
      dma_xfer_len s desc f = f ∧
      s'.rev_id = tsb_rev.tsb_rev_es2 ∧ s'.heap.length = s.heap.length ∧
      deref s' desc = { deref s desc with
                          channel := none,
                          data_offset := (deref s desc).data_offset + f } ∧
      s'.cporttable = s.cporttable ∧
      s'.tx_fifo_lock = s.tx_fifo_lock + 1 ∧
      s'.trace.filter is_eom_or_callback = s.trace.filter is_eom_or_callback := by
  have hx : dma_xfer_len s desc f = f := by
    rw [es2_xfer_len s desc f hes2 (by omega) hlen]
    exact Nat.min_eq_right (by omega)
  have hmod : ((deref s desc).data_offset + f) % SIZE_MOD = (deref s desc).data_offset + f :=
    Nat.mod_eq_of_lt (by omega)
  have hst := es2_xfer_state s desc channel f hes2 hf
  rw [hx, hmod] at hst
  have hd1 : deref (unipro_dma_xfer s desc channel f OK 0).2 desc
      = { deref s desc with channel := some channel,
                            data_offset := (deref s desc).data_offset + f } := by
    rw [hst]
    exact deref_heap_set s desc _ hvalid _ rfl _ rfl
  have hnot : ¬ ((deref s desc).data_offset + f ≥ (deref s desc).len) := by omega
  have hround : es2_round s desc channel f = some (false,
      dma_retire (sem_post (set_desc (unipro_dma_xfer s desc channel f OK 0).2 desc
        { deref s desc with channel := none,
                            data_offset := (deref s desc).data_offset + f }))
        { channel := channel, op := dma_xfer_op s desc f, started := false }) := by
    unfold es2_round
    simp only [unipro_dma_tx_callback, EVENT_COMPLETE, dma_tx_callback_complete, hd1,
      Bool.false_eq_true, false_and, if_false, hnot, decide_False, if_true]
  refine ⟨_, hround, hx, ?_, ?_, ?_, ?_, ?_, ?_⟩
  · rw [hst]; simp [dma_retire, sem_post, set_desc, hes2]
  · rw [hst]; simp [dma_retire, sem_post, set_desc]
  · rw [hst]
    simp [deref, dma_retire, sem_post, set_desc, List.getD_eq_getElem?_getD, hvalid]
  · rw [hst]; simp [dma_retire, sem_post, set_desc]
  · rw [hst]; simp [dma_retire, sem_post, set_desc]
  · rw [hst]; simp [dma_retire, sem_post, set_desc, is_eom_or_callback]

/-- The round that reaches the end of the buffer. -/
theorem es2_round_final (s : State) (desc channel f : Nat)
    (hes2 : s.rev_id = tsb_rev.tsb_rev_es2) (hvalid : desc < s.heap.length)
    (hlen : (deref s desc).len < SIZE_MOD) (hf : f ≠ 0)
    (hoff : (deref s desc).data_offset < (deref s desc).len)
    (hlast : (deref s desc).len ≤ (deref s desc).data_offset + f) :
    ∃ s', es2_round s desc channel f = some (true, s') ∧
      dma_xfer_len s desc f = (deref s desc).len - (deref s desc).data_offset ∧
      (deref s' desc).data_offset = (deref s desc).len ∧
      s'.tx_fifo_lock = s.tx_fifo_lock ∧
      s'.trace.filter is_eom_or_callback
        = s.trace.filter is_eom_or_callback ++ [Event.eom (deref s desc).cport]
          ++ (match (deref s desc).callback with
              | some fn => [Event.callback desc fn 0 (deref s desc).data (deref s desc).priv]
              | none => []) := by
  have hx : dma_xfer_len s desc f = (deref s desc).len - (deref s desc).data_offset := by
    rw [es2_xfer_len s desc f hes2 (by omega) hlen]
    exact Nat.min_eq_left (by omega)
  have hmod : ((deref s desc).data_offset
      + ((deref s desc).len - (deref s desc).data_offset)) % SIZE_MOD = (deref s desc).len := by
    rw [Nat.mod_eq_of_lt (by omega)]; omega
  have hst := es2_xfer_state s desc channel f hes2 hf
  rw [hx, hmod] at hst
  have hd1 : deref (unipro_dma_xfer s desc channel f OK 0).2 desc
      = { deref s desc with channel := some channel,
                            data_offset := (deref s desc).len } := by
    rw [hst]
    exact deref_heap_set s desc _ hvalid _ rfl _ rfl
  have hrev : (unipro_dma_xfer s desc channel f OK 0).2.rev_id = tsb_rev.tsb_rev_es2 := by
    rw [hst]; exact hes2
  have hround : es2_round s desc channel f = some (true,
      dma_retire (unipro_xfer_dequeue_descriptor
        (match (deref s desc).callback with
          | some fn =>
            emit (emit (list_del (unipro_dma_tx_set_eom_flag
              (unipro_dma_xfer s desc channel f OK 0).2 (deref s desc).cport) desc)
              (Event.dma_op_free (dma_xfer_op s desc f)))
              (Event.callback desc fn 0 (deref s desc).data (deref s desc).priv)
          | none =>
            emit (list_del (unipro_dma_tx_set_eom_flag
              (unipro_dma_xfer s desc channel f OK 0).2 (deref s desc).cport) desc)
              (Event.dma_op_free (dma_xfer_op s desc f))) desc)
        { channel := channel, op := dma_xfer_op s desc f, started := false }) := by
    unfold es2_round
    simp only [unipro_dma_tx_callback, EVENT_COMPLETE, dma_tx_callback_complete, hd1, hrev,
      Bool.false_eq_true, false_and, if_false, if_true, ge_iff_le, Nat.le_refl, decide_True,
      ne_eq, not_true_eq_false]
  refine ⟨_, hround, hx, ?_, ?_, ?_⟩
  · cases hcb : (deref s desc).callback <;>
    · simp only []
      rw [hst]
      simp [deref, dma_retire, unipro_xfer_dequeue_descriptor, emit, list_del,
        unipro_dma_tx_set_eom_flag, List.getD_eq_getElem?_getD, hvalid]
  · cases hcb : (deref s desc).callback <;>
    · simp only []
      rw [hst]
      simp [dma_retire, unipro_xfer_dequeue_descriptor, emit, list_del,
        unipro_dma_tx_set_eom_flag]
  · cases hcb : (deref s desc).callback <;>
    · simp only []
      rw [hst]
      simp [dma_retire, unipro_xfer_dequeue_descriptor, emit, list_del,
        unipro_dma_tx_set_eom_flag, is_eom_or_callback, List.filter_cons]

theorem es2_transfer_spec (desc channel : Nat) (d0 : unipro_xfer_descriptor)
    (hL : d0.len < SIZE_MOD) :
    ∀ (readings : List Nat) (s : State) (o : Nat) (chn : Option Nat),
      s.rev_id = tsb_rev.tsb_rev_es2 → desc < s.heap.length →
      deref s desc = { d0 with data_offset := o, channel := chn } →
      o < d0.len → (∀ f, f ∈ readings → f ≠ 0) → d0.len - o ≤ readings.sum →
      1 ≤ (es2_transfer readings s desc channel).length ∧
      (es2_transfer readings s desc channel).length ≤ d0.len - o ∧
      ((es2_transfer readings s desc channel).map Prod.fst).sum = d0.len - o ∧
      (∀ i x st, (es2_transfer readings s desc channel)[i]? = some (x, st) →
        0 < x ∧ x ≤ readings.getD i 0) ∧
      (∀ i x st, (es2_transfer readings s desc channel)[i]? = some (x, st) →
        i + 1 < (es2_transfer readings s desc channel).length →
        (deref st desc).channel = none ∧ (deref st desc).data_offset < d0.len ∧
        st.cporttable = s.cporttable ∧ st.tx_fifo_lock = s.tx_fifo_lock + (i + 1) ∧
        st.trace.filter is_eom_or_callback = s.trace.filter is_eom_or_callback) ∧
      (∀ x st, (es2_transfer readings s desc channel).getLast? = some (x, st) →
        (deref st desc).data_offset = d0.len ∧
        st.tx_fifo_lock
          = s.tx_fifo_lock + ((es2_transfer readings s desc channel).length - 1) ∧
        st.trace.filter is_eom_or_callback
          = s.trace.filter is_eom_or_callback ++ [Event.eom d0.cport]
            ++ (match d0.callback with
                | some fn => [Event.callback desc fn 0 d0.data d0.priv]
                | none => [])) := by
  intro readings
  induction readings with
  | nil =>
    intro s o chn _ _ _ ho _ hen
    simp at hen
    omega
  | cons f fs ih =>
    intro s o chn hes2 hvalid hd ho hnz hen
    have hf : f ≠ 0 := hnz f (by simp)
    have hlen : (deref s desc).len = d0.len := by rw [hd]
    have hoff : (deref s desc).data_offset = o := by rw [hd]
    by_cases hmore : o + f < d0.len
    · obtain ⟨s', hround, hx, hes2', hheap', hd', hct, hlock, htr⟩ :=
        es2_round_resume s desc channel f hes2 hvalid (by rw [hlen]; exact hL) hf
          (by rw [hlen, hoff]; exact hmore)
      have hR : es2_transfer (f :: fs) s desc channel
          = (f, s') :: es2_transfer fs s' desc channel := by
        simp only [es2_transfer, hround, hx]
      have hd'' : deref s' desc = { d0 with data_offset := o + f, channel := none } := by
        rw [hd', hd]
      have hen' : d0.len - (o + f) ≤ fs.sum := by
        simp only [List.sum_cons] at hen
        omega
      obtain ⟨i1, i2, i3, i4, i5, i6⟩ := ih s' (o + f) none hes2' (by omega) hd'' hmore
        (fun g hg => hnz g (by simp [hg])) hen'
      rw [hR]
      refine ⟨by simp, ?_, ?_, ?_, ?_, ?_⟩
      · simp only [List.length_cons]; omega
      · simp only [List.map_cons, List.sum_cons, i3]; omega
      · intro i x st hi
        cases i with
        | zero =>
          simp only [List.getElem?_cons_zero, Option.some.injEq, Prod.mk.injEq] at hi
          obtain ⟨rfl, rfl⟩ := hi
          simp
          omega
        | succ j =>
          simp only [List.getElem?_cons_succ] at hi
          simpa using i4 j x st hi
      · intro i x st hi hlt
        cases i with
        | zero =>
          simp only [List.getElem?_cons_zero, Option.some.injEq, Prod.mk.injEq] at hi
          obtain ⟨rfl, rfl⟩ := hi
          refine ⟨by rw [hd''], by rw [hd'']; exact hmore, hct, by omega, htr⟩
        | succ j =>
          simp only [List.getElem?_cons_succ] at hi
          simp only [List.length_cons] at hlt
          obtain ⟨a1, a2, a3, a4, a5⟩ := i5 j x st hi (by omega)
          exact ⟨a1, a2, a3.trans hct, by omega, a5.trans htr⟩
      · intro x st hlast
        have hne : es2_transfer fs s' desc channel ≠ [] := by
          intro h0; rw [h0] at i1; simp at i1
        have hl : ((f, s') :: es2_transfer fs s' desc channel).getLast?
            = (es2_transfer fs s' desc channel).getLast? := by
          cases hq : es2_transfer fs s' desc channel with
          | nil => exact absurd hq hne
          | cons b l => rfl
        rw [hl] at hlast
        obtain ⟨b1, b2, b3⟩ := i6 x st hlast
        refine ⟨b1, ?_, ?_⟩
        · simp only [List.length_cons]; omega
        · rw [b3, htr]
    · obtain ⟨s', hround, hx, hdo, hlock, htr⟩ :=
        es2_round_final s desc channel f hes2 hvalid (by rw [hlen]; exact hL) hf
          (by rw [hlen, hoff]; exact ho) (by rw [hlen, hoff]; omega)
      clear hen
      have hR : es2_transfer (f :: fs) s desc channel = [(d0.len - o, s')] := by
        simp only [es2_transfer, hround, hx, hlen, hoff]
      rw [hR]
      refine ⟨by simp, ?_, ?_, ?_, ?_, ?_⟩
      · simp only [List.length_singleton]; omega
      · simp
      · intro i x st hi
        cases i with
        | zero =>
          simp only [List.getElem?_cons_zero, Option.some.injEq, Prod.mk.injEq] at hi
          obtain ⟨rfl, rfl⟩ := hi
          simp
          omega
        | succ j => simp at hi
      · intro i x st _ hlt
        simp at hlt
      · intro x st hlast
        simp only [List.getLast?_singleton, Option.some.injEq, Prod.mk.injEq] at hlast
        obtain ⟨rfl, rfl⟩ := hlast
        refine ⟨by rw [hdo, hlen], by simp [hlock], ?_⟩
        rw [htr, hd]

/-- C7. On ES2, take a descriptor with `len > 0` and nothing submitted yet, at
the head of its CPort's queue, and any sequence of non-zero free-space
readings that add up to at least `len`. Alternating `unipro_dma_xfer` (both
driver calls succeeding) with the COMPLETE event of the op it enqueued ends
after at least one and at most `len` ops; the op lengths sum to exactly `len`
and each is positive and at most the reading it was computed from. After
every COMPLETE but the last the descriptor has `channel = NULL` and
`data_offset < len`, the CPort directory (so the queue with the descriptor at
its head) is unchanged, `tx_fifo_lock` has been posted once per COMPLETE so
far, and no EOM strobe or callback has been added to the trace. After the last
COMPLETE `data_offset = len`, `tx_fifo_lock` has not been posted again, and
the trace has gained one EOM strobe of the descriptor's CPort followed by the
one call of the callback (when the descriptor has one) with status 0 and the
descriptor's `data` and `priv`. -/
theorem C7_es2_chunking_exhausts_buffer (s : State) (desc channel : Nat)
    (readings : List Nat) (c : cport) (rest : List Nat)
    (hes2 : s.rev_id = tsb_rev.tsb_rev_es2) (hvalid : desc < s.heap.length)
    (hpos : 0 < (deref s desc).len) (hL : (deref s desc).len < SIZE_MOD)
    (hoff : (deref s desc).data_offset = 0)
    (hc : cport_handle s (deref s desc).cport = some c) (hq : c.tx_fifo = desc :: rest)
    (hnz : ∀ f, f ∈ readings → f ≠ 0) (hen : (deref s desc).len ≤ readings.sum) :
    1 ≤ (es2_transfer readings s desc channel).length ∧
    (es2_transfer readings s desc channel).length ≤ (deref s desc).len ∧
    ((es2_transfer readings s desc channel).map Prod.fst).sum = (deref s desc).len ∧
    (∀ i x st, (es2_transfer readings s desc channel)[i]? = some (x, st) →
      0 < x ∧ x ≤ readings.getD i 0) ∧
    (∀ i x st, (es2_transfer readings s desc channel)[i]? = some (x, st) →
      i + 1 < (es2_transfer readings s desc channel).length →
      (deref st desc).channel = none ∧ (deref st desc).data_offset < (deref s desc).len ∧
      (cport_at st (deref s desc).cport).tx_fifo = desc :: rest ∧
      st.cporttable = s.cporttable ∧
      st.tx_fifo_lock = s.tx_fifo_lock + (i + 1) ∧
      st.trace.filter is_eom_or_callback = s.trace.filter is_eom_or_callback) ∧
    (∀ x st, (es2_transfer readings s desc channel).getLast? = some (x, st) →
      (deref st desc).data_offset = (deref s desc).len ∧
      st.tx_fifo_lock
        = s.tx_fifo_lock + ((es2_transfer readings s desc channel).length - 1) ∧
      st.trace.filter is_eom_or_callback
        = s.trace.filter is_eom_or_callback ++ [Event.eom (deref s desc).cport]
          ++ (match (deref s desc).callback with
              | some fn => [Event.callback desc fn 0 (deref s desc).data (deref s desc).priv]
              | none => [])) := by
  have hd : deref s desc
      = { deref s desc with data_offset := 0, channel := (deref s desc).channel } := by
    rw [← hoff]
  obtain ⟨h1, h2, h3, h4, h5, h6⟩ := es2_transfer_spec desc channel (deref s desc) hL
    readings s 0 (deref s desc).channel hes2 hvalid hd hpos hnz (by simpa using hen)
  refine ⟨h1, by simpa using h2, by simpa using h3, h4, ?_, h6⟩
  intro i x st hi hlt
  obtain ⟨a1, a2, a3, a4, a5⟩ := h5 i x st hi hlt
  refine ⟨a1, a2, ?_, a3, a4, a5⟩
  have : cport_at st (deref s desc).cport = cport_at s (deref s desc).cport := by
    simp only [cport_at, cport_handle, a3]
  rw [this]
  simp [cport_at, hc, hq]

/-- Witness of C7, scenario S2: `len = 1024` with readings 256, 256, 512 on
`es2_state` gives three ops of length 256, 256 and 512. -/
theorem C7_es2_chunking_exhausts_buffer_witness :
    ((es2_transfer [256, 256, 512] es2_state 0 0).map Prod.fst).sum = 1024 ∧
    (es2_transfer [256, 256, 512] es2_state 0 0).map Prod.fst = [256, 256, 512] ∧
    (es2_transfer [256, 256, 512] es2_state 0 0).map
        (fun r => r.2.trace.filter is_eom_or_callback)
      = [[], [], [Event.eom 0, Event.callback 0 7 0 8192 5]] :=
  ⟨(C7_es2_chunking_exhausts_buffer es2_state 0 0 [256, 256, 512]
      { idle_cport with tx_fifo := [0] } [] rfl (by decide) (by decide) (by decide)
      rfl (by decide) rfl (by decide) (by decide)).2.2.1,
   by decide, by decide⟩

/-! ### C8, C9: the START branch of `unipro_dma_tx_callback` -/

theorem set_channel_cportid_get (s : State) (ch id : Nat) (dc : dma_channel)
    (h : s.dma_channels[ch]? = some dc) :
    (set_channel_cportid s ch id).dma_channels[ch]? = some { dc with cportid := id } := by
  simp [set_channel_cportid, List.getElem?_modify, h]

/-- C8. On a chip that is not ES2, for a descriptor `D` whose channel is a
channel of the array, whatever cportid that channel is bound to (`0xFFFF`,
`D`'s CPort id or another id) and whatever the ATABL driver calls return,
`unipro_dma_tx_callback` handling a START event returns the value of
`device_atabl_activate_req`. So if it returns success the activate succeeded,
the activate on the channel's request is the last effect of the handler, and
the channel's bound cportid is `D.cport.cportid`; and if the activate fails
the handler returns that error. -/
theorem C8_start_binds_atabl (s : State) (op : device_dma_op) (desc ch : Nat)
    (dc : dma_channel) (r : atabl_results)
    (hrev : s.rev_id ≠ tsb_rev.tsb_rev_es2)
    (hch : (deref s desc).channel = some ch) (hdc : s.dma_channels[ch]? = some dc) :
    ∃ s', unipro_dma_tx_callback s op EVENT_START desc r = some (r.activate_req, s') ∧
      s'.trace.getLast? = some (Event.atabl_activate_req dc.req) ∧
      (r.activate_req = 0 →
        s'.dma_channels[ch]? = some { dc with cportid := (deref s desc).cport }) := by
  unfold unipro_dma_tx_callback
  simp only [EVENT_START, hrev, ne_eq, not_false_eq_true, and_self, if_true,
    dma_tx_callback_start, hch, hdc]
  by_cases hact : r.activate_req = 0
  · simp only [hact, ne_eq, not_true_eq_false, if_false, Bool.false_eq_true]
    refine ⟨_, rfl, ?_, ?_⟩
    · simp [set_channel_cportid, emit]
    · intro _
      split_ifs <;>
        simp [set_channel_cportid, emit, List.getElem?_modify, hdc]
  · simp only [hact, ne_eq, not_false_eq_true, if_true]
    refine ⟨_, rfl, ?_, ?_⟩
    · simp [emit]
    · intro h; exact h.elim

/-- Witness of C8 on `submitted_state`: descriptor 0 of CPort 3 is on channel 1,
which is unbound; with every ATABL call succeeding the START handler returns
0 and leaves channel 1 bound to CPort 3. -/
theorem C8_start_binds_atabl_witness :
    ∃ s', unipro_dma_tx_callback submitted_state (dma_xfer_op submitted_state 0 0)
        EVENT_START 0 { req_is_activated := 0, connect_cport_to_req := 0, activate_req := 0 }
        = some (0, s') ∧
      s'.trace.getLast? = some (Event.atabl_activate_req 2) ∧
      ((0 : Int) = 0 → s'.dma_channels[1]? = some { chan := 2, req := 2, cportid := 3 }) :=
  C8_start_binds_atabl submitted_state (dma_xfer_op submitted_state 0 0) 0 1
    { chan := 2, req := 2, cportid := 0xFFFF }
    { req_is_activated := 0, connect_cport_to_req := 0, activate_req := 0 }
    (by decide) (by decide) (by decide)

/-- C9, the code at the failing input. On `submitted_state` (channel 1 unbound,
descriptor 0 of CPort 3) the START handler is run with
`device_atabl_connect_cport_to_req` failing with `-EINVAL` and
`device_atabl_activate_req` succeeding: it returns 0, not the connect error,
and records CPort 3 as the channel's bound cportid. -/
theorem C9_connect_failure_is_dropped :
    (unipro_dma_tx_callback submitted_state (dma_xfer_op submitted_state 0 0) EVENT_START 0
        { req_is_activated := 0, connect_cport_to_req := -EINVAL, activate_req := 0 }).map
      (fun r => (r.1, r.2.dma_channels, r.2.trace.drop 1))
      = some (0, [{ chan := 1, req := 1, cportid := 0xFFFF },
                  { chan := 2, req := 2, cportid := 3 }],
              [Event.atabl_connect_cport_to_req 3 2, Event.atabl_activate_req 2]) := by
  decide

/-! ### C5: callbacks of a descriptor -/

/-- C5, the code at the failing input. In `reset_in_flight_state` the flush has
called the callback of descriptor 0 with `-ECONNRESET` and freed it while its
DMA op is still held by the driver. The COMPLETE event of that op then runs
the final branch of `unipro_dma_tx_callback` on the freed descriptor: the
callback is called a second time, with status 0, and the descriptor is freed
a second time. -/
theorem C5_callback_twice_after_reset_in_flight :
    (unipro_send_async es2_boot_state 0 8192 1024 (some 7) 5 true).1 = 0 ∧
    reset_in_flight_state.dma_queue.map (fun p => p.op.callback_arg) = [0] ∧
    reset_in_flight_state.trace.filter
        (fun e => decide (e = Event.free 0) || is_eom_or_callback e)
      = [Event.callback 0 7 (-ECONNRESET) 8192 5, Event.free 0] ∧
    (unipro_dma_tx_callback reset_in_flight_state
        (dma_xfer_op (unipro_send_async es2_boot_state 0 8192 1024 (some 7) 5 true).2 0 2048)
        EVENT_COMPLETE 0
        { req_is_activated := 0, connect_cport_to_req := 0, activate_req := 0 }).map
      (fun r => r.2.trace.filter (fun e => decide (e = Event.free 0) || is_eom_or_callback e))
      = some [Event.callback 0 7 (-ECONNRESET) 8192 5, Event.free 0,
              Event.eom 0, Event.callback 0 7 0 8192 5, Event.free 0] := by
  decide

/-! ### C10: channels and descriptors -/

theorem cport_handle_congr {s s' : State} (h : s'.cporttable = s.cporttable) (id : Nat) :
    cport_handle s' id = cport_handle s id := by
  unfold cport_handle; rw [h]

theorem deref_congr {s s' : State} (h : s'.heap = s.heap) (a : Nat) :
    deref s' a = deref s a := by
  unfold deref; rw [h]

theorem Inv_congr {s s' : State} (hc : s'.cporttable = s.cporttable) (hh : s'.heap = s.heap)
    (hI : Inv s) : Inv s' := by
  have e1 := cport_handle_congr hc
  have e2 := deref_congr hh
  constructor
  · intro id c h; exact hI.npr id c (by rw [← e1]; exact h)
  · intro id c h a ha; rw [e2]; exact hI.own id c (by rw [← e1]; exact h) a ha
  · intro id c h a ha; rw [hh]; exact hI.valid id c (by rw [← e1]; exact h) a ha
  · intro id c h; exact hI.nodup id c (by rw [← e1]; exact h)
  · intro id c h a ha; rw [e2]; exact hI.heads id c (by rw [← e1]; exact h) a ha

theorem deref_heap_set_cases (s s' : State) (a x : Nat) (d : unipro_xfer_descriptor)
    (hh : s'.heap = s.heap.set a d) :
    deref s' x = if x = a ∧ a < s.heap.length then d else deref s x := by
  unfold deref
  rw [hh]
  simp only [List.getD_eq_getElem?_getD, List.getElem?_set]
  by_cases hx : a = x
  · subst hx
    by_cases hl : a < s.heap.length
    · simp [hl]
    · simp [hl, List.getElem?_eq_none (Nat.le_of_not_lt hl)]
  · have hx' : ¬ x = a := fun h => hx h.symm
    simp [hx, hx']

/-- A store to a descriptor that keeps its `cport` field keeps the invariant,
provided it clears `channel` or the descriptor is in the tail of no queue. -/
theorem Inv_heap_set {s s' : State} (a : Nat) (d : unipro_xfer_descriptor)
    (hc : s'.cporttable = s.cporttable) (hh : s'.heap = s.heap.set a d)
    (hcp : d.cport = (deref s a).cport)
    (hch : d.channel = none ∨ ∀ id c, cport_handle s id = some c → a ∉ c.tx_fifo.tail)
    (hI : Inv s) : Inv s' := by
  have e1 := cport_handle_congr hc
  have e2 := deref_heap_set_cases s s' a
  constructor
  · intro id c h; exact hI.npr id c (by rw [← e1]; exact h)
  · intro id c h x hx
    rw [e1] at h
    rw [e2 x d hh]
    split_ifs with hx'
    · rw [hcp, ← hx'.1]; exact hI.own id c h x hx
    · exact hI.own id c h x hx
  · intro id c h x hx
    rw [e1] at h
    rw [hh, List.length_set]; exact hI.valid id c h x hx
  · intro id c h; exact hI.nodup id c (by rw [← e1]; exact h)
  · intro id c h x hx
    rw [e1] at h
    rw [e2 x d hh]
    split_ifs with hx'
    · rcases hch with h0 | h0
      · exact h0
      · exact absurd (hx'.1 ▸ hx) (h0 id c h)
    · exact hI.heads id c h x hx

theorem cport_handle_list_del (s : State) (a id : Nat) :
    cport_handle (list_del s a) id
      = (cport_handle s id).map (fun c => { c with tx_fifo := c.tx_fifo.erase a }) := by
  unfold cport_handle list_del
  simp only [List.getElem?_map]
  cases h : s.cporttable[id]? with
  | none => rfl
  | some oc => cases oc <;> rfl

theorem tail_erase_subset (q : List Nat) (a x : Nat) (h : x ∈ (q.erase a).tail) :
    x ∈ q.tail := by
  cases q with
  | nil => simp at h
  | cons b t =>
    by_cases hb : b = a
    · subst hb
      simp only [List.erase_cons_head] at h
      exact List.mem_of_mem_tail h
    · rw [List.erase_cons_tail (by simpa using hb)] at h
      simp only [List.tail_cons] at h ⊢
      exact List.mem_of_mem_erase h

/-- Unlinking a descriptor keeps the invariant. -/
theorem Inv_list_del {s s' : State} (a : Nat)
    (hc : s'.cporttable = (list_del s a).cporttable) (hh : s'.heap = s.heap)
    (hI : Inv s) : Inv s' := by
  have e1 : ∀ id, cport_handle s' id
      = (cport_handle s id).map (fun c => { c with tx_fifo := c.tx_fifo.erase a }) := by
    intro id
    rw [cport_handle_congr hc, cport_handle_list_del]
  have e2 := deref_congr hh
  have key : ∀ id c, cport_handle s' id = some c →
      ∃ c0, cport_handle s id = some c0 ∧ c.tx_fifo = c0.tx_fifo.erase a ∧
        c.pending_reset = c0.pending_reset := by
    intro id c h
    rw [e1] at h
    cases h0 : cport_handle s id with
    | none => rw [h0] at h; cases h
    | some c0 =>
      rw [h0] at h
      simp only [Option.map_some', Option.some.injEq] at h
      exact ⟨c0, rfl, by rw [← h], by rw [← h]⟩
  constructor
  · intro id c h
    obtain ⟨c0, h0, _, hp⟩ := key id c h
    rw [hp]; exact hI.npr id c0 h0
  · intro id c h x hx
    obtain ⟨c0, h0, hq, _⟩ := key id c h
    rw [e2]; rw [hq] at hx
    exact hI.own id c0 h0 x (List.mem_of_mem_erase hx)
  · intro id c h x hx
    obtain ⟨c0, h0, hq, _⟩ := key id c h
    rw [hh]; rw [hq] at hx
    exact hI.valid id c0 h0 x (List.mem_of_mem_erase hx)
  · intro id c h
    obtain ⟨c0, h0, hq, _⟩ := key id c h
    rw [hq]; exact (hI.nodup id c0 h0).erase a
  · intro id c h x hx
    obtain ⟨c0, h0, hq, _⟩ := key id c h
    rw [e2]; rw [hq] at hx
    exact hI.heads id c0 h0 x (tail_erase_subset _ _ _ hx)

/-- Every `unipro_send_async` keeps the invariant. -/
theorem Inv_send_async (s : State) (cportid buf len : Nat) (callback : Option Nat)
    (priv : Nat) (zalloc_ok : Bool) (hI : Inv s) :
    Inv (unipro_send_async s cportid buf len callback priv zalloc_ok).2 := by
  unfold unipro_send_async
  cases h : cport_handle s cportid with
  | none => exact hI
  | some c =>
    simp only []
    by_cases hr : c.pending_reset = true
    · simp only [hr, if_true]; exact hI
    · simp only [hr, Bool.false_eq_true, if_false]
      cases zalloc_ok with
      | false => exact hI
      | true =>
        simp only [Bool.not_true, Bool.false_eq_true, if_false]
        have hlt := cport_handle_lt h
        have e1 : ∀ id, cport_handle (sem_post (list_add { s with heap := s.heap ++
            [{ zero_desc with data := buf, len := len, data_offset := 0,
                              callback := callback, priv := priv, cport := cportid }] }
            cportid c s.heap.length)) id
            = if id = cportid then some { c with tx_fifo := c.tx_fifo ++ [s.heap.length] }
              else cport_handle s id := by
          intro id
          have := cport_handle_set_cport
            { s with heap := s.heap ++
                [{ zero_desc with data := buf, len := len, data_offset := 0,
                                  callback := callback, priv := priv, cport := cportid }] }
            cportid id { c with tx_fifo := c.tx_fifo ++ [s.heap.length] } hlt
          simpa [sem_post, list_add, cport_handle] using this
        have e2 : ∀ a, a < s.heap.length →
            deref (sem_post (list_add { s with heap := s.heap ++
              [{ zero_desc with data := buf, len := len, data_offset := 0,
                                callback := callback, priv := priv, cport := cportid }] }
              cportid c s.heap.length)) a = deref s a := by
          intro a ha
          simp [deref, sem_post, list_add, set_cport, List.getD_eq_getElem?_getD,
            List.getElem?_append_left ha]
        have e3 : deref (sem_post (list_add { s with heap := s.heap ++
              [{ zero_desc with data := buf, len := len, data_offset := 0,
                                callback := callback, priv := priv, cport := cportid }] }
              cportid c s.heap.length)) s.heap.length
            = { zero_desc with data := buf, len := len, data_offset := 0,
                               callback := callback, priv := priv, cport := cportid } := by
          simp [deref, sem_post, list_add, set_cport, List.getD_eq_getElem?_getD]
        have e4 : (sem_post (list_add { s with heap := s.heap ++
              [{ zero_desc with data := buf, len := len, data_offset := 0,
                                callback := callback, priv := priv, cport := cportid }] }
              cportid c s.heap.length)).heap.length = s.heap.length + 1 := by
          simp [sem_post, list_add, set_cport]
        have hvq := hI.valid cportid c h
        constructor
        · intro id c' h'
          rw [e1] at h'
          split_ifs at h' with hid
          · cases h'; simpa using hr
          · exact hI.npr id c' h'
        · intro id c' h' a ha
          rw [e1] at h'
          split_ifs at h' with hid
          · cases h'
            simp only [List.mem_append, List.mem_singleton] at ha
            rcases ha with ha | ha
            · rw [e2 a (hvq a ha), hid]; exact hI.own cportid c h a ha
            · rw [ha, e3, hid]
          · rw [e2 a (hI.valid id c' h' a ha)]; exact hI.own id c' h' a ha
        · intro id c' h' a ha
          rw [e1] at h'
          rw [e4]
          split_ifs at h' with hid
          · cases h'
            simp only [List.mem_append, List.mem_singleton] at ha
            rcases ha with ha | ha
            · exact Nat.lt_succ_of_lt (hvq a ha)
            · omega
          · exact Nat.lt_succ_of_lt (hI.valid id c' h' a ha)
        · intro id c' h'
          rw [e1] at h'
          split_ifs at h' with hid
          · cases h'
            simp only []
            rw [List.nodup_append]
            refine ⟨hI.nodup cportid c h, List.nodup_singleton _, ?_⟩
            intro x hx hx'
            simp only [List.mem_singleton] at hx'
            have := hvq x hx
            omega
          · exact hI.nodup id c' h'
        · intro id c' h' a ha
          rw [e1] at h'
          split_ifs at h' with hid
          · cases h'
            simp only [] at ha
            cases hq : c.tx_fifo with
            | nil => rw [hq] at ha; simp at ha
            | cons b t =>
              rw [hq] at ha
              simp only [List.cons_append, List.tail_cons, List.mem_append,
                List.mem_singleton] at ha
              rcases ha with ha | ha
              · have hat : a ∈ c.tx_fifo.tail := by rw [hq]; exact ha
                rw [e2 a (hvq a (List.mem_of_mem_tail hat))]
                exact hI.heads cportid c h a hat
              · rw [ha, e3]; rfl
          · rw [e2 a (hI.valid id c' h' a (List.mem_of_mem_tail ha))]
            exact hI.heads id c' h' a ha

/-- The worker's `unipro_dma_xfer` on the front descriptor of a queue keeps the
invariant. -/
theorem Inv_dma_xfer (s : State) (desc channel free_space : Nat)
    (op_alloc_ret enqueue_ret : Int) (id : Nat) (c : cport) (rest : List Nat)
    (h : cport_handle s id = some c) (hq : c.tx_fifo = desc :: rest) (hI : Inv s) :
    Inv (unipro_dma_xfer s desc channel free_space op_alloc_ret enqueue_ret).2 := by
  have hnotail : ∀ id' c', cport_handle s id' = some c' → desc ∉ c'.tx_fifo.tail := by
    intro id' c' h' hmem
    have hm' : desc ∈ c'.tx_fifo := List.mem_of_mem_tail hmem
    have h1 := hI.own id' c' h' desc hm'
    have h2 := hI.own id c h desc (by rw [hq]; simp)
    have hid : id' = id := h1.symm.trans h2
    subst hid
    rw [h] at h'; cases h'
    have hnd := hI.nodup id' c h
    rw [hq] at hnd hmem
    simp only [List.tail_cons] at hmem
    exact (List.nodup_cons.mp hnd).1 hmem
  have hstore : ∀ (s' : State) (off : Nat), s'.cporttable = s.cporttable →
      s'.heap = s.heap.set desc
        { deref s desc with channel := some channel, data_offset := off } → Inv s' := by
    intro s' off hc hh
    exact Inv_heap_set desc _ hc hh rfl (Or.inr hnotail) hI
  unfold unipro_dma_xfer
  simp only []
  split_ifs
  · exact hI
  · exact hstore _ (deref s desc).data_offset rfl rfl
  · exact hstore _
      (((deref s desc).data_offset + dma_xfer_len s desc free_space) % SIZE_MOD) rfl
      (by simp [set_desc, List.set_set])
  · exact hstore _
      (((deref s desc).data_offset + dma_xfer_len s desc free_space) % SIZE_MOD) rfl
      (by simp [set_desc, emit, List.set_set])

/-- The START branch touches neither the queues nor the descriptors. -/
theorem dma_tx_callback_start_frame (s : State) (desc : Nat) (r : atabl_results)
    (retval : Int) (b : Bool) (s1 : State)
    (h : dma_tx_callback_start s desc r = some (retval, b, s1)) :
    s1.cporttable = s.cporttable ∧ s1.heap = s.heap := by
  unfold dma_tx_callback_start at h
  simp only [] at h
  split at h
  · cases h
  · split at h
    · cases h
    · split_ifs at h <;>
        simp only [Option.some.injEq, Prod.mk.injEq] at h <;>
        obtain ⟨_, _, rfl⟩ := h <;>
        simp [set_channel_cportid, emit]

theorem Inv_emit {s : State} (e : Event) (hI : Inv s) : Inv (emit s e) :=
  @Inv_congr s (emit s e) rfl rfl hI

theorem Inv_list_del_self {s : State} (a : Nat) (hI : Inv s) : Inv (list_del s a) :=
  Inv_list_del a rfl rfl hI

/-- The COMPLETE branch keeps the invariant. -/
theorem Inv_dma_tx_callback_complete (s : State) (op : device_dma_op) (desc : Nat)
    (s1 : State) (h : dma_tx_callback_complete s op desc = some s1) (hI : Inv s) :
    Inv s1 := by
  unfold dma_tx_callback_complete at h
  simp only [] at h
  have h3 : Inv (emit (list_del (unipro_dma_tx_set_eom_flag s (deref s desc).cport) desc)
      (Event.dma_op_free op)) :=
    Inv_emit _ (Inv_list_del_self _ (Inv_emit _ hI))
  have h4 : Inv (match (deref s desc).callback with
      | some fn =>
        emit (emit (list_del (unipro_dma_tx_set_eom_flag s (deref s desc).cport) desc)
          (Event.dma_op_free op))
          (Event.callback desc fn 0 (deref s desc).data (deref s desc).priv)
      | none =>
        emit (list_del (unipro_dma_tx_set_eom_flag s (deref s desc).cport) desc)
          (Event.dma_op_free op)) := by
    cases (deref s desc).callback with
    | none => exact h3
    | some fn => exact Inv_emit _ h3
  split_ifs at h with hfin hrev
  · split at h
    · cases h
    · split at h
      · cases h
      · simp only [Option.some.injEq] at h
        subst h
        exact Inv_emit _ (Inv_list_del_self _ (Inv_emit _ h4))
  · simp only [Option.some.injEq] at h
    subst h
    exact Inv_emit _ (Inv_list_del_self _ h4)
  · simp only [Option.some.injEq] at h
    subst h
    exact Inv_heap_set desc { deref s desc with channel := none }
      (by simp [sem_post, set_desc]) (by simp [sem_post, set_desc]) rfl (Or.inl rfl) hI

/-- Every run of `unipro_dma_tx_callback` keeps the invariant. -/
theorem Inv_dma_tx_callback (s : State) (op : device_dma_op) (event : dma_event)
    (arg : Nat) (r : atabl_results) (retval : Int) (s1 : State)
    (h : unipro_dma_tx_callback s op event arg r = some (retval, s1)) (hI : Inv s) :
    Inv s1 := by
  unfold unipro_dma_tx_callback at h
  simp only [] at h
  split at h
  · cases h
  · next rv sa heq =>
    simp only [Option.some.injEq, Prod.mk.injEq] at h
    obtain ⟨_, rfl⟩ := h
    split_ifs at heq with hs
    · obtain ⟨hc, hh⟩ := dma_tx_callback_start_frame s arg r _ _ _ heq
      exact Inv_congr hc hh hI
    · cases heq
  · next rv sa heq =>
    have hIa : Inv sa := by
      split_ifs at heq with hs
      · obtain ⟨hc, hh⟩ := dma_tx_callback_start_frame s arg r _ _ _ heq
        exact Inv_congr hc hh hI
      · simp only [Option.some.injEq, Prod.mk.injEq] at heq
        obtain ⟨_, _, rfl⟩ := heq
        exact hI
    split_ifs at h with hcomp
    · split at h
      · cases h
      · next s2 h2 =>
        simp only [Option.some.injEq, Prod.mk.injEq] at h
        obtain ⟨_, rfl⟩ := h
        exact Inv_dma_tx_callback_complete sa op arg s2 h2 hIa
    · simp only [Option.some.injEq, Prod.mk.injEq] at h
      obtain ⟨_, rfl⟩ := h
      exact hIa

/-- With no reset pending the picker changes nothing, and what it returns is
the front of a queue. -/
theorem pick_tx_descriptor_front (free : Nat → Nat) (s : State) (start : Nat)
    (hI : Inv s) (r : pick_result) (s1 : State)
    (h : pick_tx_descriptor free s start = (r, s1)) :
    s1 = s ∧ ∀ desc, r = pick_result.found desc →
      ∃ id c rest, cport_handle s id = some c ∧ c.tx_fifo = desc :: rest := by
  have hs := pick_loop_search free s s.cport_count hI.npr hI.own s.cport_count start
  unfold pick_tx_descriptor at h
  rw [hs] at h
  simp only [Prod.mk.injEq] at h
  obtain ⟨hr, rfl⟩ := h
  refine ⟨rfl, ?_⟩
  intro desc hd
  rw [hd] at hr
  cases hf : ((List.range s.cport_count).map (fun j => (start + j) % s.cport_count)).findSome?
      (ready_desc free s) with
  | none => rw [hf] at hr; cases hr
  | some d =>
    rw [hf] at hr
    simp only [pick_result.found.injEq] at hr
    subst hr
    obtain ⟨id, _, hid⟩ := List.exists_of_findSome?_eq_some hf
    unfold ready_desc at hid
    cases hc : cport_handle s id with
    | none => rw [hc] at hid; cases hid
    | some c =>
      rw [hc] at hid
      simp only [] at hid
      cases hq : c.tx_fifo with
      | nil => rw [hq] at hid; cases hid
      | cons b rest =>
        rw [hq] at hid
        simp only [] at hid
        split_ifs at hid
        simp only [Option.some.injEq] at hid
        subst hid
        exact ⟨id, c, rest, hc, hq⟩

/-- Every step of the engine keeps the invariant. -/
theorem Inv_step {sys sys' : System} (hstep : Step sys sys') (hI : Inv sys.st) :
    Inv sys'.st := by
  cases hstep with
  | send_async cportid buf len callback priv zalloc_ok _ =>
    exact Inv_send_async _ _ _ _ _ _ _ hI
  | worker_wake _ _ =>
    exact @Inv_congr sys.st _ rfl rfl hI
  | worker_xfer next_cport free desc channel s1 free_space op_alloc_ret enqueue_ret _ hp _ =>
    obtain ⟨hs, hfront⟩ := pick_tx_descriptor_front free sys.st next_cport hI _ _ hp
    subst hs
    obtain ⟨id, c, rest, hc, hq⟩ := hfront desc rfl
    exact Inv_dma_xfer _ _ _ _ _ _ id c rest hc hq hI
  | worker_sleep next_cport free s1 _ hp =>
    obtain ⟨hs, _⟩ := pick_tx_descriptor_front free sys.st next_cport hI _ _ hp
    subst hs
    exact hI
  | dma_start p r retval s1 _ _ _ hcb =>
    have h1 := Inv_dma_tx_callback _ _ _ _ _ _ _ hcb hI
    simp only []
    split_ifs
    · exact @Inv_congr s1 _ rfl rfl h1
    · exact @Inv_congr s1 _ rfl rfl h1
  | dma_complete p r retval s1 _ _ hcb =>
    have h1 := Inv_dma_tx_callback _ _ _ _ _ _ _ hcb hI
    exact @Inv_congr s1 _ rfl rfl h1

theorem Inv_init {sys : System} (h : Init sys) : Inv sys.st := by
  obtain ⟨_, _, _, _, _, _, hq⟩ := h
  constructor
  · intro id c hc; exact (hq id c hc).2
  · intro id c hc a ha; rw [(hq id c hc).1] at ha; simp at ha
  · intro id c hc a ha; rw [(hq id c hc).1] at ha; simp at ha
  · intro id c hc; rw [(hq id c hc).1]; exact List.nodup_nil
  · intro id c hc a ha; rw [(hq id c hc).1] at ha; simp at ha

theorem Inv_reachable {sys : System} (h : Reachable sys) : Inv sys.st := by
  obtain ⟨sys0, h0, hsteps⟩ := h
  induction hsteps with
  | refl => exact Inv_init h0
  | tail _ hstep ih => exact Inv_step hstep ih

theorem s5_boot_init : Init s5_boot := by
  refine ⟨rfl, rfl, by decide, by decide, ?_, rfl, ?_⟩
  · intro i dc hi hdc
    have hi0 : i = 0 := by
      have : i < 1 := hi
      omega
    subst hi0
    simp [s5_boot, one_channel_state] at hdc
    subst hdc
    rfl
  · intro id c hc
    have hlt := cport_handle_lt hc
    have hlt9 : id < 9 := by simpa [s5_boot, one_channel_state] using hlt
    have hc' := cport_handle_eq_some.mp hc
    simp only [s5_boot, one_channel_state, List.getElem?_replicate, hlt9, if_true,
      Option.some.injEq] at hc'
    subst hc'
    exact ⟨rfl, rfl⟩

theorem s5_reachable : Reachable s5_xfer8 := by
  refine ⟨s5_boot, s5_boot_init, ?_⟩
  have h1 : Step s5_boot s5_sent7 := Step.send_async s5_boot 7 8192 16 (some 9) 5 true
    (by decide)
  have h2 : Step s5_sent7 s5_sent8 := Step.send_async s5_sent7 8 12288 16 (some 9) 6 true
    (by decide)
  have h3 : Step s5_sent8 s5_awake := Step.worker_wake s5_sent8 rfl (by decide)
  have h4 : Step s5_awake s5_xfer7 :=
    Step.worker_xfer s5_awake 0 (fun _ => 64) 0 0 s5_awake.st 64 OK 0 rfl (by decide)
      (by decide)
  have h5 : Step s5_xfer7 s5_xfer8 :=
    Step.worker_xfer s5_xfer7 8 (fun _ => 64) 1 0 s5_xfer7.st 64 OK 0 (by decide)
      (by decide) (by decide)
  exact ((((Relation.ReflTransGen.single h1).tail h2).tail h3).tail h4).tail h5

/-- C10 as the spec states it fails. Scenario S5 on a non-ES2 chip with
`max_channel = 1`: after initialisation, `unipro_send_async` queues one
descriptor on CPort 7 and one on CPort 8; the worker wakes and, in one pass,
picks descriptor 0 (CPort 7) and submits it on `channels[7 mod 1]`, then picks
descriptor 1 (CPort 8) and submits it on `channels[8 mod 1]`. Both queued
descriptors now have `channel = channels[0]`. -/
theorem C10_channel_shared_by_two_cports :
    Init s5_boot ∧ Relation.ReflTransGen Step s5_boot s5_xfer8 ∧
    cport_handle s5_xfer8.st 7 = some { idle_cport with tx_fifo := [0] } ∧
    cport_handle s5_xfer8.st 8 = some { idle_cport with tx_fifo := [1] } ∧
    (deref s5_xfer8.st 0).channel = some 0 ∧ (deref s5_xfer8.st 1).channel = some 0 ∧
    ¬ channel_exclusive s5_xfer8.st := by
  have h1 : Step s5_boot s5_sent7 := Step.send_async s5_boot 7 8192 16 (some 9) 5 true
    (by decide)
  have h2 : Step s5_sent7 s5_sent8 := Step.send_async s5_sent7 8 12288 16 (some 9) 6 true
    (by decide)
  have h3 : Step s5_sent8 s5_awake := Step.worker_wake s5_sent8 rfl (by decide)
  have h4 : Step s5_awake s5_xfer7 :=
    Step.worker_xfer s5_awake 0 (fun _ => 64) 0 0 s5_awake.st 64 OK 0 rfl (by decide)
      (by decide)
  have h5 : Step s5_xfer7 s5_xfer8 :=
    Step.worker_xfer s5_xfer7 8 (fun _ => 64) 1 0 s5_xfer7.st 64 OK 0 (by decide)
      (by decide) (by decide)
  refine ⟨s5_boot_init,
    ((((Relation.ReflTransGen.single h1).tail h2).tail h3).tail h4).tail h5,
    by decide, by decide, by decide, by decide, ?_⟩
  intro hex
  have := hex 7 { idle_cport with tx_fifo := [0] } 0 8 { idle_cport with tx_fifo := [1] } 1 0
    (by decide) (by decide) (by decide) (by decide) (by decide) (by decide)
  exact absurd this (by decide)

/-- C10, amended. In every state reachable after a successful `unipro_tx_init`
through `unipro_send_async` calls, worker steps (`pick_tx_descriptor`,
`pick_dma_channel`, `unipro_dma_xfer`) and DMA START and COMPLETE events, a
queued descriptor that has a channel is the front of its CPort's `tx_fifo`; so
for each channel at most one descriptor of any one CPort has that channel. -/
theorem C10_channel_exclusive_per_cport (sys : System) (h : Reachable sys) :
    (∀ id c a, cport_handle sys.st id = some c → a ∈ c.tx_fifo →
      (deref sys.st a).channel ≠ none → c.tx_fifo.head? = some a) ∧
    channel_exclusive_per_cport sys.st := by
  have hI := Inv_reachable h
  have hfront : ∀ id c a, cport_handle sys.st id = some c → a ∈ c.tx_fifo →
      (deref sys.st a).channel ≠ none → c.tx_fifo.head? = some a := by
    intro id c a hc ha hch
    cases hq : c.tx_fifo with
    | nil => rw [hq] at ha; simp at ha
    | cons b t =>
      rw [hq] at ha
      simp only [List.mem_cons] at ha
      rcases ha with ha | ha
      · rw [ha]; rfl
      · exact absurd (hI.heads id c hc a (by rw [hq]; exact ha)) hch
  refine ⟨hfront, ?_⟩
  intro id c a1 a2 ch hc h1 h2 hc1 hc2
  have e1 := hfront id c a1 hc h1 (by rw [hc1]; simp)
  have e2 := hfront id c a2 hc h2 (by rw [hc2]; simp)
  rw [e1] at e2
  exact Option.some.inj e2

/-- Witness of the amended C10 on the reachable state of scenario S5. -/
theorem C10_channel_exclusive_per_cport_witness :
    Reachable s5_xfer8 ∧ channel_exclusive_per_cport s5_xfer8.st :=
  ⟨s5_reachable, (C10_channel_exclusive_per_cport s5_xfer8 s5_reachable).2⟩

/-! ### C11: the picker after an inline flush -/

/-- C11, the code at the failing input. In `reset_state` CPort 3 has
`pending_reset` set and queues descriptors 1 and 2. `pick_tx_descriptor(0)`
passes CPorts 0 to 2, finds the queue of CPort 3 non-empty, flushes it and then,
without looking at the list again, takes `containerof(cport->tx_fifo.next)` of
the list the flush has just emptied. -/
theorem C11_pick_reads_front_of_flushed_queue :
    (cport_at reset_state 3).pending_reset = true ∧
    (cport_at reset_state 3).tx_fifo = [1, 2] ∧
    (pick_tx_descriptor (fun _ => 64) reset_state 0).1 = pick_result.stray 3 ∧
    (cport_at (pick_tx_descriptor (fun _ => 64) reset_state 0).2 3).tx_fifo = [] ∧
    (pick_tx_descriptor (fun _ => 64) reset_state 0).2.trace
      = [Event.callback 1 7 (-ECONNRESET) 0 0, Event.free 1, Event.free 2,
         Event.reset_cport 3, Event.reset_completion 11 3 77] := by
  decide

/-! ### C12: sends to a CPort that is being reset -/

/-- C12 as stated fails, scenario S4. With three descriptors queued on CPort 5
and `pending_reset` set, `unipro_send_async(5, ...)` returns `-EPIPE`; the
picker pass flushes the CPort (three callbacks with `-ECONNRESET`, one reset,
one completion hook) and the flush itself clears `pending_reset`; the next
`unipro_send_async(5, ...)` returns 0, not `-EPIPE`. -/
theorem C12_send_accepted_after_flush :
    (unipro_send_async s4_resetting 5 8192 16 (some 9) 4 true).1 = -EPIPE ∧
    s4_flushed.trace
      = [Event.callback 0 9 (-ECONNRESET) 8192 1, Event.free 0,
         Event.callback 1 9 (-ECONNRESET) 8192 2, Event.free 1,
         Event.callback 2 9 (-ECONNRESET) 8192 3, Event.free 2,
         Event.reset_cport 5, Event.reset_completion 11 5 77] ∧
    (cport_at s4_flushed 5).pending_reset = false ∧
    (unipro_send_async s4_flushed 5 8192 16 (some 9) 4 true).1 = 0 ∧
    (unipro_send_async s4_flushed 5 8192 16 (some 9) 4 true).1 ≠ -EPIPE := by
  decide

/-- C12, amended. `unipro_send_async` on a CPort returns `-EPIPE`, changing
nothing, for as long as the CPort's `pending_reset` is set. `unipro_flush_cport`
clears `pending_reset` itself, so once the picker has flushed the CPort a
`unipro_send_async` on it whose allocation succeeds is accepted and returns 0. -/
theorem C12_reset_refuses_sends_until_flush (s : State) (cportid : Nat) (c : cport)
    (h : cport_handle s cportid = some c) (ho : owned s) :
    (c.pending_reset = true → ∀ buf len callback priv zalloc_ok,
      unipro_send_async s cportid buf len callback priv zalloc_ok = (-EPIPE, s)) ∧
    (cport_at (unipro_flush_cport s cportid) cportid).pending_reset = false ∧
    (∀ buf len callback priv,
      (unipro_send_async (unipro_flush_cport s cportid) cportid buf len callback priv true).1
        = 0) := by
  have hlt := cport_handle_lt h
  have hf : cport_handle (unipro_flush_cport s cportid) cportid
      = some { c with tx_fifo := [], pending_reset := false, reset_completion_cb := none,
                      reset_completion_cb_priv := 0 } := by
    rw [flush_cport_spec h (owned_disjoint ho h)]
    have := cport_handle_set_cport s cportid cportid
      { c with tx_fifo := [], pending_reset := false, reset_completion_cb := none,
               reset_completion_cb_priv := 0 } hlt
    simpa [cport_handle, set_cport] using this
  refine ⟨?_, ?_, ?_⟩
  · intro hp buf len callback priv zalloc_ok
    simp [unipro_send_async, h, hp]
  · simp [cport_at, hf]
  · intro buf len callback priv
    simp [unipro_send_async, hf]

/-- Witness of the amended C12 on scenario S4. -/
theorem C12_reset_refuses_sends_until_flush_witness :
    unipro_send_async s4_resetting 5 8192 16 (some 9) 4 true = (-EPIPE, s4_resetting) ∧
    (unipro_send_async (unipro_flush_cport s4_resetting 5) 5 8192 16 (some 9) 4 true).1 = 0 :=
  ⟨(C12_reset_refuses_sends_until_flush s4_resetting 5
      { idle_cport with tx_fifo := [0, 1, 2], pending_reset := true,
                        reset_completion_cb := some 11, reset_completion_cb_priv := 77 }
      (by decide) (owned_of_check (by decide))).1 rfl 8192 16 (some 9) 4 true,
   (C12_reset_refuses_sends_until_flush s4_resetting 5
      { idle_cport with tx_fifo := [0, 1, 2], pending_reset := true,
                        reset_completion_cb := some 11, reset_completion_cb_priv := 77 }
      (by decide) (owned_of_check (by decide))).2.2 8192 16 (some 9) 4⟩

/-! ### C13: the final COMPLETE -/

theorem erase_erase_eq_filter (q : List Nat) (a : Nat) (h : q.Nodup) :
    (q.erase a).erase a = q.filter (fun x => decide (x ≠ a)) := by
  have h1 : q.erase a = q.filter (fun x => decide (x ≠ a)) := by
    rw [List.Nodup.erase_eq_filter h]
    congr 1
    funext x
    by_cases hx : x = a <;> simp [hx, bne]
  have h2 : a ∉ q.erase a := fun hm => (List.Nodup.mem_erase_iff h).mp hm |>.1 rfl
  rw [List.erase_of_not_mem h2, h1]

theorem cport_handle_list_del_twice (s s' : State) (desc : Nat)
    (hc : s'.cporttable = (list_del (list_del s desc) desc).cporttable)
    (hnd : queues_nodup s) (id : Nat) (c : cport) (h : cport_handle s id = some c) :
    cport_handle s' id
      = some { c with tx_fifo := c.tx_fifo.filter (fun a => decide (a ≠ desc)) } := by
  rw [cport_handle_congr hc, cport_handle_list_del, cport_handle_list_del, h]
  simp only [Option.map_some']
  rw [erase_erase_eq_filter _ _ (hnd id c h)]

/-- C13. For a descriptor `D` with `data_offset >= len` (on a chip that is not
ES2, with `D.channel` a channel of the array) the COMPLETE event makes
`unipro_dma_tx_callback` return 0 and produce exactly these effects, in this
order: the EOM strobe of `D.cport`, the release of the DMA op, the call of
`D.callback` with `(0, D.data, D.priv)` when `D` has one, on a chip that is not
ES2 `device_atabl_transfer_completed` on the request of `D.channel`, and the
`free` of `D`. So the EOM strobe comes strictly before the user callback. In
the state it leaves `D` is in no queue, every queue holds its other
descriptors in the order they had, and descriptor memory, `tx_fifo_lock` and
the channels are as they were. -/
theorem C13_final_complete_order (s : State) (op : device_dma_op) (desc ch : Nat)
    (dc : dma_channel) (r : atabl_results)
    (hfin : (deref s desc).data_offset ≥ (deref s desc).len)
    (hch : s.rev_id ≠ tsb_rev.tsb_rev_es2 →
      (deref s desc).channel = some ch ∧ s.dma_channels[ch]? = some dc)
    (hnd : queues_nodup s) :
    ∃ s', unipro_dma_tx_callback s op EVENT_COMPLETE desc r = some (0, s') ∧
      s'.trace = s.trace ++ [Event.eom (deref s desc).cport, Event.dma_op_free op]
        ++ (match (deref s desc).callback with
            | some fn => [Event.callback desc fn 0 (deref s desc).data (deref s desc).priv]
            | none => [])
        ++ (if s.rev_id ≠ tsb_rev.tsb_rev_es2
            then [Event.atabl_transfer_completed dc.req] else [])
        ++ [Event.free desc] ∧
      (∀ id c, cport_handle s id = some c →
        cport_handle s' id
          = some { c with tx_fifo := c.tx_fifo.filter (fun a => decide (a ≠ desc)) }) ∧
      s'.heap = s.heap ∧ s'.tx_fifo_lock = s.tx_fifo_lock ∧
      s'.dma_channels = s.dma_channels := by
  unfold unipro_dma_tx_callback
  simp only [EVENT_COMPLETE, Bool.false_eq_true, false_and, if_false, if_true,
    dma_tx_callback_complete, hfin]
  by_cases hrev : s.rev_id = tsb_rev.tsb_rev_es2
  · simp only [hrev, ne_eq, not_true_eq_false, if_false]
    refine ⟨_, rfl, ?_, ?_, ?_, ?_, ?_⟩
    · cases (deref s desc).callback <;>
        simp [unipro_xfer_dequeue_descriptor, emit, list_del, unipro_dma_tx_set_eom_flag]
    · intro id c h
      refine cport_handle_list_del_twice s _ desc ?_ hnd id c h
      cases (deref s desc).callback <;>
        simp [unipro_xfer_dequeue_descriptor, emit, list_del, unipro_dma_tx_set_eom_flag]
    · cases (deref s desc).callback <;>
        simp [unipro_xfer_dequeue_descriptor, emit, list_del, unipro_dma_tx_set_eom_flag]
    · cases (deref s desc).callback <;>
        simp [unipro_xfer_dequeue_descriptor, emit, list_del, unipro_dma_tx_set_eom_flag]
    · cases (deref s desc).callback <;>
        simp [unipro_xfer_dequeue_descriptor, emit, list_del, unipro_dma_tx_set_eom_flag]
  · obtain ⟨h1, h2⟩ := hch hrev
    simp only [hrev, ne_eq, not_false_eq_true, if_true, h1, h2]
    refine ⟨_, rfl, ?_, ?_, ?_, ?_, ?_⟩
    · cases (deref s desc).callback <;>
        simp [unipro_xfer_dequeue_descriptor, emit, list_del, unipro_dma_tx_set_eom_flag]
    · intro id c h
      refine cport_handle_list_del_twice s _ desc ?_ hnd id c h
      cases (deref s desc).callback <;>
        simp [unipro_xfer_dequeue_descriptor, emit, list_del, unipro_dma_tx_set_eom_flag]
    · cases (deref s desc).callback <;>
        simp [unipro_xfer_dequeue_descriptor, emit, list_del, unipro_dma_tx_set_eom_flag]
    · cases (deref s desc).callback <;>
        simp [unipro_xfer_dequeue_descriptor, emit, list_del, unipro_dma_tx_set_eom_flag]
    · cases (deref s desc).callback <;>
        simp [unipro_xfer_dequeue_descriptor, emit, list_del, unipro_dma_tx_set_eom_flag]

theorem queues_nodup_of_check {s : State} (h : queues_nodup_check s = true) :
    queues_nodup s := by
  intro id c hc
  have hlt := cport_handle_lt hc
  unfold queues_nodup_check at h
  rw [List.all_eq_true] at h
  have := h id (List.mem_range.mpr hlt)
  simpa [hc] using this

/-- Witness of C13, scenario S5: COMPLETE for descriptor 0 (CPort 7, channel 0)
after its START. -/
theorem C13_final_complete_order_witness :
    ∃ s', unipro_dma_tx_callback s5_started7 (dma_xfer_op s5_awake.st 0 64)
        EVENT_COMPLETE 0 atabl_ok_activated = some (0, s') ∧
      s'.trace = s5_started7.trace
        ++ [Event.eom 7, Event.dma_op_free (dma_xfer_op s5_awake.st 0 64)]
        ++ [Event.callback 0 9 0 8192 5]
        ++ [Event.atabl_transfer_completed 1]
        ++ [Event.free 0] := by
  obtain ⟨s', h1, h2, _⟩ := C13_final_complete_order s5_started7
    (dma_xfer_op s5_awake.st 0 64) 0 0 { chan := 1, req := 1, cportid := 7 }
    atabl_ok_activated (by decide) (fun _ => ⟨by decide, by decide⟩)
    (queues_nodup_of_check (by decide))
  exact ⟨s', h1, h2⟩

/-! ### C18: the ATABL calls of the START branch -/

/-- C18. On a chip that is not ES2, let `b` be the bound cportid of `D.channel`
and `c = D.cport.cportid`. Handling a START event, `unipro_dma_tx_callback`
makes exactly these ATABL calls on the channel's request, in this order: the
`req_is_activated` query when `b != 0xFFFF`; `deactivate_req` when
`b != 0xFFFF` and the query said the request is activated; `disconnect` when
`b` is neither `c` nor `0xFFFF`; `connect` to `c` when `b != c`; and last, always,
`activate_req`. The bound cportid ends as `c` when the activate succeeds;
otherwise it is `0xFFFF` after a rebinding (`b != c`) and still `b` when
`b = c`. -/
theorem C18_start_rebinding_sequence (s : State) (op : device_dma_op) (desc ch : Nat)
    (dc : dma_channel) (r : atabl_results)
    (hrev : s.rev_id ≠ tsb_rev.tsb_rev_es2)
    (hch : (deref s desc).channel = some ch) (hdc : s.dma_channels[ch]? = some dc) :
    ∃ s', unipro_dma_tx_callback s op EVENT_START desc r = some (r.activate_req, s') ∧
      s'.trace = s.trace
        ++ (if dc.cportid ≠ 0xFFFF then [Event.atabl_req_is_activated dc.req] else [])
        ++ (if dc.cportid ≠ 0xFFFF ∧ r.req_is_activated ≠ 0
            then [Event.atabl_deactivate_req dc.req] else [])
        ++ (if dc.cportid ≠ (deref s desc).cport ∧ dc.cportid ≠ 0xFFFF
            then [Event.atabl_disconnect_cport_from_req dc.req] else [])
        ++ (if dc.cportid ≠ (deref s desc).cport
            then [Event.atabl_connect_cport_to_req (deref s desc).cport dc.req] else [])
        ++ [Event.atabl_activate_req dc.req] ∧
      s'.dma_channels[ch]? = some { dc with cportid :=
        if r.activate_req = 0 then (deref s desc).cport
        else if dc.cportid ≠ (deref s desc).cport then 0xFFFF else dc.cportid } := by
  unfold unipro_dma_tx_callback
  simp only [EVENT_START, hrev, ne_eq, not_false_eq_true, and_self, if_true,
    dma_tx_callback_start, hch, hdc]
  by_cases hact : r.activate_req = 0
  · simp only [hact, ne_eq, not_true_eq_false, if_false, Bool.false_eq_true, if_true]
    refine ⟨_, rfl, ?_, ?_⟩
    · split_ifs <;> simp_all [set_channel_cportid, emit]
    · split_ifs <;> simp [set_channel_cportid, emit, List.getElem?_modify, hdc]
  · simp only [hact, ne_eq, not_false_eq_true, if_true, if_false]
    refine ⟨_, rfl, ?_, ?_⟩
    · split_ifs <;> simp_all [set_channel_cportid, emit]
    · split_ifs with h1 h2 h3 <;>
        simp [set_channel_cportid, emit, List.getElem?_modify, hdc] <;>
        (cases dc; simp_all)

/-- Witness of C18, scenario S5: channel 0 is bound to CPort 7 with its request
activated, and START arrives for descriptor 1 of CPort 8. The calls are the
query, deactivate, disconnect, connect to 8, activate, and the channel ends
bound to CPort 8. -/
theorem C18_start_rebinding_sequence_witness :
    s5_done7.dma_channels = [{ chan := 1, req := 1, cportid := 7 }] ∧
    ∃ s', unipro_dma_tx_callback s5_done7 (dma_xfer_op s5_xfer7.st 1 64) EVENT_START 1
        atabl_ok_activated = some (0, s') ∧
      s'.trace = s5_done7.trace
        ++ [Event.atabl_req_is_activated 1] ++ [Event.atabl_deactivate_req 1]
        ++ [Event.atabl_disconnect_cport_from_req 1]
        ++ [Event.atabl_connect_cport_to_req 8 1] ++ [Event.atabl_activate_req 1] ∧
      s'.dma_channels[0]? = some { chan := 1, req := 1, cportid := 8 } :=
  ⟨by decide,
   C18_start_rebinding_sequence s5_done7 (dma_xfer_op s5_xfer7.st 1 64) 1 0
    { chan := 1, req := 1, cportid := 7 } atabl_ok_activated
    (by decide) (by decide) (by decide)⟩

/-! ### C14: order of the callbacks of one CPort -/

/-- C14, the code at the failing input. Descriptors 0 and 1 were accepted on
CPort 0 in that order. The flush calls both callbacks with `-ECONNRESET` while
the op of descriptor 0 is in flight, and the COMPLETE of that op then calls the
callback of descriptor 0 again: the callbacks of the CPort run in the order
0, 1, 0. -/
theorem C14_callback_after_later_descriptor :
    fifo_reset_in_flight_state.trace.filter is_eom_or_callback
      = [Event.callback 0 7 (-ECONNRESET) 8192 1, Event.callback 1 7 (-ECONNRESET) 12288 2,
         Event.eom 0, Event.callback 0 7 0 8192 1] := by
  decide

/-! ### C16, C17: `unipro_tx_init` -/

theorem tx_init_pool_retval (env : tx_init_env) (s : State) (dev atabl_dev : Nat) :
    (tx_init_pool env s dev atabl_dev).1 = 0 ∨
    (tx_init_pool env s dev atabl_dev).1 = -ENODEV ∨
    (env.pthread_create ≠ 0 ∧ (tx_init_pool env s dev atabl_dev).1 = env.pthread_create) := by
  unfold tx_init_pool
  simp only []
  split_ifs <;>
    first
    | exact Or.inl rfl
    | exact Or.inr (Or.inl rfl)
    | exact Or.inr (Or.inr ⟨by assumption, rfl⟩)

/-- C16 as stated fails: with every collaborator succeeding except
`pthread_create`, which returns 11 (`EAGAIN`), `unipro_tx_init` returns 11,
which is neither 0 nor `-ENODEV`. -/
theorem C16_tx_init_returns_pthread_error :
    (unipro_tx_init (env_with_pthread_create 11) preinit_state).1 = 11 ∧
    (unipro_tx_init (env_with_pthread_create 11) preinit_state).1 ≠ 0 ∧
    (unipro_tx_init (env_with_pthread_create 11) preinit_state).1 ≠ -ENODEV := by
  decide

/-- C16, amended. For every chip revision and every outcome of the collaborator
calls, `unipro_tx_init` returns 0, `-ENODEV`, or, when the worker thread cannot
be created, the non-zero value `pthread_create` returned. -/
theorem C16_tx_init_result_set (env : tx_init_env) (s : State) :
    (unipro_tx_init env s).1 = 0 ∨ (unipro_tx_init env s).1 = -ENODEV ∨
    (env.pthread_create ≠ 0 ∧ (unipro_tx_init env s).1 = env.pthread_create) := by
  unfold unipro_tx_init
  simp only []
  cases env.dma_open with
  | none => exact Or.inr (Or.inl rfl)
  | some dev =>
    simp only []
    split_ifs with h1
    · cases env.atabl_open with
      | none => exact Or.inr (Or.inl rfl)
      | some atabl_dev => exact tx_init_pool_retval env _ dev atabl_dev
    · exact tx_init_pool_retval env _ dev 0

theorem devices_left_open_append (tr evs : List Event) :
    devices_left_open (tr ++ evs) = evs.foldl device_step (devices_left_open tr) := by
  unfold devices_left_open
  rw [List.foldl_append]

theorem tx_init_thresholds_frame (env : tx_init_env) :
    ∀ n i s, (tx_init_thresholds env n i s).rev_id = s.rev_id ∧
      (tx_init_thresholds env n i s).dma_channels = s.dma_channels ∧
      devices_left_open (tx_init_thresholds env n i s).trace = devices_left_open s.trace := by
  intro n
  induction n with
  | zero => intro i s; exact ⟨rfl, rfl, rfl⟩
  | succ n ih =>
    intro i s
    unfold tx_init_thresholds
    simp only []
    split_ifs
    · obtain ⟨h1, h2, h3⟩ := ih (i + 1)
        (emit s (Event.unipro_write i (env.reg_read i ||| (0x10 <<< 8))))
      refine ⟨h1, h2, ?_⟩
      rw [h3]
      simp [emit, devices_left_open_append, device_step]
    · obtain ⟨h1, h2, h3⟩ := ih (i + 1)
        (emit s (Event.unipro_write i (env.reg_read i ||| (0x20 <<< 8))))
      refine ⟨h1, h2, ?_⟩
      rw [h3]
      simp [emit, devices_left_open_append, device_step]

theorem tx_init_free_channels_frame :
    ∀ n i s, (tx_init_free_channels n i s).rev_id = s.rev_id ∧
      devices_left_open (tx_init_free_channels n i s).trace = devices_left_open s.trace := by
  intro n
  induction n with
  | zero => intro i s; exact ⟨rfl, rfl⟩
  | succ n ih =>
    intro i s
    unfold tx_init_free_channels
    simp only []
    obtain ⟨h1, h2⟩ := ih (i + 1)
      (emit (if s.rev_id ≠ tsb_rev.tsb_rev_es2
        then emit s (Event.atabl_req_free ((s.dma_channels.getD i ⟨0, 0, 0⟩).req))
        else s) (Event.dma_chan_free i))
    rw [h1, h2]
    by_cases hrev : s.rev_id ≠ tsb_rev.tsb_rev_es2
    · rw [if_pos hrev]
      exact ⟨rfl, by simp [emit, devices_left_open_append, device_step]⟩
    · rw [if_neg hrev]
      exact ⟨rfl, by simp [emit, devices_left_open_append, device_step]⟩

theorem channel_ready_of_modify_other (env : tx_init_env) (s s' : State) (i j : Nat)
    (f : dma_channel → dma_channel) (hd : s'.dma_channels = s.dma_channels.modify f i)
    (hne : j ≠ i) (h : channel_ready env s j) : channel_ready env s' j := by
  obtain ⟨dc, e1, e2, e3, e4⟩ := h
  refine ⟨dc, ?_, e2, e3, e4⟩
  rw [hd, List.getElem?_modify]
  have : ¬ i = j := fun h => hne h.symm
  simp [this, e1]

theorem channel_ready_of_modify_self (env : tx_init_env) (s s' : State) (i : Nat)
    (f : dma_channel → dma_channel) (hd : s'.dma_channels = s.dma_channels.modify f i)
    (hi : i < s.dma_channels.length)
    (hf : ∀ dc, (f dc).chan = env.dma_chan_alloc i ∧ (f dc).cportid = 0xFFFF)
    (hnz : env.dma_chan_alloc i ≠ 0) : channel_ready env s' i := by
  refine ⟨f (s.dma_channels[i]), ?_, (hf _).1, ?_, (hf _).2⟩
  · rw [hd, List.getElem?_modify, List.getElem?_eq_getElem hi]
    simp
  · rw [(hf _).1]; exact hnz

theorem tx_init_channels_step (env : tx_init_env) (n i : Nat) (s : State)
    (hm : s.max_channel = i) :
    (∃ f, (tx_init_channels env (n + 1) i s).rev_id = s.rev_id ∧
      (tx_init_channels env (n + 1) i s).max_channel = i ∧
      (tx_init_channels env (n + 1) i s).dma_channels = s.dma_channels.modify f i ∧
      devices_left_open (tx_init_channels env (n + 1) i s).trace
        = devices_left_open s.trace) ∨
    (env.dma_chan_alloc i ≠ 0 ∧ ∃ S f,
      tx_init_channels env (n + 1) i s = tx_init_channels env n (i + 1) S ∧
      S.rev_id = s.rev_id ∧ S.max_channel = i + 1 ∧
      S.dma_channels = s.dma_channels.modify f i ∧
      (∀ dc, (f dc).chan = env.dma_chan_alloc i ∧ (f dc).cportid = 0xFFFF) ∧
      devices_left_open S.trace = devices_left_open s.trace) := by
  by_cases hrev : s.rev_id ≠ tsb_rev.tsb_rev_es2
  · by_cases hreq : (env.atabl_req_alloc i).1 ≠ 0
    · refine Or.inl ⟨id, ?_, ?_, ?_, ?_⟩ <;>
        simp only [tx_init_channels, hrev, hreq, ne_eq, not_false_eq_true, and_self, if_true]
      · exact hm
      · exact (List.modify_id i s.dma_channels).symm
    · by_cases hchan : env.dma_chan_alloc i = 0
      · refine Or.inl ⟨fun dc => { dc with req := (env.atabl_req_alloc i).2, chan := 0 },
          ?_, ?_, ?_, ?_⟩ <;>
          simp only [tx_init_channels, hrev, hreq, hchan, ne_eq, not_false_eq_true,
            and_false, if_true, if_false]
        · rfl
        · exact hm
        · simp [modify_channel, emit, List.modify_modify_eq, Function.comp_def]
        · simp [modify_channel, emit, devices_left_open_append, device_step]
      · refine Or.inr ⟨hchan,
          { modify_channel (emit (modify_channel (emit
              (modify_channel s i fun dc => { dc with req := (env.atabl_req_alloc i).2 })
              (Event.atabl_req_alloc (env.atabl_req_alloc i).2)) i
              fun dc => { dc with chan := env.dma_chan_alloc i })
              (Event.dma_chan_alloc (env.dma_chan_alloc i))) i
              fun dc => { dc with cportid := 0xFFFF } with
              max_channel := s.max_channel + 1 },
          fun dc => { dc with req := (env.atabl_req_alloc i).2,
                              chan := env.dma_chan_alloc i, cportid := 0xFFFF },
          ?_, rfl, by simp [hm], ?_, fun dc => ⟨rfl, rfl⟩, ?_⟩
        · simp only [tx_init_channels, hrev, hreq, hchan, ne_eq, not_false_eq_true,
            and_false, if_true, if_false]
          rfl
        · simp [modify_channel, emit, List.modify_modify_eq, Function.comp_def]
        · simp [modify_channel, emit, devices_left_open_append, device_step]
  · by_cases hchan : env.dma_chan_alloc i = 0
    · refine Or.inl ⟨fun dc => { dc with chan := 0 }, ?_, ?_, ?_, ?_⟩ <;>
        simp only [tx_init_channels, hrev, hchan, ne_eq, not_false_eq_true,
          false_and, if_true, if_false]
      · rfl
      · exact hm
      · simp [modify_channel]
      · rfl
    · refine Or.inr ⟨hchan,
        { modify_channel (emit (modify_channel s i
            fun dc => { dc with chan := env.dma_chan_alloc i })
            (Event.dma_chan_alloc (env.dma_chan_alloc i))) i
            fun dc => { dc with cportid := 0xFFFF } with
            max_channel := s.max_channel + 1 },
        fun dc => { dc with chan := env.dma_chan_alloc i, cportid := 0xFFFF },
        ?_, rfl, by simp [hm], ?_, fun dc => ⟨rfl, rfl⟩, ?_⟩
      · simp only [tx_init_channels, hrev, hchan, ne_eq, not_false_eq_true,
          false_and, if_true, if_false]
        rfl
      · simp [modify_channel, emit, List.modify_modify_eq, Function.comp_def]
      · simp [modify_channel, emit, devices_left_open_append, device_step]

theorem tx_init_channels_spec (env : tx_init_env) :
    ∀ n i s, s.max_channel = i → i + n ≤ s.dma_channels.length →
      (∀ j, j < i → channel_ready env s j) →
      (tx_init_channels env n i s).rev_id = s.rev_id ∧
      (tx_init_channels env n i s).dma_channels.length = s.dma_channels.length ∧
      devices_left_open (tx_init_channels env n i s).trace = devices_left_open s.trace ∧
      i ≤ (tx_init_channels env n i s).max_channel ∧
      (tx_init_channels env n i s).max_channel ≤ i + n ∧
      (∀ j, j < (tx_init_channels env n i s).max_channel →
        channel_ready env (tx_init_channels env n i s) j) := by
  intro n
  induction n with
  | zero =>
    intro i s hm _ hready
    refine ⟨rfl, rfl, rfl, ?_, ?_, ?_⟩
    · simp [tx_init_channels, hm]
    · simp [tx_init_channels, hm]
    · intro j hj
      simp only [tx_init_channels] at hj ⊢
      exact hready j (by omega)
  | succ n ih =>
    intro i s hm hlen hready
    have hi : i < s.dma_channels.length := by omega
    rcases tx_init_channels_step env n i s hm with
      ⟨f, b1, b2, b3, b4⟩ | ⟨hchan, S, f, c1, c2, c3, c4, c5, c6⟩
    · refine ⟨b1, by rw [b3]; simp, b4, by omega, by omega, ?_⟩
      intro j hj
      rw [b2] at hj
      exact channel_ready_of_modify_other env s _ i j f b3 (by omega) (hready j hj)
    · obtain ⟨a1, a2, a3, a4, a5, a6⟩ := ih (i + 1) S c3
        (by rw [c4]; simp; omega)
        (by
          intro j hj
          by_cases hji : j = i
          · subst hji
            exact channel_ready_of_modify_self env s S j f c4 hi c5 hchan
          · exact channel_ready_of_modify_other env s S i j f c4 hji
              (hready j (by omega)))
      rw [c1]
      refine ⟨a1.trans c2, ?_, a3.trans c6, by omega, by omega, a6⟩
      rw [a2, c4]; simp

theorem tx_init_channels_frame (env : tx_init_env) :
    ∀ n i s, s.max_channel = i →
      (tx_init_channels env n i s).rev_id = s.rev_id ∧
      devices_left_open (tx_init_channels env n i s).trace = devices_left_open s.trace ∧
      i ≤ (tx_init_channels env n i s).max_channel ∧
      (tx_init_channels env n i s).max_channel ≤ i + n := by
  intro n
  induction n with
  | zero =>
    intro i s hm
    refine ⟨rfl, rfl, ?_, ?_⟩ <;> simp [tx_init_channels, hm]
  | succ n ih =>
    intro i s hm
    rcases tx_init_channels_step env n i s hm with
      ⟨f, b1, b2, _, b4⟩ | ⟨_, S, f, c1, c2, c3, _, _, c6⟩
    · exact ⟨b1, b4, by omega, by omega⟩
    · obtain ⟨a1, a2, a3, a4⟩ := ih (i + 1) S c3
      rw [c1]
      exact ⟨a1.trans c2, a2.trans c6, by omega, by omega⟩

/-- The clamped `avail_chan` does not exceed the array size, whatever `int` the
DMA driver reports. -/
theorem tx_init_avail_chan_le (count : Int) (array_size : Nat) (h : is_int count) :
    (tx_init_avail_chan count array_size).toNat ≤ array_size := by
  obtain ⟨h1, h2⟩ := h
  unfold tx_init_avail_chan to_unsigned to_int
  split_ifs with hc hn
  · omega
  · omega
  · omega

/-- The clamped `avail_chan` does not exceed a free count that is not negative. -/
theorem tx_init_avail_chan_le_count (count : Int) (array_size : Nat) (h : 0 ≤ count) :
    ((tx_init_avail_chan count array_size).toNat : Int) ≤ count := by
  unfold tx_init_avail_chan to_unsigned to_int
  split_ifs with hc hn
  · omega
  · omega
  · omega

theorem tx_init_pool_spec (env : tx_init_env) (s : State) (dev atabl_dev : Nat)
    (L0 : List Nat)
    (hopen : devices_left_open s.trace
      = if s.rev_id ≠ tsb_rev.tsb_rev_es2 then atabl_dev :: dev :: L0 else dev :: L0) :
    ((tx_init_pool env s dev atabl_dev).1 = 0 →
      1 ≤ (tx_init_pool env s dev atabl_dev).2.max_channel ∧
      (0 ≤ env.dma_chan_free_count →
        ((tx_init_pool env s dev atabl_dev).2.max_channel : Int)
          ≤ env.dma_chan_free_count) ∧
      (is_int env.dma_chan_free_count →
        (tx_init_pool env s dev atabl_dev).2.max_channel ≤ s.dma_channels.length ∧
        (tx_init_pool env s dev atabl_dev).2.dma_channels.length = s.dma_channels.length ∧
        ∀ i, i < (tx_init_pool env s dev atabl_dev).2.max_channel →
          channel_ready env (tx_init_pool env s dev atabl_dev).2 i)) ∧
    ((tx_init_pool env s dev atabl_dev).1 ≠ 0 →
      devices_left_open (tx_init_pool env s dev atabl_dev).2.trace = L0) := by
  have herase : ∀ a d : Nat, ((a :: d :: L0).erase d).erase a = L0 := by
    intro a d
    by_cases had : a = d
    · subst had; simp
    · have : (a :: d :: L0).erase d = a :: L0 := by
        rw [List.erase_cons_tail (by simpa using had)]
        simp
      simp [this]
  obtain ⟨N, hN⟩ : ∃ N, N = (tx_init_avail_chan env.dma_chan_free_count
      s.dma_channels.length).toNat := ⟨_, rfl⟩
  obtain ⟨b1, b3, _, b5⟩ := tx_init_channels_frame env N 0 { s with max_channel := 0 } rfl
  have hclose : ∀ (T : State) (retval : Int), T.rev_id = s.rev_id →
      devices_left_open T.trace = devices_left_open s.trace →
      devices_left_open (tx_init_error_no_channel T dev atabl_dev retval).2.trace = L0 := by
    intro T retval hr hd
    unfold tx_init_error_no_channel
    simp only [hr]
    by_cases hrev : s.rev_id ≠ tsb_rev.tsb_rev_es2
    · rw [if_pos hrev] at hopen
      simp [hrev, emit, devices_left_open_append, device_step, hd, hopen]
    · rw [if_neg hrev] at hopen
      simp [hrev, emit, devices_left_open_append, device_step, hd, hopen]
  unfold tx_init_pool
  simp only [← hN]
  split_ifs with h1 h2 h3
  · refine ⟨fun h => by simp [ENODEV] at h, fun _ => ?_⟩
    rw [if_pos h1.1] at hopen
    simp [emit, devices_left_open_append, device_step, hopen, herase]
  · refine ⟨fun h => by simp [tx_init_error_no_channel, ENODEV] at h, fun _ => ?_⟩
    exact hclose _ _ b1 b3
  · refine ⟨fun h => absurd h h3, fun _ => ?_⟩
    obtain ⟨f1, f2⟩ := tx_init_free_channels_frame
      (tx_init_channels env N 0 { s with max_channel := 0 }).max_channel 0
      (tx_init_channels env N 0 { s with max_channel := 0 })
    exact hclose _ _ (f1.trans b1) (f2.trans b3)
  · refine ⟨fun _ => ⟨Nat.succ_le_of_lt (Nat.lt_of_not_le h2), ?_, ?_⟩,
      fun h => absurd rfl h⟩
    · intro h0
      have hle := tx_init_avail_chan_le_count env.dma_chan_free_count
        s.dma_channels.length h0
      rw [← hN] at hle
      have hb : (tx_init_channels env N 0 { s with max_channel := 0 }).max_channel ≤ N := by
        simpa using b5
      show ((tx_init_channels env N 0 { s with max_channel := 0 }).max_channel : Int) ≤ _
      omega
    · intro hint
      have hle := tx_init_avail_chan_le env.dma_chan_free_count s.dma_channels.length hint
      rw [← hN] at hle
      obtain ⟨_, a2, _, _, a5, a6⟩ := tx_init_channels_spec env N 0
        { s with max_channel := 0 } rfl (by simpa using hle)
        (fun j hj => absurd hj (Nat.not_lt_zero j))
      exact ⟨le_trans (by simpa using a5) hle, a2, a6⟩

theorem tx_init_spec (env : tx_init_env) (s : State) :
    ((unipro_tx_init env s).1 = 0 →
      1 ≤ (unipro_tx_init env s).2.max_channel ∧
      (0 ≤ env.dma_chan_free_count →
        ((unipro_tx_init env s).2.max_channel : Int) ≤ env.dma_chan_free_count) ∧
      (is_int env.dma_chan_free_count →
        (unipro_tx_init env s).2.max_channel ≤ s.dma_channels.length ∧
        (unipro_tx_init env s).2.dma_channels.length = s.dma_channels.length ∧
        ∀ i, i < (unipro_tx_init env s).2.max_channel →
          channel_ready env (unipro_tx_init env s).2 i)) ∧
    ((unipro_tx_init env s).1 ≠ 0 →
      devices_left_open (unipro_tx_init env s).2.trace = devices_left_open s.trace) := by
  unfold unipro_tx_init
  simp only []
  cases env.dma_open with
  | none => exact ⟨fun h => by simp [ENODEV] at h, fun _ => rfl⟩
  | some dev =>
    simp only []
    have hdev : devices_left_open
        ({ emit { s with tx_fifo_lock := 0 } (Event.device_open dev) with
           dev := some dev } : State).trace = dev :: devices_left_open s.trace := by
      show devices_left_open (s.trace ++ [Event.device_open dev]) = _
      rw [devices_left_open_append]
      rfl
    by_cases hrev : s.rev_id ≠ tsb_rev.tsb_rev_es2
    · rw [if_pos hrev]
      obtain ⟨t1, t2, t3⟩ := tx_init_thresholds_frame env s.cport_count 0
        { emit { s with tx_fifo_lock := 0 } (Event.device_open dev) with dev := some dev }
      obtain ⟨S1, hS1⟩ : ∃ S1, S1 = tx_init_thresholds env s.cport_count 0
          { emit { s with tx_fifo_lock := 0 } (Event.device_open dev) with
            dev := some dev } := ⟨_, rfl⟩
      rw [← hS1] at t1 t2 t3 ⊢
      rw [hdev] at t3
      have r1 : S1.rev_id = s.rev_id := t1
      have r2 : S1.dma_channels = s.dma_channels := t2
      cases env.atabl_open with
      | none =>
        refine ⟨fun h => by simp [ENODEV] at h, fun _ => ?_⟩
        show devices_left_open (S1.trace ++ [Event.device_close dev]) = _
        rw [devices_left_open_append, t3]
        simp [device_step]
      | some atabl_dev =>
        have hopen : devices_left_open
            ({ emit S1 (Event.device_open atabl_dev) with
               atabl_dev := some atabl_dev } : State).trace
            = if ({ emit S1 (Event.device_open atabl_dev) with
               atabl_dev := some atabl_dev } : State).rev_id ≠ tsb_rev.tsb_rev_es2
              then atabl_dev :: dev :: devices_left_open s.trace
              else dev :: devices_left_open s.trace := by
          have hr : ({ emit S1 (Event.device_open atabl_dev) with
               atabl_dev := some atabl_dev } : State).rev_id ≠ tsb_rev.tsb_rev_es2 := by
            show S1.rev_id ≠ _
            rw [r1]; exact hrev
          rw [if_pos hr]
          show devices_left_open (S1.trace ++ [Event.device_open atabl_dev]) = _
          rw [devices_left_open_append, t3]
          rfl
        have hlen : ({ emit S1 (Event.device_open atabl_dev) with
               atabl_dev := some atabl_dev } : State).dma_channels = s.dma_channels := r2
        have := tx_init_pool_spec env _ dev atabl_dev (devices_left_open s.trace) hopen
        rw [hlen] at this
        exact this
    · rw [if_neg hrev]
      have hopen : devices_left_open
          ({ emit { s with tx_fifo_lock := 0 } (Event.device_open dev) with
             dev := some dev } : State).trace
          = if ({ emit { s with tx_fifo_lock := 0 } (Event.device_open dev) with
             dev := some dev } : State).rev_id ≠ tsb_rev.tsb_rev_es2
            then 0 :: dev :: devices_left_open s.trace
            else dev :: devices_left_open s.trace := by
        have hr : ¬ ({ emit { s with tx_fifo_lock := 0 } (Event.device_open dev) with
             dev := some dev } : State).rev_id ≠ tsb_rev.tsb_rev_es2 := hrev
        rw [if_neg hr]
        exact hdev
      exact tx_init_pool_spec env _ dev 0 (devices_left_open s.trace) hopen

theorem dma_xfer_op_eq (s : State) (desc f : Nat) :
    dma_xfer_op s desc f
      = { callback_arg := desc,
          callback_events :=
            { start := decide (s.rev_id ≠ tsb_rev.tsb_rev_es2), complete := true },
          sg_count := 1,
          sg := [{ src_addr := (deref s desc).data + (deref s desc).data_offset,
                   dst_addr := if (deref s desc).data_offset = 0
                     then (cport_at s (deref s desc).cport).tx_buf
                     else (cport_at s (deref s desc).cport).tx_buf + 8,
                   len := dma_xfer_len s desc f }] } := by
  unfold dma_xfer_op
  by_cases ho : (deref s desc).data_offset = 0
  · simp [ho]
  · simp [ho]

/-- C21. `unipro_dma_xfer` returns 0 exactly when it has submitted an op, and
then the op it enqueued on the channel has the descriptor as callback
argument, callback events `{COMPLETE}` on ES2 and `{START, COMPLETE}`
otherwise, and exactly one scatter-gather entry, whose source address is
`data + o` and whose destination address is `tx_buf` when `o = 0` and
`tx_buf + 8` when `o > 0`, where `o` is the descriptor's `data_offset` on entry.
When it returns non-zero no op has been enqueued. -/
theorem C21_scatter_gather_addressing (s : State) (desc channel f : Nat)
    (op_alloc_ret enqueue_ret : Int) :
    ((unipro_dma_xfer s desc channel f op_alloc_ret enqueue_ret).1 = 0 →
      (unipro_dma_xfer s desc channel f op_alloc_ret enqueue_ret).2.dma_queue
        = s.dma_queue ++ [{ channel := channel, started := false, op :=
            { callback_arg := desc,
              callback_events :=
                { start := decide (s.rev_id ≠ tsb_rev.tsb_rev_es2), complete := true },
              sg_count := 1,
              sg := [{ src_addr := (deref s desc).data + (deref s desc).data_offset,
                       dst_addr := if (deref s desc).data_offset = 0
                         then (cport_at s (deref s desc).cport).tx_buf
                         else (cport_at s (deref s desc).cport).tx_buf + 8,
                       len := dma_xfer_len s desc f }] } }] ∧
      (unipro_dma_xfer s desc channel f op_alloc_ret enqueue_ret).2.trace
        = s.trace ++ [Event.dma_enqueue channel (dma_xfer_op s desc f)]) ∧
    ((unipro_dma_xfer s desc channel f op_alloc_ret enqueue_ret).1 ≠ 0 →
      (unipro_dma_xfer s desc channel f op_alloc_ret enqueue_ret).2.dma_queue = s.dma_queue ∧
      (unipro_dma_xfer s desc channel f op_alloc_ret enqueue_ret).2.trace = s.trace) := by
  rw [← dma_xfer_op_eq]
  unfold unipro_dma_xfer
  simp only []
  split_ifs with h1 h2 h3
  · exact ⟨fun h => by simp [ENOSPC] at h, fun _ => ⟨rfl, rfl⟩⟩
  · exact ⟨fun h => absurd h h2, fun _ => ⟨rfl, rfl⟩⟩
  · exact ⟨fun h => absurd h h3, fun _ => ⟨rfl, rfl⟩⟩
  · exact ⟨fun _ => ⟨rfl, rfl⟩, fun h => absurd rfl h⟩

/-- Witness of C21 on `es2_state`: the first op of the 1024-byte descriptor
(`o = 0`) goes from `data` to `tx_buf`; after 256 bytes (`o = 256`) the next op
goes from `data + 256` to `tx_buf + 8`. -/
theorem C21_scatter_gather_addressing_witness :
    (unipro_dma_xfer es2_state 0 0 256 OK 0).2.dma_queue
      = [{ channel := 0, started := false, op :=
          { callback_arg := 0, callback_events := { start := false, complete := true },
            sg_count := 1,
            sg := [{ src_addr := 8192, dst_addr := 4096, len := 256 }] } }] ∧
    (unipro_dma_xfer es2_resumed_state 0 0 256 OK 0).2.dma_queue
      = [{ channel := 0, started := false, op :=
          { callback_arg := 0, callback_events := { start := false, complete := true },
            sg_count := 1,
            sg := [{ src_addr := 8192 + 256, dst_addr := 4096 + 8, len := 256 }] } }] :=
  ⟨((C21_scatter_gather_addressing es2_state 0 0 256 OK 0).1 (by decide)).1.trans
      (by decide),
   ((C21_scatter_gather_addressing es2_resumed_state
      0 0 256 OK 0).1 (by decide)).1.trans (by decide)⟩

/-! ### C22: `pick_dma_channel` -/

theorem send_async_pool (s : State) (cportid buf len : Nat) (callback : Option Nat)
    (priv : Nat) (zalloc_ok : Bool) :
    (unipro_send_async s cportid buf len callback priv zalloc_ok).2.max_channel
      = s.max_channel ∧
    (unipro_send_async s cportid buf len callback priv zalloc_ok).2.dma_channels
      = s.dma_channels := by
  unfold unipro_send_async
  cases cport_handle s cportid with
  | none => exact ⟨rfl, rfl⟩
  | some c =>
    simp only []
    split_ifs <;> exact ⟨rfl, rfl⟩

theorem dma_xfer_pool (s : State) (desc channel f : Nat) (op_alloc_ret enqueue_ret : Int) :
    (unipro_dma_xfer s desc channel f op_alloc_ret enqueue_ret).2.max_channel
      = s.max_channel ∧
    (unipro_dma_xfer s desc channel f op_alloc_ret enqueue_ret).2.dma_channels
      = s.dma_channels := by
  unfold unipro_dma_xfer
  simp only []
  split_ifs <;> exact ⟨rfl, rfl⟩

theorem dma_tx_callback_pool (s : State) (op : device_dma_op) (event : dma_event)
    (arg : Nat) (r : atabl_results) (retval : Int) (s1 : State)
    (h : unipro_dma_tx_callback s op event arg r = some (retval, s1)) :
    s1.max_channel = s.max_channel ∧ s1.dma_channels.length = s.dma_channels.length := by
  have hstart : ∀ rv b sa, dma_tx_callback_start s arg r = some (rv, b, sa) →
      sa.max_channel = s.max_channel ∧ sa.dma_channels.length = s.dma_channels.length := by
    intro rv b sa hs
    unfold dma_tx_callback_start at hs
    simp only [] at hs
    split at hs
    · cases hs
    · split at hs
      · cases hs
      · split_ifs at hs <;>
          simp only [Option.some.injEq, Prod.mk.injEq] at hs <;>
          obtain ⟨_, _, rfl⟩ := hs <;>
          simp [set_channel_cportid, emit]
  have hcomp : ∀ sa sb, dma_tx_callback_complete sa op arg = some sb →
      sb.max_channel = sa.max_channel ∧ sb.dma_channels = sa.dma_channels := by
    intro sa sb hc
    unfold dma_tx_callback_complete at hc
    simp only [] at hc
    split_ifs at hc with hfin hrev
    · split at hc
      · cases hc
      · split at hc
        · cases hc
        · simp only [Option.some.injEq] at hc
          subst hc
          cases (deref sa arg).callback <;> exact ⟨rfl, rfl⟩
    · simp only [Option.some.injEq] at hc
      subst hc
      cases (deref sa arg).callback <;> exact ⟨rfl, rfl⟩
    · simp only [Option.some.injEq] at hc
      subst hc
      exact ⟨rfl, rfl⟩
  unfold unipro_dma_tx_callback at h
  simp only [] at h
  split at h
  · cases h
  · next rv sa heq =>
    simp only [Option.some.injEq, Prod.mk.injEq] at h
    obtain ⟨_, rfl⟩ := h
    split_ifs at heq with hs
    · exact hstart _ _ _ heq
    · cases heq
  · next rv sa heq =>
    have hsa : sa.max_channel = s.max_channel ∧
        sa.dma_channels.length = s.dma_channels.length := by
      split_ifs at heq with hs
      · exact hstart _ _ _ heq
      · simp only [Option.some.injEq, Prod.mk.injEq] at heq
        obtain ⟨_, _, rfl⟩ := heq
        exact ⟨rfl, rfl⟩
    split_ifs at h with hc
    · split at h
      · cases h
      · next s2 h2 =>
        simp only [Option.some.injEq, Prod.mk.injEq] at h
        obtain ⟨_, rfl⟩ := h
        obtain ⟨c1, c2⟩ := hcomp sa s2 h2
        exact ⟨c1.trans hsa.1, by rw [c2]; exact hsa.2⟩
    · simp only [Option.some.injEq, Prod.mk.injEq] at h
      obtain ⟨_, rfl⟩ := h
      exact hsa

/-- No step of the engine changes the size of the channel pool. -/
theorem step_pool {sys sys' : System} (hstep : Step sys sys') (hI : Inv sys.st) :
    sys'.st.max_channel = sys.st.max_channel ∧
    sys'.st.dma_channels.length = sys.st.dma_channels.length := by
  cases hstep with
  | send_async cportid buf len callback priv zalloc_ok _ =>
    obtain ⟨h1, h2⟩ := send_async_pool sys.st cportid buf len callback priv zalloc_ok
    exact ⟨h1, by rw [h2]⟩
  | worker_wake _ _ => exact ⟨rfl, rfl⟩
  | worker_xfer next_cport free desc channel s1 free_space op_alloc_ret enqueue_ret _ hp _ =>
    obtain ⟨hs, _⟩ := pick_tx_descriptor_front free sys.st next_cport hI _ _ hp
    subst hs
    obtain ⟨h1, h2⟩ := dma_xfer_pool sys.st desc channel free_space op_alloc_ret enqueue_ret
    exact ⟨h1, by rw [h2]⟩
  | worker_sleep next_cport free s1 _ hp =>
    obtain ⟨hs, _⟩ := pick_tx_descriptor_front free sys.st next_cport hI _ _ hp
    subst hs
    exact ⟨rfl, rfl⟩
  | dma_start p r retval s1 _ _ _ hcb =>
    have h1 := dma_tx_callback_pool _ _ _ _ _ _ _ hcb
    simp only []
    split_ifs <;> exact h1
  | dma_complete p r retval s1 _ _ hcb =>
    exact dma_tx_callback_pool sys.st _ _ _ _ retval s1 hcb

theorem reachable_pool {sys : System} (h : Reachable sys) :
    1 ≤ sys.st.max_channel ∧ sys.st.max_channel ≤ sys.st.dma_channels.length := by
  obtain ⟨sys0, h0, hsteps⟩ := h
  induction hsteps with
  | refl => exact ⟨h0.2.2.1, h0.2.2.2.1⟩
  | tail hprev hstep ih =>
    have hI := Inv_reachable ⟨sys0, h0, hprev⟩
    obtain ⟨e1, e2⟩ := step_pool hstep hI
    rw [e1, e2]
    exact ih

/-- C22. Whenever `max_channel >= 1`, `pick_dma_channel` returns
`channels[cportid mod max_channel]`, whose index is below `max_channel`, and it
depends on nothing but the CPort id and `max_channel`. `max_channel >= 1` holds
whenever the worker runs: a `unipro_tx_init` that returns 0 (the only case in
which the worker is created) leaves `1 <= max_channel <=` the array size,
whatever `int` the DMA driver reports as its free channel count (a negative
count is clamped to the array size by the unsigned comparison), every state
the engine reaches afterwards has `1 <= max_channel <=` the array size, so
the index names a channel of the array, and no step of the engine changes
`max_channel`, so two calls for the same CPort return the same channel. -/
theorem C22_channel_assignment_total :
    (∀ (s : State) (cport : Nat), 1 ≤ s.max_channel →
      pick_dma_channel s cport = some (cport % s.max_channel) ∧
      cport % s.max_channel < s.max_channel) ∧
    (∀ (s s' : State) (cport : Nat), s'.max_channel = s.max_channel →
      pick_dma_channel s' cport = pick_dma_channel s cport) ∧
    (∀ (env : tx_init_env) (s : State), is_int env.dma_chan_free_count →
      (unipro_tx_init env s).1 = 0 →
      1 ≤ (unipro_tx_init env s).2.max_channel ∧
      (unipro_tx_init env s).2.max_channel ≤ (unipro_tx_init env s).2.dma_channels.length) ∧
    (∀ sys : System, Reachable sys → ∀ cport,
      ∃ idx dc, pick_dma_channel sys.st cport = some idx ∧ idx < sys.st.max_channel ∧
        sys.st.dma_channels[idx]? = some dc) ∧
    (∀ sys sys' : System, Reachable sys → Step sys sys' →
      sys'.st.max_channel = sys.st.max_channel) := by
  have hpick : ∀ (s : State) (cport : Nat), 1 ≤ s.max_channel →
      pick_dma_channel s cport = some (cport % s.max_channel) ∧
      cport % s.max_channel < s.max_channel := by
    intro s cport h
    have h0 : s.max_channel ≠ 0 := by omega
    exact ⟨by simp [pick_dma_channel, h0], Nat.mod_lt _ (by omega)⟩
  refine ⟨hpick, ?_, ?_, ?_, ?_⟩
  · intro s s' cport h
    simp [pick_dma_channel, h]
  · intro env s hint h
    obtain ⟨a1, _, a3⟩ := (tx_init_spec env s).1 h
    obtain ⟨a4, a5, _⟩ := a3 hint
    refine ⟨a1, ?_⟩
    rw [a5]
    exact a4
  · intro sys hr cport
    obtain ⟨p1, p2⟩ := reachable_pool hr
    obtain ⟨q1, q2⟩ := hpick sys.st cport p1
    have hlt : cport % sys.st.max_channel < sys.st.dma_channels.length := by omega
    exact ⟨_, _, q1, q2, List.getElem?_eq_getElem hlt⟩
  · intro sys sys' hr hstep
    exact (step_pool hstep (Inv_reachable hr)).1

/-- Witness of C22, scenario S1: CPort 3 with 2 channels gives `channels[1]`;
and a `unipro_tx_init` that returns 0 after a free count of -1 leaves
`max_channel` between 1 and the array size. -/
theorem C22_channel_assignment_total_witness :
    (pick_dma_channel boot_state 3 = some 1 ∧ 3 % 2 < 2) ∧
    is_int (env_with_free_count (-1)).dma_chan_free_count ∧
    (unipro_tx_init (env_with_free_count (-1)) preinit_state).1 = 0 ∧
    1 ≤ (unipro_tx_init (env_with_free_count (-1)) preinit_state).2.max_channel ∧
    (unipro_tx_init (env_with_free_count (-1)) preinit_state).2.max_channel
      ≤ (unipro_tx_init (env_with_free_count (-1)) preinit_state).2.dma_channels.length :=
  ⟨C22_channel_assignment_total.1 boot_state 3 (by decide), by decide, by decide,
   C22_channel_assignment_total.2.2.1 (env_with_free_count (-1)) preinit_state (by decide)
     (by decide)⟩

/-! ### C15: whole-descriptor transfers off ES2 -/

/-- What `unipro_send_async` does to the queues, to descriptor memory and to
the ops in flight. -/
theorem send_async_effect (s : State) (cportid buf len : Nat) (callback : Option Nat)
    (priv : Nat) (zalloc_ok : Bool) :
    (unipro_send_async s cportid buf len callback priv zalloc_ok).2.rev_id = s.rev_id ∧
    (unipro_send_async s cportid buf len callback priv zalloc_ok).2.dma_queue = s.dma_queue ∧
    (((unipro_send_async s cportid buf len callback priv zalloc_ok).2.heap = s.heap ∧
      (unipro_send_async s cportid buf len callback priv zalloc_ok).2.cporttable
        = s.cporttable) ∨
     ((unipro_send_async s cportid buf len callback priv zalloc_ok).2.heap
        = s.heap ++ [{ cport := cportid, data := buf, len := len, priv := priv,
                       callback := callback, data_offset := 0, channel := none }] ∧
      ∃ c, cport_handle s cportid = some c ∧ ∀ id,
        cport_handle (unipro_send_async s cportid buf len callback priv zalloc_ok).2 id
          = if id = cportid then some { c with tx_fifo := c.tx_fifo ++ [s.heap.length] }
            else cport_handle s id)) := by
  unfold unipro_send_async
  cases h : cport_handle s cportid with
  | none => exact ⟨rfl, rfl, Or.inl ⟨rfl, rfl⟩⟩
  | some c =>
    simp only []
    split_ifs
    · exact ⟨rfl, rfl, Or.inl ⟨rfl, rfl⟩⟩
    · exact ⟨rfl, rfl, Or.inl ⟨rfl, rfl⟩⟩
    · refine ⟨rfl, rfl, Or.inr ⟨rfl, c, rfl, ?_⟩⟩
      intro id
      have := cport_handle_set_cport
        { s with heap := s.heap ++
            [{ zero_desc with data := buf, len := len, data_offset := 0,
                              callback := callback, priv := priv, cport := cportid }] }
        cportid id { c with tx_fifo := c.tx_fifo ++ [s.heap.length] } (cport_handle_lt h)
      simpa [sem_post, list_add, cport_handle] using this

/-- What `unipro_dma_xfer` does to the queues, to descriptor memory and to the
ops in flight. -/
theorem dma_xfer_effect (s : State) (desc channel f : Nat) (op_alloc_ret enqueue_ret : Int) :
    (unipro_dma_xfer s desc channel f op_alloc_ret enqueue_ret).2.rev_id = s.rev_id ∧
    (unipro_dma_xfer s desc channel f op_alloc_ret enqueue_ret).2.cporttable
      = s.cporttable ∧
    ((unipro_dma_xfer s desc channel f op_alloc_ret enqueue_ret).2 = s ∨
     ((unipro_dma_xfer s desc channel f op_alloc_ret enqueue_ret).2.heap
        = s.heap.set desc { deref s desc with channel := some channel } ∧
      (unipro_dma_xfer s desc channel f op_alloc_ret enqueue_ret).2.dma_queue
        = s.dma_queue) ∨
     ((unipro_dma_xfer s desc channel f op_alloc_ret enqueue_ret).2.heap
        = s.heap.set desc
            { deref s desc with
                channel := some channel,
                data_offset := ((deref s desc).data_offset + dma_xfer_len s desc f)
                  % SIZE_MOD } ∧
      ((unipro_dma_xfer s desc channel f op_alloc_ret enqueue_ret).2.dma_queue
          = s.dma_queue ∨
       (unipro_dma_xfer s desc channel f op_alloc_ret enqueue_ret).2.dma_queue
          = s.dma_queue ++
              [{ channel := channel, op := dma_xfer_op s desc f, started := false }]))) := by
  unfold unipro_dma_xfer
  simp only []
  split_ifs
  · exact ⟨rfl, rfl, Or.inl rfl⟩
  · exact ⟨rfl, rfl, Or.inr (Or.inl ⟨rfl, rfl⟩)⟩
  · exact ⟨rfl, rfl, Or.inr (Or.inr ⟨by simp [set_desc, List.set_set], Or.inl rfl⟩)⟩
  · exact ⟨rfl, rfl, Or.inr (Or.inr ⟨by simp [set_desc, emit, List.set_set], Or.inr rfl⟩)⟩

/-- What `unipro_dma_tx_callback` does to the queues, to descriptor memory and
to the ops in flight: nothing, or it clears the channel of a descriptor that
has bytes left, or it unlinks a descriptor that has none left. -/
theorem dma_tx_callback_effect (s : State) (op : device_dma_op) (event : dma_event)
    (arg : Nat) (r : atabl_results) (retval : Int) (s1 : State)
    (h : unipro_dma_tx_callback s op event arg r = some (retval, s1)) :
    s1.rev_id = s.rev_id ∧ s1.dma_queue = s.dma_queue ∧
    ((s1.heap = s.heap ∧ s1.cporttable = s.cporttable) ∨
     (event.complete = true ∧ (deref s arg).data_offset < (deref s arg).len ∧
      s1.heap = s.heap.set arg { deref s arg with channel := none } ∧
      s1.cporttable = s.cporttable) ∨
     (event.complete = true ∧ (deref s arg).len ≤ (deref s arg).data_offset ∧
      s1.heap = s.heap ∧
      s1.cporttable = (list_del (list_del s arg) arg).cporttable)) := by
  have hstart : ∀ rv b sa, dma_tx_callback_start s arg r = some (rv, b, sa) →
      sa.rev_id = s.rev_id ∧ sa.dma_queue = s.dma_queue ∧ sa.heap = s.heap ∧
      sa.cporttable = s.cporttable := by
    intro rv b sa hs
    unfold dma_tx_callback_start at hs
    simp only [] at hs
    split at hs
    · cases hs
    · split at hs
      · cases hs
      · split_ifs at hs <;>
          simp only [Option.some.injEq, Prod.mk.injEq] at hs <;>
          obtain ⟨_, _, rfl⟩ := hs <;>
          simp [set_channel_cportid, emit]
  have hcomp : ∀ sa sb, dma_tx_callback_complete sa op arg = some sb →
      sb.rev_id = sa.rev_id ∧ sb.dma_queue = sa.dma_queue ∧
      (((deref sa arg).data_offset < (deref sa arg).len ∧
        sb.heap = sa.heap.set arg { deref sa arg with channel := none } ∧
        sb.cporttable = sa.cporttable) ∨
       ((deref sa arg).len ≤ (deref sa arg).data_offset ∧ sb.heap = sa.heap ∧
        sb.cporttable = (list_del (list_del sa arg) arg).cporttable)) := by
    intro sa sb hc
    unfold dma_tx_callback_complete at hc
    simp only [] at hc
    split_ifs at hc with hfin hrev
    · split at hc
      · cases hc
      · split at hc
        · cases hc
        · simp only [Option.some.injEq] at hc
          subst hc
          cases (deref sa arg).callback <;> exact ⟨rfl, rfl, Or.inr ⟨hfin, rfl, rfl⟩⟩
    · simp only [Option.some.injEq] at hc
      subst hc
      cases (deref sa arg).callback <;> exact ⟨rfl, rfl, Or.inr ⟨hfin, rfl, rfl⟩⟩
    · simp only [Option.some.injEq] at hc
      subst hc
      exact ⟨rfl, rfl, Or.inl ⟨by omega, rfl, rfl⟩⟩
  unfold unipro_dma_tx_callback at h
  simp only [] at h
  split at h
  · cases h
  · next rv sa heq =>
    simp only [Option.some.injEq, Prod.mk.injEq] at h
    obtain ⟨_, rfl⟩ := h
    split_ifs at heq with hs
    · obtain ⟨e1, e2, e3, e4⟩ := hstart _ _ _ heq
      exact ⟨e1, e2, Or.inl ⟨e3, e4⟩⟩
    · cases heq
  · next rv sa heq =>
    have hsa : sa.rev_id = s.rev_id ∧ sa.dma_queue = s.dma_queue ∧ sa.heap = s.heap ∧
        sa.cporttable = s.cporttable := by
      split_ifs at heq with hs
      · exact hstart _ _ _ heq
      · simp only [Option.some.injEq, Prod.mk.injEq] at heq
        obtain ⟨_, _, rfl⟩ := heq
        exact ⟨rfl, rfl, rfl, rfl⟩
    have hd : ∀ x, deref sa x = deref s x := deref_congr hsa.2.2.1
    split_ifs at h with hc
    · split at h
      · cases h
      · next s2 h2 =>
        simp only [Option.some.injEq, Prod.mk.injEq] at h
        obtain ⟨_, rfl⟩ := h
        obtain ⟨c1, c2, c3⟩ := hcomp sa s2 h2
        refine ⟨c1.trans hsa.1, c2.trans hsa.2.1, ?_⟩
        rcases c3 with ⟨c3, c4, c5⟩ | ⟨c3, c4, c5⟩
        · refine Or.inr (Or.inl ⟨hc, by rw [← hd]; exact c3, ?_, c5.trans hsa.2.2.2⟩)
          rw [c4, hsa.2.2.1, hd]
        · refine Or.inr (Or.inr ⟨hc, by rw [← hd]; exact c3, c4.trans hsa.2.2.1, ?_⟩)
          rw [c5]
          simp only [list_del, hsa.2.2.2]
    · simp only [Option.some.injEq, Prod.mk.injEq] at h
      obtain ⟨_, rfl⟩ := h
      exact ⟨hsa.1, hsa.2.1, Or.inl ⟨hsa.2.2.1, hsa.2.2.2⟩⟩

/-- A descriptor the picker returns while no reset is pending is the head of a
queue, has no channel, and its CPort has free space; the picker leaves the
state as it is. -/
theorem pick_tx_descriptor_found (free : Nat → Nat) (s : State) (start : Nat)
    (hI : Inv s) (desc : Nat) (s1 : State)
    (h : pick_tx_descriptor free s start = (pick_result.found desc, s1)) :
    s1 = s ∧ ∃ id c rest, cport_handle s id = some c ∧ c.tx_fifo = desc :: rest ∧
      (deref s desc).channel = none ∧ free id ≠ 0 ∧ id < s.cport_count := by
  have hs := pick_loop_search free s s.cport_count hI.npr hI.own s.cport_count start
  unfold pick_tx_descriptor at h
  rw [hs] at h
  simp only [Prod.mk.injEq] at h
  obtain ⟨hr, rfl⟩ := h
  refine ⟨rfl, ?_⟩
  cases hf : ((List.range s.cport_count).map (fun j => (start + j) % s.cport_count)).findSome?
      (ready_desc free s) with
  | none => rw [hf] at hr; cases hr
  | some d =>
    rw [hf] at hr
    simp only [pick_result.found.injEq] at hr
    subst hr
    obtain ⟨id, hidmem, hid⟩ := List.exists_of_findSome?_eq_some hf
    have hidlt : id < s.cport_count := by
      obtain ⟨j, hj, hje⟩ := List.mem_map.mp hidmem
      have hjn := List.mem_range.mp hj
      rw [← hje]
      exact Nat.mod_lt _ (by omega)
    unfold ready_desc at hid
    cases hc : cport_handle s id with
    | none => rw [hc] at hid; cases hid
    | some c =>
      rw [hc] at hid
      simp only [] at hid
      cases hq : c.tx_fifo with
      | nil => rw [hq] at hid; cases hid
      | cons b rest =>
        rw [hq] at hid
        simp only [] at hid
        split_ifs at hid with hcond
        simp only [Option.some.injEq] at hid
        subst hid
        exact ⟨id, c, rest, hc, hq, hcond.1, hcond.2, hidlt⟩

theorem queued_congr {s s' : State} (hc : s'.cporttable = s.cporttable) (a : Nat) :
    queued s' a ↔ queued s a := by
  unfold queued
  simp only [cport_handle_congr hc]

theorem queued_lt {s : State} (hI : Inv s) {a : Nat} (h : queued s a) :
    a < s.heap.length := by
  obtain ⟨id, c, hc, ha⟩ := h
  exact hI.valid id c hc a ha

theorem deref_append_left (s s' : State) (d : unipro_xfer_descriptor)
    (hh : s'.heap = s.heap ++ [d]) (a : Nat) (ha : a < s.heap.length) :
    deref s' a = deref s a := by
  unfold deref
  rw [hh]
  simp [List.getD_eq_getElem?_getD, List.getElem?_append_left ha]

theorem deref_append_new (s s' : State) (d : unipro_xfer_descriptor)
    (hh : s'.heap = s.heap ++ [d]) : deref s' s.heap.length = d := by
  unfold deref
  rw [hh]
  simp [List.getD_eq_getElem?_getD]

/-- An op other than `p` in a queue of ops with distinct callback arguments has
another callback argument than `p`. -/
theorem erase_arg_ne {q : List dma_pending}
    (hn : (q.map fun p => p.op.callback_arg).Nodup) {p x : dma_pending}
    (hp : p ∈ q) (hx : x ∈ q.erase p) : x.op.callback_arg ≠ p.op.callback_arg := by
  have hq : q.Nodup := List.Nodup.of_map _ hn
  obtain ⟨hne, hxq⟩ := (List.Nodup.mem_erase_iff hq).mp hx
  intro he
  exact hne (List.inj_on_of_nodup_map hn hxq hp he)

/-- A change that keeps the ops in flight, unlinks nothing and clears no channel
keeps `Flight`. -/
theorem Flight_frame {s s' : State} (hq : s'.dma_queue = s.dma_queue)
    (hqd : ∀ a, queued s a → queued s' a)
    (hlen : ∀ a, queued s' a → (deref s' a).len < SIZE_MOD)
    (hch : ∀ a, queued s a → (deref s a).channel ≠ none → (deref s' a).channel ≠ none)
    (hF : Flight s) : Flight s' := by
  constructor
  · exact hlen
  · intro p hp
    rw [hq] at hp
    exact hqd _ (hF.ops_queued p hp)
  · intro p hp
    rw [hq] at hp
    exact hch _ (hF.ops_queued p hp) (hF.ops_channel p hp)
  · rw [hq]; exact hF.ops_nodup

/-- Handing a new op to the DMA driver keeps `Flight` when its descriptor is
queued, has a channel and is the descriptor of no other op. -/
theorem Flight_enqueue {s s' : State} (hc : s'.cporttable = s.cporttable)
    (hh : s'.heap = s.heap) (p : dma_pending) (hq : s'.dma_queue = s.dma_queue ++ [p])
    (hqd : queued s p.op.callback_arg) (hch : (deref s p.op.callback_arg).channel ≠ none)
    (hnew : ∀ x, x ∈ s.dma_queue → x.op.callback_arg ≠ p.op.callback_arg)
    (hF : Flight s) : Flight s' := by
  have e2 := deref_congr hh
  constructor
  · intro a ha
    rw [e2]
    exact hF.lens a ((queued_congr hc a).mp ha)
  · intro x hx
    rw [hq, List.mem_append, List.mem_singleton] at hx
    rw [queued_congr hc]
    rcases hx with hx | hx
    · exact hF.ops_queued x hx
    · rw [hx]; exact hqd
  · intro x hx
    rw [hq, List.mem_append, List.mem_singleton] at hx
    rw [e2]
    rcases hx with hx | hx
    · exact hF.ops_channel x hx
    · rw [hx]; exact hch
  · rw [hq, List.map_append, List.nodup_append]
    refine ⟨hF.ops_nodup, List.nodup_singleton _, ?_⟩
    intro a ha ha'
    simp only [List.map_cons, List.map_nil, List.mem_singleton] at ha'
    obtain ⟨x, hx, hxa⟩ := List.mem_map.mp ha
    exact hnew x hx (hxa.trans ha')

/-- Marking an op as started keeps `Flight`. -/
theorem Flight_mark_started {s : State} (p : dma_pending) (hp : p ∈ s.dma_queue)
    (hF : Flight s) : Flight (dma_mark_started s p) := by
  have hmem : ∀ x, x ∈ (dma_mark_started s p).dma_queue →
      ∃ y, y ∈ s.dma_queue ∧ y.op.callback_arg = x.op.callback_arg := by
    intro x hx
    simp only [dma_mark_started, List.mem_append, List.mem_singleton] at hx
    rcases hx with hx | hx
    · exact ⟨x, List.mem_of_mem_erase hx, rfl⟩
    · exact ⟨p, hp, by rw [hx]⟩
  constructor
  · intro a ha; exact hF.lens a ha
  · intro x hx
    obtain ⟨y, hy, hya⟩ := hmem x hx
    rw [← hya]
    exact hF.ops_queued y hy
  · intro x hx
    obtain ⟨y, hy, hya⟩ := hmem x hx
    rw [← hya]
    exact hF.ops_channel y hy
  · show ((s.dma_queue.erase p ++ [{ p with started := true }]).map
        fun (x : dma_pending) => x.op.callback_arg).Nodup
    rw [List.map_append, List.nodup_append]
    refine ⟨(hF.ops_nodup.sublist ((List.erase_sublist p s.dma_queue).map _)),
      List.nodup_singleton _, ?_⟩
    intro a ha ha'
    simp only [List.map_cons, List.map_nil, List.mem_singleton] at ha'
    obtain ⟨x, hx, hxa⟩ := List.mem_map.mp ha
    exact erase_arg_ne hF.ops_nodup hp hx (hxa.trans ha')

/-- Retiring op `p` after a change that touched only the descriptor of `p`
keeps `Flight`. -/
theorem Flight_retire {s s1 : State} (p : dma_pending) (hp : p ∈ s.dma_queue)
    (hq : s1.dma_queue = s.dma_queue)
    (hback : ∀ a, queued s1 a → queued s a ∧ (deref s1 a).len = (deref s a).len)
    (hother : ∀ a, a ≠ p.op.callback_arg → queued s a →
      queued s1 a ∧ deref s1 a = deref s a)
    (hF : Flight s) : Flight (dma_retire s1 p) := by
  have hmem : ∀ x, x ∈ (dma_retire s1 p).dma_queue →
      x ∈ s.dma_queue ∧ x.op.callback_arg ≠ p.op.callback_arg := by
    intro x hx
    simp only [dma_retire, hq] at hx
    exact ⟨List.mem_of_mem_erase hx, erase_arg_ne hF.ops_nodup hp hx⟩
  constructor
  · intro a ha
    obtain ⟨h1, h2⟩ := hback a ha
    show (deref s1 a).len < SIZE_MOD
    rw [h2]
    exact hF.lens a h1
  · intro x hx
    obtain ⟨h1, h2⟩ := hmem x hx
    exact (hother _ h2 (hF.ops_queued x h1)).1
  · intro x hx
    obtain ⟨h1, h2⟩ := hmem x hx
    show (deref s1 x.op.callback_arg).channel ≠ none
    rw [(hother _ h2 (hF.ops_queued x h1)).2]
    exact hF.ops_channel x h1
  · show ((s1.dma_queue.erase p).map fun (x : dma_pending) => x.op.callback_arg).Nodup
    rw [hq]
    exact hF.ops_nodup.sublist ((List.erase_sublist p s.dma_queue).map _)

theorem queued_list_del_twice {s s1 : State} (arg : Nat)
    (hc : s1.cporttable = (list_del (list_del s arg) arg).cporttable) (a : Nat) :
    (queued s1 a → queued s a) ∧ (a ≠ arg → queued s a → queued s1 a) := by
  have e1 : ∀ id, cport_handle s1 id
      = (cport_handle s id).map
          (fun c => { c with tx_fifo := (c.tx_fifo.erase arg).erase arg }) := by
    intro id
    rw [cport_handle_congr hc, cport_handle_list_del, cport_handle_list_del]
    cases cport_handle s id <;> rfl
  constructor
  · rintro ⟨id, c, h, ha⟩
    rw [e1] at h
    cases h0 : cport_handle s id with
    | none => rw [h0] at h; cases h
    | some c0 =>
      rw [h0] at h
      simp only [Option.map_some', Option.some.injEq] at h
      subst h
      exact ⟨id, c0, h0, List.mem_of_mem_erase (List.mem_of_mem_erase ha)⟩
  · rintro hne ⟨id, c, h, ha⟩
    refine ⟨id, { c with tx_fifo := (c.tx_fifo.erase arg).erase arg }, ?_, ?_⟩
    · rw [e1, h]; rfl
    · exact (List.mem_erase_of_ne hne).mpr ((List.mem_erase_of_ne hne).mpr ha)

/-- Which descriptors are queued after an accepted `unipro_send_async`. -/
theorem queued_send_async {s s' : State} (cportid : Nat) (c : cport)
    (h : cport_handle s cportid = some c)
    (e1 : ∀ id, cport_handle s' id
      = if id = cportid then some { c with tx_fifo := c.tx_fifo ++ [s.heap.length] }
        else cport_handle s id) (a : Nat) :
    (queued s a → queued s' a) ∧ (queued s' a → queued s a ∨ a = s.heap.length) := by
  constructor
  · rintro ⟨id, c', hc', ha⟩
    by_cases hid : id = cportid
    · subst hid
      rw [h] at hc'
      cases hc'
      exact ⟨id, _, by rw [e1, if_pos rfl], List.mem_append_left _ ha⟩
    · exact ⟨id, c', by rw [e1, if_neg hid]; exact hc', ha⟩
  · rintro ⟨id, c', hc', ha⟩
    rw [e1] at hc'
    split_ifs at hc' with hid
    · cases hc'
      simp only [List.mem_append, List.mem_singleton] at ha
      rcases ha with ha | ha
      · exact Or.inl ⟨cportid, c, h, ha⟩
      · exact Or.inr ha
    · exact Or.inl ⟨id, c', hc', ha⟩

/-- Storing a descriptor with the same length and a channel keeps `Flight`. -/
theorem Flight_heap_set {s s' : State} (desc : Nat) (d : unipro_xfer_descriptor)
    (hc : s'.cporttable = s.cporttable) (hh : s'.heap = s.heap.set desc d)
    (hq : s'.dma_queue = s.dma_queue) (hlen : d.len = (deref s desc).len)
    (hch : d.channel ≠ none) (hF : Flight s) : Flight s' := by
  have e2 := fun x => deref_heap_set_cases s s' desc x d hh
  refine Flight_frame hq (fun a ha => (queued_congr hc a).mpr ha) ?_ ?_ hF
  · intro a ha
    rw [e2]
    split_ifs with hx
    · rw [hlen, ← hx.1]; exact hF.lens a ((queued_congr hc a).mp ha)
    · exact hF.lens a ((queued_congr hc a).mp ha)
  · intro a _ hca
    rw [e2]
    split_ifs with hx
    · exact hch
    · exact hca

/-- Every step of the engine keeps `Flight`. -/
theorem Flight_step {sys sys' : System} (hstep : Step sys sys') (hI : Inv sys.st)
    (hF : Flight sys.st) : Flight sys'.st := by
  cases hstep with
  | send_async cportid buf len callback priv zalloc_ok hlen =>
    obtain ⟨_, hq, hcase⟩ := send_async_effect sys.st cportid buf len callback priv zalloc_ok
    rcases hcase with ⟨hh, hc⟩ | ⟨hh, c, h, e1⟩
    · have e2 := deref_congr hh
      refine Flight_frame hq (fun a ha => (queued_congr hc a).mpr ha) ?_ ?_ hF
      · intro a ha; rw [e2]; exact hF.lens a ((queued_congr hc a).mp ha)
      · intro a _ hca; rw [e2]; exact hca
    · have hqs := queued_send_async cportid c h e1
      refine Flight_frame hq (fun a => (hqs a).1) ?_ ?_ hF
      · intro a ha
        rcases (hqs a).2 ha with ha | ha
        · rw [deref_append_left _ _ _ hh a (queued_lt hI ha)]; exact hF.lens a ha
        · rw [ha, deref_append_new _ _ _ hh]; exact hlen
      · intro a ha hca
        rw [deref_append_left _ _ _ hh a (queued_lt hI ha)]; exact hca
  | worker_wake _ _ =>
    exact @Flight_frame sys.st _ rfl (fun a ha => ha) (fun a ha => hF.lens a ha)
      (fun a _ h => h) hF
  | worker_xfer next_cport free desc channel s1 free_space op_alloc_ret enqueue_ret _ hp _ =>
    obtain ⟨hs, id, c, rest, hc, hfifo, hnone, _⟩ :=
      pick_tx_descriptor_found free sys.st next_cport hI _ _ hp
    subst hs
    have hqd : queued sys.st desc := ⟨id, c, hc, by rw [hfifo]; exact List.mem_cons_self _ _⟩
    have hlt := queued_lt hI hqd
    obtain ⟨_, hct, hcase⟩ :=
      dma_xfer_effect sys.st desc channel free_space op_alloc_ret enqueue_ret
    rcases hcase with hsame | ⟨hh, hq⟩ | ⟨hh, hq | hq⟩
    · show Flight (unipro_dma_xfer sys.st desc channel free_space op_alloc_ret enqueue_ret).2
      rw [hsame]; exact hF
    · exact Flight_heap_set desc _ hct hh hq rfl (by simp) hF
    · exact Flight_heap_set desc _ hct hh hq rfl (by simp) hF
    · have hmid : Flight (set_desc sys.st desc
          { deref sys.st desc with
              channel := some channel,
              data_offset := ((deref sys.st desc).data_offset
                + dma_xfer_len sys.st desc free_space) % SIZE_MOD }) :=
        @Flight_heap_set sys.st _ desc _ rfl rfl rfl rfl (by simp) hF
      refine @Flight_enqueue (set_desc sys.st desc
          { deref sys.st desc with
              channel := some channel,
              data_offset := ((deref sys.st desc).data_offset
                + dma_xfer_len sys.st desc free_space) % SIZE_MOD }) _ hct hh _ hq ?_ ?_ ?_ hmid
      · exact (@queued_congr sys.st (set_desc sys.st desc _) rfl desc).mpr hqd
      · show (deref (set_desc sys.st desc _) desc).channel ≠ none
        rw [deref_heap_set_cases sys.st (set_desc sys.st desc _) desc desc _ rfl,
          if_pos ⟨rfl, hlt⟩]
        simp
      · intro x hx he
        have he' : x.op.callback_arg = desc := he
        have := hF.ops_channel x hx
        rw [he'] at this
        exact this hnone
  | worker_sleep next_cport free s1 _ hp =>
    obtain ⟨hs, _⟩ := pick_tx_descriptor_front free sys.st next_cport hI _ _ hp
    subst hs
    exact hF
  | dma_start p r retval s1 hp _ _ hcb =>
    obtain ⟨_, hq, hcase⟩ := dma_tx_callback_effect sys.st _ _ _ _ retval s1 hcb
    have hframe : s1.heap = sys.st.heap ∧ s1.cporttable = sys.st.cporttable := by
      rcases hcase with h | ⟨h, _⟩ | ⟨h, _⟩
      · exact h
      · cases h
      · cases h
    have e2 := deref_congr hframe.1
    show Flight (if retval = 0 then dma_mark_started s1 p else dma_retire s1 p)
    split_ifs
    · refine Flight_mark_started p (by rw [hq]; exact hp) ?_
      refine Flight_frame hq (fun a ha => (queued_congr hframe.2 a).mpr ha) ?_ ?_ hF
      · intro a ha; rw [e2]; exact hF.lens a ((queued_congr hframe.2 a).mp ha)
      · intro a _ hca; rw [e2]; exact hca
    · refine Flight_retire p hp hq ?_ ?_ hF
      · intro a ha; exact ⟨(queued_congr hframe.2 a).mp ha, by rw [e2]⟩
      · intro a _ ha; exact ⟨(queued_congr hframe.2 a).mpr ha, e2 a⟩
  | dma_complete p r retval s1 hp _ hcb =>
    obtain ⟨_, hq, hcase⟩ := dma_tx_callback_effect sys.st _ _ _ _ retval s1 hcb
    show Flight (dma_retire s1 p)
    rcases hcase with ⟨hh, hc⟩ | ⟨_, _, hh, hc⟩ | ⟨_, _, hh, hc⟩
    · have e2 := deref_congr hh
      refine Flight_retire p hp hq ?_ ?_ hF
      · intro a ha; exact ⟨(queued_congr hc a).mp ha, by rw [e2]⟩
      · intro a _ ha; exact ⟨(queued_congr hc a).mpr ha, e2 a⟩
    · have e2 := fun x => deref_heap_set_cases sys.st s1 p.op.callback_arg x _ hh
      refine Flight_retire p hp hq ?_ ?_ hF
      · intro a ha
        refine ⟨(queued_congr hc a).mp ha, ?_⟩
        rw [e2]
        split_ifs with hx
        · rw [hx.1]
        · rfl
      · intro a hne ha
        refine ⟨(queued_congr hc a).mpr ha, ?_⟩
        rw [e2, if_neg (fun hx => hne hx.1)]
    · have e2 := deref_congr hh
      refine Flight_retire p hp hq ?_ ?_ hF
      · intro a ha; exact ⟨(queued_list_del_twice _ hc a).1 ha, by rw [e2]⟩
      · intro a hne ha; exact ⟨(queued_list_del_twice _ hc a).2 hne ha, e2 a⟩

theorem Flight_init {sys : System} (h : Init sys) : Flight sys.st := by
  obtain ⟨_, _, _, _, _, hdq, hq⟩ := h
  have hno : ∀ a, ¬ queued sys.st a := by
    rintro a ⟨id, c, hc, ha⟩
    rw [(hq id c hc).1] at ha
    simp at ha
  constructor
  · intro a ha; exact absurd ha (hno a)
  · intro p hp; rw [hdq] at hp; simp at hp
  · intro p hp; rw [hdq] at hp; simp at hp
  · rw [hdq]; exact List.nodup_nil

theorem Flight_reachable {sys : System} (h : Reachable sys) : Flight sys.st := by
  obtain ⟨sys0, h0, hsteps⟩ := h
  induction hsteps with
  | refl => exact Flight_init h0
  | tail hprev hstep ih => exact Flight_step hstep (Inv_reachable ⟨sys0, h0, hprev⟩) ih

/-- No step of the engine changes the chip revision. -/
theorem step_rev {sys sys' : System} (hstep : Step sys sys') (hI : Inv sys.st) :
    sys'.st.rev_id = sys.st.rev_id := by
  cases hstep with
  | send_async cportid buf len callback priv zalloc_ok _ =>
    exact (send_async_effect sys.st cportid buf len callback priv zalloc_ok).1
  | worker_wake _ _ => rfl
  | worker_xfer next_cport free desc channel s1 free_space op_alloc_ret enqueue_ret _ hp _ =>
    obtain ⟨hs, _⟩ := pick_tx_descriptor_front free sys.st next_cport hI _ _ hp
    subst hs
    exact (dma_xfer_effect sys.st desc channel free_space op_alloc_ret enqueue_ret).1
  | worker_sleep next_cport free s1 _ hp =>
    obtain ⟨hs, _⟩ := pick_tx_descriptor_front free sys.st next_cport hI _ _ hp
    subst hs
    rfl
  | dma_start p r retval s1 _ _ _ hcb =>
    have h := (dma_tx_callback_effect sys.st _ _ _ _ retval s1 hcb).1
    show (if retval = 0 then dma_mark_started s1 p else dma_retire s1 p).rev_id = _
    split_ifs <;> exact h
  | dma_complete p r retval s1 _ _ hcb =>
    exact (dma_tx_callback_effect sys.st _ _ _ _ retval s1 hcb).1

/-- On a chip that is not ES2 every step of the engine keeps `Whole`. -/
theorem Whole_step {sys sys' : System} (hstep : Step sys sys')
    (hrev : sys.st.rev_id ≠ tsb_rev.tsb_rev_es2) (hI : Inv sys.st)
    (hF : Flight sys.st) (hW : Whole sys.st) : Whole sys'.st := by
  cases hstep with
  | send_async cportid buf len callback priv zalloc_ok hlen =>
    obtain ⟨_, hq, hcase⟩ := send_async_effect sys.st cportid buf len callback priv zalloc_ok
    rcases hcase with ⟨hh, hc⟩ | ⟨hh, c, h, e1⟩
    · have e2 := deref_congr hh
      constructor
      · intro a ha hca
        rw [e2] at hca ⊢
        exact hW.idle_zero a ((queued_congr hc a).mp ha) hca
      · intro p hp
        rw [hq] at hp
        rw [e2]
        exact hW.ops_done p hp
    · have hqs := queued_send_async cportid c h e1
      constructor
      · intro a ha hca
        rcases (hqs a).2 ha with ha | ha
        · rw [deref_append_left _ _ _ hh a (queued_lt hI ha)] at hca ⊢
          exact hW.idle_zero a ha hca
        · rw [ha, deref_append_new _ _ _ hh]
      · intro p hp
        rw [hq] at hp
        rw [deref_append_left _ _ _ hh _ (queued_lt hI (hF.ops_queued p hp))]
        exact hW.ops_done p hp
  | worker_wake _ _ =>
    exact ⟨fun a ha hca => hW.idle_zero a ha hca, fun p hp => hW.ops_done p hp⟩
  | worker_xfer next_cport free desc channel s1 free_space op_alloc_ret enqueue_ret _ hp _ =>
    obtain ⟨hs, id, c, rest, hc, hfifo, hnone, _⟩ :=
      pick_tx_descriptor_found free sys.st next_cport hI _ _ hp
    subst hs
    have hqd : queued sys.st desc := ⟨id, c, hc, by rw [hfifo]; exact List.mem_cons_self _ _⟩
    have hlt := queued_lt hI hqd
    have hzero := hW.idle_zero desc hqd hnone
    have hlen := hF.lens desc hqd
    have hxl : dma_xfer_len sys.st desc free_space = (deref sys.st desc).len := by
      unfold dma_xfer_len
      simp only [if_neg hrev]
    have hne : ∀ p, p ∈ sys.st.dma_queue → p.op.callback_arg ≠ desc := by
      intro p hp he
      have := hF.ops_channel p hp
      rw [he] at this
      exact this hnone
    obtain ⟨_, hct, hcase⟩ :=
      dma_xfer_effect sys.st desc channel free_space op_alloc_ret enqueue_ret
    have key : ∀ d : unipro_xfer_descriptor, d.channel ≠ none →
        (unipro_dma_xfer sys.st desc channel free_space op_alloc_ret enqueue_ret).2.heap
          = sys.st.heap.set desc d →
        (∀ a, queued (unipro_dma_xfer sys.st desc channel free_space op_alloc_ret
            enqueue_ret).2 a →
          (deref (unipro_dma_xfer sys.st desc channel free_space op_alloc_ret
            enqueue_ret).2 a).channel = none →
          (deref (unipro_dma_xfer sys.st desc channel free_space op_alloc_ret
            enqueue_ret).2 a).data_offset = 0) ∧
        (∀ p, p ∈ sys.st.dma_queue →
          (deref (unipro_dma_xfer sys.st desc channel free_space op_alloc_ret
            enqueue_ret).2 p.op.callback_arg).len
          ≤ (deref (unipro_dma_xfer sys.st desc channel free_space op_alloc_ret
            enqueue_ret).2 p.op.callback_arg).data_offset) := by
      intro d hd hh
      have e2 := fun x => deref_heap_set_cases sys.st _ desc x d hh
      constructor
      · intro a ha hca
        rw [e2] at hca ⊢
        split_ifs at hca ⊢ with hx
        · exact absurd hca hd
        · exact hW.idle_zero a ((queued_congr hct a).mp ha) hca
      · intro p hp
        rw [e2, if_neg (fun hx => hne p hp hx.1)]
        exact hW.ops_done p hp
    rcases hcase with hsame | ⟨hh, hq⟩ | ⟨hh, hq | hq⟩
    · show Whole (unipro_dma_xfer sys.st desc channel free_space op_alloc_ret enqueue_ret).2
      rw [hsame]; exact hW
    · obtain ⟨k1, k2⟩ := key _ (by simp) hh
      exact ⟨k1, fun p hp => k2 p (by rw [← hq]; exact hp)⟩
    · obtain ⟨k1, k2⟩ := key _ (by simp) hh
      exact ⟨k1, fun p hp => k2 p (by rw [← hq]; exact hp)⟩
    · obtain ⟨k1, k2⟩ := key _ (by simp) hh
      refine ⟨k1, ?_⟩
      intro p hp
      have hp' : p ∈ sys.st.dma_queue ++
          [{ channel := channel, op := dma_xfer_op sys.st desc free_space,
             started := false }] := by rw [← hq]; exact hp
      rw [List.mem_append, List.mem_singleton] at hp'
      rcases hp' with hp' | hp'
      · exact k2 p hp'
      · have harg : p.op.callback_arg = desc := by rw [hp']; rfl
        rw [harg, deref_heap_set_cases sys.st _ desc desc _ hh, if_pos ⟨rfl, hlt⟩]
        show (deref sys.st desc).len
          ≤ ((deref sys.st desc).data_offset + dma_xfer_len sys.st desc free_space) % SIZE_MOD
        rw [hxl, hzero, Nat.zero_add, Nat.mod_eq_of_lt hlen]
  | worker_sleep next_cport free s1 _ hp =>
    obtain ⟨hs, _⟩ := pick_tx_descriptor_front free sys.st next_cport hI _ _ hp
    subst hs
    exact hW
  | dma_start p r retval s1 hp _ _ hcb =>
    obtain ⟨_, hq, hcase⟩ := dma_tx_callback_effect sys.st _ _ _ _ retval s1 hcb
    have hframe : s1.heap = sys.st.heap ∧ s1.cporttable = sys.st.cporttable := by
      rcases hcase with h | ⟨h, _⟩ | ⟨h, _⟩
      · exact h
      · cases h
      · cases h
    have e2 := deref_congr hframe.1
    have hmem : ∀ x, x ∈ (if retval = 0 then dma_mark_started s1 p
        else dma_retire s1 p).dma_queue →
        ∃ y, y ∈ sys.st.dma_queue ∧ y.op.callback_arg = x.op.callback_arg := by
      intro x hx
      split_ifs at hx
      · simp only [dma_mark_started, List.mem_append, List.mem_singleton, hq] at hx
        rcases hx with hx | hx
        · exact ⟨x, List.mem_of_mem_erase hx, rfl⟩
        · exact ⟨p, hp, by rw [hx]⟩
      · simp only [dma_retire, hq] at hx
        exact ⟨x, List.mem_of_mem_erase hx, rfl⟩
    have hdr : ∀ a, deref (if retval = 0 then dma_mark_started s1 p
        else dma_retire s1 p) a = deref sys.st a := by
      intro a
      split_ifs <;> exact e2 a
    have hqu : ∀ a, queued (if retval = 0 then dma_mark_started s1 p
        else dma_retire s1 p) a → queued sys.st a := by
      intro a ha
      split_ifs at ha <;> exact (queued_congr hframe.2 a).mp ha
    constructor
    · intro a ha hca
      have ha' := hqu a ha
      show (deref (if retval = 0 then dma_mark_started s1 p else dma_retire s1 p) a).data_offset
        = 0
      have hca' : (deref (if retval = 0 then dma_mark_started s1 p
          else dma_retire s1 p) a).channel = none := hca
      rw [hdr] at hca' ⊢
      exact hW.idle_zero a ha' hca'
    · intro x hx
      obtain ⟨y, hy, hya⟩ := hmem x hx
      show (deref (if retval = 0 then dma_mark_started s1 p
          else dma_retire s1 p) x.op.callback_arg).len
        ≤ (deref (if retval = 0 then dma_mark_started s1 p
          else dma_retire s1 p) x.op.callback_arg).data_offset
      rw [hdr, ← hya]
      exact hW.ops_done y hy
  | dma_complete p r retval s1 hp _ hcb =>
    obtain ⟨_, hq, hcase⟩ := dma_tx_callback_effect sys.st _ _ _ _ retval s1 hcb
    have hfin := hW.ops_done p hp
    have hframe : s1.heap = sys.st.heap ∧ ∀ a, queued s1 a → queued sys.st a := by
      rcases hcase with ⟨hh, hc⟩ | ⟨_, hlt, _, _⟩ | ⟨_, _, hh, hc⟩
      · exact ⟨hh, fun a ha => (queued_congr hc a).mp ha⟩
      · omega
      · exact ⟨hh, fun a ha => (queued_list_del_twice _ hc a).1 ha⟩
    have e2 := deref_congr hframe.1
    constructor
    · intro a ha hca
      show (deref s1 a).data_offset = 0
      have hca' : (deref s1 a).channel = none := hca
      rw [e2] at hca' ⊢
      exact hW.idle_zero a (hframe.2 a ha) hca'
    · intro x hx
      have hx' : x ∈ s1.dma_queue.erase p := hx
      rw [hq] at hx'
      show (deref s1 x.op.callback_arg).len ≤ (deref s1 x.op.callback_arg).data_offset
      rw [e2]
      exact hW.ops_done x (List.mem_of_mem_erase hx')

theorem Whole_init {sys : System} (h : Init sys) : Whole sys.st := by
  obtain ⟨_, _, _, _, _, hdq, hq⟩ := h
  constructor
  · rintro a ⟨id, c, hc, ha⟩
    rw [(hq id c hc).1] at ha
    simp at ha
  · intro p hp; rw [hdq] at hp; simp at hp

theorem Whole_reachable {sys : System} (h : Reachable sys)
    (hrev : sys.st.rev_id ≠ tsb_rev.tsb_rev_es2) : Whole sys.st := by
  obtain ⟨sys0, h0, hsteps⟩ := h
  induction hsteps with
  | refl => exact Whole_init h0
  | tail hprev hstep ih =>
    have hI := Inv_reachable ⟨sys0, h0, hprev⟩
    have hr := step_rev hstep hI
    rw [hr] at hrev
    exact Whole_step hstep hrev hI (Flight_reachable ⟨sys0, h0, hprev⟩) (ih hrev)

/-- The COMPLETE event of a descriptor that has no bytes left unlinks it and
does not post the worker's semaphore. -/
theorem dma_tx_callback_complete_final (s : State) (op : device_dma_op) (arg : Nat)
    (r : atabl_results) (retval : Int) (s1 : State)
    (hfin : (deref s arg).len ≤ (deref s arg).data_offset)
    (h : unipro_dma_tx_callback s op EVENT_COMPLETE arg r = some (retval, s1)) :
    s1.tx_fifo_lock = s.tx_fifo_lock ∧ s1.heap = s.heap ∧
    s1.cporttable = (list_del (list_del s arg) arg).cporttable := by
  have hcomp : ∀ sb, dma_tx_callback_complete s op arg = some sb →
      sb.tx_fifo_lock = s.tx_fifo_lock ∧ sb.heap = s.heap ∧
      sb.cporttable = (list_del (list_del s arg) arg).cporttable := by
    intro sb hc
    unfold dma_tx_callback_complete at hc
    simp only [] at hc
    rw [if_pos hfin] at hc
    split_ifs at hc with hrev
    · split at hc
      · cases hc
      · split at hc
        · cases hc
        · simp only [Option.some.injEq] at hc
          subst hc
          cases (deref s arg).callback <;> exact ⟨rfl, rfl, rfl⟩
    · simp only [Option.some.injEq] at hc
      subst hc
      cases (deref s arg).callback <;> exact ⟨rfl, rfl, rfl⟩
  unfold unipro_dma_tx_callback at h
  simp only [EVENT_COMPLETE, Bool.false_eq_true, false_and, if_false, if_true] at h
  split at h
  · cases h
  · next s2 h2 =>
    simp only [Option.some.injEq, Prod.mk.injEq] at h
    obtain ⟨_, rfl⟩ := h
    exact hcomp _ h2

/-- A descriptor unlinked twice from queues without duplicates is queued
nowhere. -/
theorem not_queued_list_del_twice {s s1 : State} (arg : Nat) (hnd : queues_nodup s)
    (hc : s1.cporttable = (list_del (list_del s arg) arg).cporttable) :
    ¬ queued s1 arg := by
  rintro ⟨id, c, h, ha⟩
  rw [cport_handle_congr hc, cport_handle_list_del, cport_handle_list_del] at h
  cases h0 : cport_handle s id with
  | none => rw [h0] at h; cases h
  | some c0 =>
    rw [h0] at h
    simp only [Option.map_some', Option.some.injEq] at h
    subst h
    have ha' : arg ∈ (c0.tx_fifo.erase arg).erase arg := ha
    rw [erase_erase_eq_filter _ _ (hnd id c0 h0)] at ha'
    simp at ha'

theorem s5_awake_reachable : Reachable s5_awake := by
  refine ⟨s5_boot, s5_boot_init, ?_⟩
  have h1 : Step s5_boot s5_sent7 := Step.send_async s5_boot 7 8192 16 (some 9) 5 true
    (by decide)
  have h2 : Step s5_sent7 s5_sent8 := Step.send_async s5_sent7 8 12288 16 (some 9) 6 true
    (by decide)
  have h3 : Step s5_sent8 s5_awake := Step.worker_wake s5_sent8 rfl (by decide)
  exact ((Relation.ReflTransGen.single h1).tail h2).tail h3

/-- C15. In every state reachable on a chip that is not ES2 through
`unipro_send_async` calls, worker steps and DMA events (the `unipro_dma_xfer`
calls that fail at op allocation or at enqueue included), a descriptor that
`pick_tx_descriptor` returns, which is the descriptor the worker hands to
`unipro_dma_xfer`, has `data_offset = 0`: the `DEBUGASSERT` at the entry of
`unipro_dma_xfer` holds and the transfer length is the whole `len`, whatever
the free-space reading. The descriptor of every op the DMA driver holds has
`data_offset >= len`, so its COMPLETE event takes the final branch: the handler
unlinks the descriptor and does not post the worker's semaphore. -/
theorem C15_whole_descriptor_transfer (sys : System) (h : Reachable sys)
    (hrev : sys.st.rev_id ≠ tsb_rev.tsb_rev_es2) :
    (∀ next_cport free desc s1,
      pick_tx_descriptor free sys.st next_cport = (pick_result.found desc, s1) →
      (deref s1 desc).data_offset = 0 ∧ dma_xfer_assert s1 desc = true ∧
      ∀ free_space, dma_xfer_len s1 desc free_space = (deref s1 desc).len) ∧
    (∀ p, p ∈ sys.st.dma_queue →
      (deref sys.st p.op.callback_arg).len ≤ (deref sys.st p.op.callback_arg).data_offset ∧
      ∀ r retval s1,
        unipro_dma_tx_callback sys.st p.op EVENT_COMPLETE p.op.callback_arg r
          = some (retval, s1) →
        s1.tx_fifo_lock = sys.st.tx_fifo_lock ∧ ¬ queued s1 p.op.callback_arg) := by
  have hI := Inv_reachable h
  have hW := Whole_reachable h hrev
  constructor
  · intro next_cport free desc s1 hp
    obtain ⟨hs, id, c, rest, hc, hfifo, hnone, _⟩ :=
      pick_tx_descriptor_found free sys.st next_cport hI _ _ hp
    subst hs
    have hz := hW.idle_zero desc ⟨id, c, hc, by rw [hfifo]; exact List.mem_cons_self _ _⟩ hnone
    refine ⟨hz, ?_, ?_⟩
    · unfold dma_xfer_assert
      rw [hz]
      simp
    · intro free_space
      unfold dma_xfer_len
      simp only [if_neg hrev]
  · intro p hp
    have hfin := hW.ops_done p hp
    refine ⟨hfin, ?_⟩
    intro r retval s1 hcb
    obtain ⟨h1, _, h3⟩ := dma_tx_callback_complete_final sys.st p.op _ r retval s1 hfin hcb
    exact ⟨h1, not_queued_list_del_twice _ hI.nodup h3⟩

/-- Witness of C15 on scenario S5 after the worker has woken up: the picker
returns descriptor 0, whose `data_offset` is 0 and whose transfer length is its
whole `len` of 16 bytes. -/
theorem C15_whole_descriptor_transfer_witness :
    Reachable s5_awake ∧ s5_awake.st.rev_id ≠ tsb_rev.tsb_rev_es2 ∧
    pick_tx_descriptor (fun _ => 64) s5_awake.st 0 = (pick_result.found 0, s5_awake.st) ∧
    (deref s5_awake.st 0).data_offset = 0 ∧ dma_xfer_assert s5_awake.st 0 = true ∧
    dma_xfer_len s5_awake.st 0 64 = (deref s5_awake.st 0).len ∧
    (deref s5_awake.st 0).len = 16 :=
  ⟨s5_awake_reachable, by decide, by decide,
    ((C15_whole_descriptor_transfer s5_awake s5_awake_reachable (by decide)).1 0
      (fun _ => 64) 0 s5_awake.st (by decide)).1,
    by decide, by decide, by decide⟩

/-! ### C19: a synchronous `unipro_dma_xfer` failure -/

/-- Every step of the engine keeps a parked descriptor parked. -/
theorem parked_step {sys sys' : System} (hstep : Step sys sys') (hI : Inv sys.st)
    (id desc ch : Nat) (hpk : parked sys.st id desc ch) : parked sys'.st id desc ch := by
  obtain ⟨⟨c0, rest, hc0, hfifo0⟩, hch0, hops0⟩ := hpk
  have hlt0 : desc < sys.st.heap.length :=
    hI.valid id c0 hc0 desc (by rw [hfifo0]; exact List.mem_cons_self _ _)
  cases hstep with
  | send_async cportid buf len callback priv zalloc_ok _ =>
    obtain ⟨_, hq, hcase⟩ := send_async_effect sys.st cportid buf len callback priv zalloc_ok
    rcases hcase with ⟨hh, hc⟩ | ⟨hh, c, h, e1⟩
    · refine ⟨⟨c0, rest, by rw [cport_handle_congr hc]; exact hc0, hfifo0⟩, ?_, ?_⟩
      · rw [deref_congr hh]; exact hch0
      · intro p hp; rw [hq] at hp; exact hops0 p hp
    · refine ⟨?_, ?_, ?_⟩
      · by_cases hid : id = cportid
        · subst hid
          rw [hc0] at h
          cases h
          exact ⟨_, rest ++ [sys.st.heap.length], by rw [e1, if_pos rfl], by
            simp [hfifo0]⟩
        · exact ⟨c0, rest, by rw [e1, if_neg hid]; exact hc0, hfifo0⟩
      · rw [deref_append_left _ _ _ hh desc hlt0]; exact hch0
      · intro p hp; rw [hq] at hp; exact hops0 p hp
  | worker_wake _ _ => exact ⟨⟨c0, rest, hc0, hfifo0⟩, hch0, hops0⟩
  | worker_xfer next_cport free desc1 channel s1 free_space op_alloc_ret enqueue_ret _ hp _ =>
    obtain ⟨hs, _, _, _, _, _, hnone, _⟩ :=
      pick_tx_descriptor_found free sys.st next_cport hI _ _ hp
    subst hs
    have hne : desc ≠ desc1 := by
      intro he
      rw [← he, hch0] at hnone
      cases hnone
    obtain ⟨_, hct, hcase⟩ :=
      dma_xfer_effect sys.st desc1 channel free_space op_alloc_ret enqueue_ret
    have hhead : ∃ c rest, cport_handle
        (unipro_dma_xfer sys.st desc1 channel free_space op_alloc_ret enqueue_ret).2 id
          = some c ∧ c.tx_fifo = desc :: rest :=
      ⟨c0, rest, by rw [cport_handle_congr hct]; exact hc0, hfifo0⟩
    have hset : ∀ d, (unipro_dma_xfer sys.st desc1 channel free_space op_alloc_ret
          enqueue_ret).2.heap = sys.st.heap.set desc1 d →
        (deref (unipro_dma_xfer sys.st desc1 channel free_space op_alloc_ret
          enqueue_ret).2 desc).channel = some ch := by
      intro d hh
      rw [deref_heap_set_cases sys.st _ desc1 desc d hh, if_neg (fun hx => hne hx.1)]
      exact hch0
    rcases hcase with hsame | ⟨hh, hq⟩ | ⟨hh, hq | hq⟩
    · show parked (unipro_dma_xfer sys.st desc1 channel free_space op_alloc_ret
        enqueue_ret).2 id desc ch
      rw [hsame]
      exact ⟨⟨c0, rest, hc0, hfifo0⟩, hch0, hops0⟩
    · exact ⟨hhead, hset _ hh, fun p hp => hops0 p (by rw [← hq]; exact hp)⟩
    · exact ⟨hhead, hset _ hh, fun p hp => hops0 p (by rw [← hq]; exact hp)⟩
    · refine ⟨hhead, hset _ hh, ?_⟩
      intro p hp
      have hp' : p ∈ sys.st.dma_queue ++
          [{ channel := channel, op := dma_xfer_op sys.st desc1 free_space,
             started := false }] := by rw [← hq]; exact hp
      rw [List.mem_append, List.mem_singleton] at hp'
      rcases hp' with hp' | hp'
      · exact hops0 p hp'
      · have harg : p.op.callback_arg = desc1 := by rw [hp']; rfl
        rw [harg]
        exact fun he => hne he.symm
  | worker_sleep next_cport free s1 _ hp =>
    obtain ⟨hs, _⟩ := pick_tx_descriptor_front free sys.st next_cport hI _ _ hp
    subst hs
    exact ⟨⟨c0, rest, hc0, hfifo0⟩, hch0, hops0⟩
  | dma_start p r retval s1 hp _ _ hcb =>
    obtain ⟨_, hq, hcase⟩ := dma_tx_callback_effect sys.st _ _ _ _ retval s1 hcb
    have hframe : s1.heap = sys.st.heap ∧ s1.cporttable = sys.st.cporttable := by
      rcases hcase with h | ⟨h, _⟩ | ⟨h, _⟩
      · exact h
      · cases h
      · cases h
    show parked (if retval = 0 then dma_mark_started s1 p else dma_retire s1 p) id desc ch
    split_ifs
    · refine ⟨⟨c0, rest, by rw [cport_handle_congr (show (dma_mark_started s1 p).cporttable
          = sys.st.cporttable from hframe.2)]; exact hc0, hfifo0⟩, ?_, ?_⟩
      · rw [deref_congr (show (dma_mark_started s1 p).heap = sys.st.heap from hframe.1)]
        exact hch0
      · intro x hx
        simp only [dma_mark_started, List.mem_append, List.mem_singleton, hq] at hx
        rcases hx with hx | hx
        · exact hops0 x (List.mem_of_mem_erase hx)
        · rw [hx]; exact hops0 p hp
    · refine ⟨⟨c0, rest, by rw [cport_handle_congr (show (dma_retire s1 p).cporttable
          = sys.st.cporttable from hframe.2)]; exact hc0, hfifo0⟩, ?_, ?_⟩
      · rw [deref_congr (show (dma_retire s1 p).heap = sys.st.heap from hframe.1)]
        exact hch0
      · intro x hx
        simp only [dma_retire, hq] at hx
        exact hops0 x (List.mem_of_mem_erase hx)
  | dma_complete p r retval s1 hp _ hcb =>
    obtain ⟨_, hq, hcase⟩ := dma_tx_callback_effect sys.st _ _ _ _ retval s1 hcb
    have hne : p.op.callback_arg ≠ desc := hops0 p hp
    have hops : ∀ x, x ∈ (dma_retire s1 p).dma_queue → x.op.callback_arg ≠ desc := by
      intro x hx
      simp only [dma_retire, hq] at hx
      exact hops0 x (List.mem_of_mem_erase hx)
    show parked (dma_retire s1 p) id desc ch
    rcases hcase with ⟨hh, hc⟩ | ⟨_, _, hh, hc⟩ | ⟨_, _, hh, hc⟩
    · refine ⟨⟨c0, rest, by rw [cport_handle_congr (show (dma_retire s1 p).cporttable
          = sys.st.cporttable from hc)]; exact hc0, hfifo0⟩, ?_, hops⟩
      rw [deref_congr (show (dma_retire s1 p).heap = sys.st.heap from hh)]
      exact hch0
    · refine ⟨⟨c0, rest, by rw [cport_handle_congr (show (dma_retire s1 p).cporttable
          = sys.st.cporttable from hc)]; exact hc0, hfifo0⟩, ?_, hops⟩
      rw [deref_heap_set_cases sys.st (dma_retire s1 p) p.op.callback_arg desc _ hh,
        if_neg (fun hx => hne hx.1.symm)]
      exact hch0
    · refine ⟨⟨{ c0 with
            tx_fifo := ((c0.tx_fifo.erase p.op.callback_arg).erase p.op.callback_arg) },
          (rest.erase p.op.callback_arg).erase p.op.callback_arg, ?_, ?_⟩, ?_, hops⟩
      · rw [cport_handle_congr (show (dma_retire s1 p).cporttable
          = (list_del (list_del sys.st p.op.callback_arg) p.op.callback_arg).cporttable
          from hc), cport_handle_list_del, cport_handle_list_del, hc0]
        rfl
      · show (c0.tx_fifo.erase p.op.callback_arg).erase p.op.callback_arg = _
        have hb : ¬ (desc == p.op.callback_arg) = true := by
          simpa using fun he : desc = p.op.callback_arg => hne he.symm
        rw [hfifo0, List.erase_cons_tail hb, List.erase_cons_tail hb]
      · rw [deref_congr (show (dma_retire s1 p).heap = sys.st.heap from hh)]
        exact hch0

/-- While a descriptor is parked on a CPort the picker returns no descriptor of
that CPort. -/
theorem parked_not_picked {s : State} (hI : Inv s) (id desc ch : Nat)
    (hpk : parked s id desc ch) (free : Nat → Nat) (start d : Nat) (s1 : State)
    (hp : pick_tx_descriptor free s start = (pick_result.found d, s1)) :
    d ≠ desc ∧ (deref s d).cport ≠ id := by
  obtain ⟨⟨c0, rest, hc0, hfifo0⟩, hch0, _⟩ := hpk
  obtain ⟨_, id1, c1, rest1, hc1, hfifo1, hnone, _⟩ :=
    pick_tx_descriptor_found free s start hI _ _ hp
  have hne : d ≠ desc := by
    intro he
    rw [he, hch0] at hnone
    cases hnone
  refine ⟨hne, ?_⟩
  rw [hI.own id1 c1 hc1 d (by rw [hfifo1]; exact List.mem_cons_self _ _)]
  intro hid
  subst hid
  rw [hc1] at hc0
  cases hc0
  rw [hfifo1] at hfifo0
  exact hne (List.cons.inj hfifo0).1

theorem send_async_trace (s : State) (cportid buf len : Nat) (callback : Option Nat)
    (priv : Nat) (zalloc_ok : Bool) :
    (unipro_send_async s cportid buf len callback priv zalloc_ok).2.trace = s.trace := by
  unfold unipro_send_async
  cases cport_handle s cportid with
  | none => rfl
  | some c =>
    simp only []
    split_ifs <;> rfl

theorem dma_xfer_releases (s : State) (desc1 channel f : Nat) (op_alloc_ret enqueue_ret : Int)
    (desc : Nat) :
    (unipro_dma_xfer s desc1 channel f op_alloc_ret enqueue_ret).2.trace.filter (releases desc)
      = s.trace.filter (releases desc) := by
  unfold unipro_dma_xfer
  simp only []
  split_ifs
  · rfl
  · rfl
  · rfl
  · simp [set_desc, emit, List.filter_append, releases]

/-- A run of `unipro_dma_tx_callback` releases no descriptor but its argument. -/
theorem dma_tx_callback_releases (s : State) (op : device_dma_op) (event : dma_event)
    (arg : Nat) (r : atabl_results) (retval : Int) (s1 : State) (desc : Nat)
    (hne : arg ≠ desc)
    (h : unipro_dma_tx_callback s op event arg r = some (retval, s1)) :
    s1.trace.filter (releases desc) = s.trace.filter (releases desc) := by
  have hstart : ∀ rv b sa, dma_tx_callback_start s arg r = some (rv, b, sa) →
      sa.trace.filter (releases desc) = s.trace.filter (releases desc) := by
    intro rv b sa hs
    unfold dma_tx_callback_start at hs
    simp only [] at hs
    split at hs
    · cases hs
    · split at hs
      · cases hs
      · split_ifs at hs <;>
          simp only [Option.some.injEq, Prod.mk.injEq] at hs <;>
          obtain ⟨_, _, rfl⟩ := hs <;>
          simp [set_channel_cportid, emit, List.filter_append, releases]
  have hcomp : ∀ sa sb, dma_tx_callback_complete sa op arg = some sb →
      sb.trace.filter (releases desc) = sa.trace.filter (releases desc) := by
    intro sa sb hc
    unfold dma_tx_callback_complete at hc
    simp only [] at hc
    split_ifs at hc with hfin hrev
    · split at hc
      · cases hc
      · split at hc
        · cases hc
        · simp only [Option.some.injEq] at hc
          subst hc
          cases (deref sa arg).callback <;>
            simp [unipro_xfer_dequeue_descriptor, unipro_dma_tx_set_eom_flag, list_del, emit,
              List.filter_append, releases, hne]
    · simp only [Option.some.injEq] at hc
      subst hc
      cases (deref sa arg).callback <;>
        simp [unipro_xfer_dequeue_descriptor, unipro_dma_tx_set_eom_flag, list_del, emit,
          List.filter_append, releases, hne]
    · simp only [Option.some.injEq] at hc
      subst hc
      rfl
  unfold unipro_dma_tx_callback at h
  simp only [] at h
  split at h
  · cases h
  · next rv sa heq =>
    simp only [Option.some.injEq, Prod.mk.injEq] at h
    obtain ⟨_, rfl⟩ := h
    split_ifs at heq with hs
    · exact hstart _ _ _ heq
    · cases heq
  · next rv sa heq =>
    have hsa : sa.trace.filter (releases desc) = s.trace.filter (releases desc) := by
      split_ifs at heq with hs
      · exact hstart _ _ _ heq
      · simp only [Option.some.injEq, Prod.mk.injEq] at heq
        obtain ⟨_, _, rfl⟩ := heq
        rfl
    split_ifs at h with hc
    · split at h
      · cases h
      · next s2 h2 =>
        simp only [Option.some.injEq, Prod.mk.injEq] at h
        obtain ⟨_, rfl⟩ := h
        exact (hcomp sa s2 h2).trans hsa
    · simp only [Option.some.injEq, Prod.mk.injEq] at h
      obtain ⟨_, rfl⟩ := h
      exact hsa

/-- No step of the engine releases a parked descriptor. -/
theorem parked_step_releases {sys sys' : System} (hstep : Step sys sys') (hI : Inv sys.st)
    (id desc ch : Nat) (hpk : parked sys.st id desc ch) :
    sys'.st.trace.filter (releases desc) = sys.st.trace.filter (releases desc) := by
  cases hstep with
  | send_async cportid buf len callback priv zalloc_ok _ =>
    show (unipro_send_async sys.st cportid buf len callback priv zalloc_ok).2.trace.filter _ = _
    rw [send_async_trace]
  | worker_wake _ _ => rfl
  | worker_xfer next_cport free desc1 channel s1 free_space op_alloc_ret enqueue_ret _ hp _ =>
    obtain ⟨hs, _⟩ := pick_tx_descriptor_front free sys.st next_cport hI _ _ hp
    subst hs
    exact dma_xfer_releases sys.st desc1 channel free_space op_alloc_ret enqueue_ret desc
  | worker_sleep next_cport free s1 _ hp =>
    obtain ⟨hs, _⟩ := pick_tx_descriptor_front free sys.st next_cport hI _ _ hp
    subst hs
    rfl
  | dma_start p r retval s1 hp _ _ hcb =>
    have h := dma_tx_callback_releases sys.st _ _ _ r retval s1 desc (hpk.2.2 p hp) hcb
    show (if retval = 0 then dma_mark_started s1 p else dma_retire s1 p).trace.filter _ = _
    split_ifs <;> exact h
  | dma_complete p r retval s1 hp _ hcb =>
    exact dma_tx_callback_releases sys.st _ _ _ r retval s1 desc (hpk.2.2 p hp) hcb

/-- A parked descriptor stays parked, and is not released, in every later state
of the engine. -/
theorem parked_forever {sys sys' : System} (hsteps : Relation.ReflTransGen Step sys sys')
    (hr : Reachable sys) (id desc ch : Nat) (hpk : parked sys.st id desc ch) :
    Reachable sys' ∧ parked sys'.st id desc ch ∧
    sys'.st.trace.filter (releases desc) = sys.st.trace.filter (releases desc) := by
  induction hsteps with
  | refl => exact ⟨hr, hpk, rfl⟩
  | tail _ hstep ih =>
    obtain ⟨hr', hpk', htr⟩ := ih
    obtain ⟨sys0, h0, hs0⟩ := hr'
    have hI := Inv_reachable ⟨sys0, h0, hs0⟩
    exact ⟨⟨sys0, h0, hs0.tail hstep⟩, parked_step hstep hI id desc ch hpk',
      (parked_step_releases hstep hI id desc ch hpk').trans htr⟩

/-- C19. When the worker hands a picked descriptor to `unipro_dma_xfer`, the
call gets past the ES2 free-space test and `device_dma_op_alloc` or
`device_dma_enqueue` fails, `unipro_dma_xfer` returns that error (a value that
is not 0) and produces no effect: no callback is called and no op is handed to
the DMA driver. The descriptor is left parked: it is the head of the `tx_fifo`
of its CPort, its `channel` is the attempted channel, and no op refers to it.
In every state the engine reaches afterwards (no reset is requested, so
`pending_reset` is clear) the descriptor is still parked, its callback has not
been called and it has not been freed, and no `pick_tx_descriptor` call returns
a descriptor of that CPort. -/
theorem C19_xfer_failure_parks_descriptor (sys : System) (hr : Reachable sys)
    (next_cport : Nat) (free : Nat → Nat) (desc channel : Nat) (s1 : State)
    (free_space : Nat) (op_alloc_ret enqueue_ret : Int)
    (hw : sys.worker = worker_pc.draining next_cport)
    (hp : pick_tx_descriptor free sys.st next_cport = (pick_result.found desc, s1))
    (hch : pick_dma_channel s1 (deref s1 desc).cport = some channel)
    (hspace : ¬ (s1.rev_id = tsb_rev.tsb_rev_es2 ∧ free_space = 0))
    (hfail : op_alloc_ret ≠ OK ∨ enqueue_ret ≠ 0) :
    (unipro_dma_xfer s1 desc channel free_space op_alloc_ret enqueue_ret).1
      = (if op_alloc_ret ≠ OK then op_alloc_ret else enqueue_ret) ∧
    (unipro_dma_xfer s1 desc channel free_space op_alloc_ret enqueue_ret).1 ≠ 0 ∧
    (unipro_dma_xfer s1 desc channel free_space op_alloc_ret enqueue_ret).2.trace
      = s1.trace ∧
    (unipro_dma_xfer s1 desc channel free_space op_alloc_ret enqueue_ret).2.dma_queue
      = s1.dma_queue ∧
    parked (unipro_dma_xfer s1 desc channel free_space op_alloc_ret enqueue_ret).2
      (deref s1 desc).cport desc channel ∧
    ∀ sys', Relation.ReflTransGen Step
        { st := (unipro_dma_xfer s1 desc channel free_space op_alloc_ret enqueue_ret).2,
          worker := worker_pc.draining ((deref s1 desc).cport + 1) } sys' →
      parked sys'.st (deref s1 desc).cport desc channel ∧
      sys'.st.trace.filter (releases desc) = s1.trace.filter (releases desc) ∧
      ∀ free1 start d s2,
        pick_tx_descriptor free1 sys'.st start = (pick_result.found d, s2) →
        d ≠ desc ∧ (deref sys'.st d).cport ≠ (deref s1 desc).cport := by
  have hI := Inv_reachable hr
  have hF := Flight_reachable hr
  have hstep : Step sys
      { st := (unipro_dma_xfer s1 desc channel free_space op_alloc_ret enqueue_ret).2,
        worker := worker_pc.draining ((deref s1 desc).cport + 1) } :=
    Step.worker_xfer sys next_cport free desc channel s1 free_space op_alloc_ret enqueue_ret
      hw hp hch
  obtain ⟨hs, id, c, rest, hc, hfifo, hnone, _⟩ :=
    pick_tx_descriptor_found free sys.st next_cport hI _ _ hp
  subst hs
  have hmem : desc ∈ c.tx_fifo := by rw [hfifo]; exact List.mem_cons_self _ _
  have hlt : desc < sys.st.heap.length := hI.valid id c hc desc hmem
  have hown : (deref sys.st desc).cport = id := hI.own id c hc desc hmem
  have hops : ∀ p, p ∈ sys.st.dma_queue → p.op.callback_arg ≠ desc := by
    intro p hp' he
    have := hF.ops_channel p hp'
    rw [he] at this
    exact this hnone
  have hret : (unipro_dma_xfer sys.st desc channel free_space op_alloc_ret enqueue_ret).1
        = (if op_alloc_ret ≠ OK then op_alloc_ret else enqueue_ret) ∧
      (unipro_dma_xfer sys.st desc channel free_space op_alloc_ret enqueue_ret).1 ≠ 0 ∧
      (unipro_dma_xfer sys.st desc channel free_space op_alloc_ret enqueue_ret).2.trace
        = sys.st.trace ∧
      (unipro_dma_xfer sys.st desc channel free_space op_alloc_ret enqueue_ret).2.dma_queue
        = sys.st.dma_queue ∧
      (unipro_dma_xfer sys.st desc channel free_space op_alloc_ret enqueue_ret).2.cporttable
        = sys.st.cporttable ∧
      (deref (unipro_dma_xfer sys.st desc channel free_space op_alloc_ret enqueue_ret).2
        desc).channel = some channel := by
    unfold unipro_dma_xfer
    simp only [if_neg hspace]
    by_cases ha : op_alloc_ret ≠ OK
    · simp only [if_pos ha]
      refine ⟨trivial, ha, rfl, rfl, rfl, ?_⟩
      rw [deref_heap_set_cases sys.st (set_desc sys.st desc _) desc desc _ rfl,
        if_pos ⟨rfl, hlt⟩]
    · have he : enqueue_ret ≠ 0 := hfail.resolve_left ha
      simp only [if_neg ha, if_pos he]
      refine ⟨trivial, he, rfl, rfl, rfl, ?_⟩
      simp [deref, set_desc, List.getD_eq_getElem?_getD, hlt]
  obtain ⟨h1, h2, h3, h4, h5, h6⟩ := hret
  have hpk : parked (unipro_dma_xfer sys.st desc channel free_space op_alloc_ret
      enqueue_ret).2 (deref sys.st desc).cport desc channel := by
    refine ⟨⟨c, rest, ?_, hfifo⟩, h6, ?_⟩
    · rw [cport_handle_congr h5, hown]; exact hc
    · intro p hp'; rw [h4] at hp'; exact hops p hp'
  refine ⟨h1, h2, h3, h4, hpk, ?_⟩
  intro sys' hsteps
  have hr1 : Reachable
      { st := (unipro_dma_xfer sys.st desc channel free_space op_alloc_ret enqueue_ret).2,
        worker := worker_pc.draining ((deref sys.st desc).cport + 1) } := by
    obtain ⟨sys0, h0, hs0⟩ := hr
    exact ⟨sys0, h0, hs0.tail hstep⟩
  obtain ⟨hr', hpk', htr⟩ := parked_forever hsteps hr1 _ desc channel hpk
  refine ⟨hpk', ?_, ?_⟩
  · rw [htr]
    show (unipro_dma_xfer sys.st desc channel free_space op_alloc_ret
      enqueue_ret).2.trace.filter _ = _
    rw [h3]
  · intro free1 start d s2 hp2
    exact parked_not_picked (Inv_reachable hr') _ desc channel hpk' free1 start d s2 hp2

/-- Witness of C19 on scenario S5 with `device_dma_op_alloc` failing with
`-ENOMEM` for descriptor 0 of CPort 7: the call returns `-ENOMEM`, descriptor 0
is parked on CPort 7 with channel 0, and the next pick of the pass returns
descriptor 1 of CPort 8. -/
theorem C19_xfer_failure_parks_descriptor_witness :
    (unipro_dma_xfer s5_awake.st 0 0 64 (-ENOMEM) 0).1 = -ENOMEM ∧
    s5_alloc_failed.st.trace = s5_awake.st.trace ∧
    parked s5_alloc_failed.st 7 0 0 ∧
    pick_tx_descriptor (fun _ => 64) s5_alloc_failed.st 8
      = (pick_result.found 1, s5_alloc_failed.st) ∧
    (deref s5_alloc_failed.st 1).cport ≠ 7 := by
  have h := C19_xfer_failure_parks_descriptor s5_awake s5_awake_reachable 0 (fun _ => 64)
    0 0 s5_awake.st 64 (-ENOMEM) 0 rfl (by decide) (by decide) (by decide)
    (Or.inl (by decide))
  refine ⟨by decide, h.2.2.1, h.2.2.2.2.1, by decide, ?_⟩
  exact ((h.2.2.2.2.2 s5_alloc_failed Relation.ReflTransGen.refl).2.2 (fun _ => 64) 8 1
    s5_alloc_failed.st (by decide)).2

/-! ### C20: one pass of the worker's inner loop -/

end Unipro
